import Mathlib

/-!
# Verification of `gifunopt.c` (GIF unoptimization)

A shallow embedding of `src/src/gifunopt.c` and theorems about it.

Conventions of the embedding.

* A `u_int16_t *screen` buffer is a `List Nat`; cell `(x, y)` of a canvas of
  width `sw` is entry `sw * y + x`.
* Pointers into the stream (`Gif_Image *gfi`) that are written through are
  represented by the index `i` of the frame in `gfs.images`; functions that only
  read the frame receive its current value.
* Mutation is explicit state passing: a function returns the new stream and the
  new shared canvas.
* `int size = screen_width * screen_height` is computed in `Nat`; the embedding
  assumes the product fits a C `int`.
* `gif.h`, the allocator and `Gif_CalculateScreenSize` are not part of the source
  file; what the code needs from them is modelled from the specification or taken
  as a parameter, and marked as such.
-/

namespace Gifunopt

/-! ## Data model -/

/-- The canvas value for "no opaque colour drawn here" (`#define TRANSPARENT 256`,
line 22). -/
def TRANSPARENT : Nat := 256

/-- Modelled from the spec: the disposal directive of a frame, declared in `gif.h`
(absent). The spec lists three directives: none/keep, restore-to-background
(`GIF_DISPOSAL_BACKGROUND`) and restore-to-previous (`GIF_DISPOSAL_PREVIOUS`). -/
inductive Gif_Disposal where
  | none
  | background
  | previous
  deriving DecidableEq, Repr, Inhabited

/-- Modelled from the spec: a palette entry (`Gif_Color` of `gif.h`, absent), an RGB
triple. -/
structure Gif_Color where
  red : Nat
  green : Nat
  blue : Nat
  deriving DecidableEq, Repr, Inhabited

/-- Modelled from the spec: a palette (`Gif_Colormap` of `gif.h`, absent): the entry
count `ncol` and the backing storage `col`. -/
structure Gif_Colormap where
  ncol : Nat
  col : List Gif_Color
  deriving DecidableEq, Repr, Inhabited

/-- Modelled from the spec: a frame (`Gif_Image` of `gif.h`, absent). `localmap` is the
C field `local`; `transparent` is negative (`-1`) when the frame has no transparent
index; `image_data` is the decompressed pixel buffer, row after row, so that the C
expression `gfi->img[y][x]` is entry `y * width + x`. -/
structure Gif_Image where
  localmap : Option Gif_Colormap
  transparent : Int
  disposal : Gif_Disposal
  left : Nat
  top : Nat
  width : Nat
  height : Nat
  image_data : List Nat
  deriving DecidableEq, Repr, Inhabited

/-- Modelled from the spec: a stream (`Gif_Stream` of `gif.h`, absent). `nimages` is
`images.length`. -/
structure Gif_Stream where
  global : Option Gif_Colormap
  background : Nat
  screen_width : Nat
  screen_height : Nat
  images : List Gif_Image
  deriving DecidableEq, Repr, Inhabited

/-- The C expression `gfi->img[y][x]`. -/
def Gif_Image.img (gfi : Gif_Image) (y x : Nat) : Nat :=
  gfi.image_data.getD (y * gfi.width + x) 0

/-- The C expression `gfs->images[i]`. -/
def Gif_Stream.image (gfs : Gif_Stream) (i : Nat) : Gif_Image :=
  gfs.images.getD i default

/-- Store through the pointer `gfs->images[i]`. -/
def Gif_Stream.setImage (gfs : Gif_Stream) (i : Nat) (gfi : Gif_Image) : Gif_Stream :=
  { gfs with images := gfs.images.set i gfi }

/-- Outcomes of the allocation requests made while one frame is rewritten:
`new_data` (line 119), `new_screen` (line 128) and the palette reallocation
`Gif_ReArray` (line 94), which on success also supplies the contents of the slots
it adds. -/
structure Alloc where
  new_data : Bool
  new_screen : Bool
  rearray : Option (Nat → Gif_Color)

/-- Every allocation request succeeds; added palette slots are zeroed. -/
def Alloc.allOk : Alloc :=
  { new_data := true, new_screen := true, rearray := some (fun _ => default) }

/-- The stream, the shared canvas and a success flag: the state threaded through
the frame loop of `Gif_Unoptimize`, and the result of `unoptimize_image`. -/
structure RunState where
  ok : Bool
  gfs : Gif_Stream
  screen : List Nat

/-! ## The functions of `gifunopt.c` -/

/-- Lines 29-32 and 49-52: the extent `w` (or `h`) of a frame after clipping to the
canvas. In C the clipped extent is an `int` that is negative when the offset lies
beyond the canvas; the loops then run zero times, as they do for `0` here. -/
def clip (off len lim : Nat) : Nat :=
  if off + len > lim then lim - off else len

/-- Lines 37-39: one row of `put_image_in_screen`. -/
def put_image_row (gfs : Gif_Stream) (gfi : Gif_Image) (w y : Nat) (screen : List Nat) :
    List Nat :=
  (List.range w).foldl
    (fun scr x =>
      if (gfi.img y x : Int) ≠ gfi.transparent then
        scr.set (gfs.screen_width * (y + gfi.top) + gfi.left + x) (gfi.img y x)
      else scr)
    screen

/-- Lines 24-41. -/
def put_image_in_screen (gfs : Gif_Stream) (gfi : Gif_Image) (screen : List Nat) :
    List Nat :=
  let w := clip gfi.left gfi.width gfs.screen_width
  let h := clip gfi.top gfi.height gfs.screen_height
  (List.range h).foldl (fun scr y => put_image_row gfs gfi w y scr) screen

/-- Lines 54-59: the fill value of `put_background_in_screen`. -/
def solid (gfs : Gif_Stream) (gfi : Gif_Image) : Nat :=
  if gfi.transparent ≥ 0 then TRANSPARENT
  else if (gfs.image 0).transparent ≥ 0 then TRANSPARENT
  else gfs.background

/-- Lines 63-64: one row of `put_background_in_screen`. -/
def put_background_row (gfs : Gif_Stream) (gfi : Gif_Image) (w y : Nat) (screen : List Nat) :
    List Nat :=
  (List.range w).foldl
    (fun scr x => scr.set (gfs.screen_width * (y + gfi.top) + gfi.left + x) (solid gfs gfi))
    screen

/-- Lines 44-66. -/
def put_background_in_screen (gfs : Gif_Stream) (gfi : Gif_Image) (screen : List Nat) :
    List Nat :=
  let w := clip gfi.left gfi.width gfs.screen_width
  let h := clip gfi.top gfi.height gfs.screen_height
  (List.range h).foldl (fun scr y => put_background_row gfs gfi w y scr) screen

/-- Lines 81-84: `have[v]` after the marking loop over the first `size` cells, for
`v` in `0..256`. -/
def have_ (screen : List Nat) (size v : Nat) : Bool :=
  (screen.take size).contains v

/-- Lines 88-90: the first index in `0..255` whose `have` entry is clear. -/
def first_unused (screen : List Nat) (size : Nat) : Option Nat :=
  (List.range 256).find? (fun v => !have_ screen size v)

/-- Modelled from the spec: a successful `Gif_ReArray(col, Gif_Color, 256)` (palette
grower, absent): storage of 256 entries that keeps the existing entries at their
indices; `fresh` gives the contents of the added slots. -/
def Gif_ReArray (col : List Gif_Color) (fresh : Nat → Gif_Color) : List Gif_Color :=
  col.take 256 ++ (List.range (256 - col.length)).map (fun k => fresh (col.length + k))

/-- Lines 101-105: the byte stored for canvas cell `v`. -/
def remap_cell (transparent : Int) (v : Nat) : Nat :=
  if v = TRANSPARENT then (transparent % 256).toNat else v % 256

/-- Lines 100-108: fill `new_data` and record the transparent index on frame `i`. -/
def create_image_data_finish (gfs : Gif_Stream) (i : Nat) (screen : List Nat)
    (transparent : Int) : Bool × Gif_Stream × List Nat :=
  let size := gfs.screen_width * gfs.screen_height
  (true,
   gfs.setImage i { gfs.image i with transparent := transparent },
   (screen.take size).map (remap_cell transparent))

/-- Lines 69-112, with `gfi = gfs->images[i]`. Returns the success flag, the stream
(palette and the frame's transparent index may have changed) and `new_data`.
On the error exit `new_data` has not been written and is reported as `[]`.
A failed `Gif_ReArray` leaves `col` null. Line 93 dereferences `gfs->global`; the
embedding reports failure when there is none (`Gif_Unoptimize` excludes this). -/
def create_image_data (gfs : Gif_Stream) (i : Nat) (screen : List Nat)
    (rearray : Option (Nat → Gif_Color)) : Bool × Gif_Stream × List Nat :=
  let size := gfs.screen_width * gfs.screen_height
  if have_ screen size TRANSPARENT then
    match first_unused screen size with
    | none => (false, gfs, [])
    | some t =>
      match gfs.global with
      | none => (false, gfs, [])
      | some g =>
        if t ≥ g.ncol then
          match rearray with
          | none => (false, { gfs with global := some { g with col := [] } }, [])
          | some fresh =>
            create_image_data_finish
              { gfs with global := some { ncol := t + 1, col := Gif_ReArray g.col fresh } }
              i screen t
        else create_image_data_finish gfs i screen t
  else create_image_data_finish gfs i screen (-1)

/-- Lines 115-152, with `gfi = gfs->images[i]`. Decompression (lines 124-125) does
not change the embedded frame, whose pixels are held decompressed. The scratch
copy of line 130 is the list `screen` itself. The result carries the shared canvas
`screen` as the call leaves it. -/
def unoptimize_image (gfs : Gif_Stream) (i : Nat) (screen : List Nat) (a : Alloc) :
    RunState :=
  if !a.new_data then ⟨false, gfs, screen⟩
  else
    let gfi := gfs.image i
    if gfi.disposal = Gif_Disposal.previous ∧ a.new_screen = false then
      ⟨false, gfs, screen⟩
    else
      let new_screen := put_image_in_screen gfs gfi screen
      let shared := if gfi.disposal = Gif_Disposal.previous then screen else new_screen
      match create_image_data gfs i new_screen a.rearray with
      | (false, gfs1, _) => ⟨false, gfs1, shared⟩
      | (true, gfs1, new_data) =>
        let gfi1 := gfs1.image i
        let shared1 :=
          if gfi1.disposal = Gif_Disposal.previous then shared
          else if gfi1.disposal = Gif_Disposal.background then
            put_background_in_screen gfs1 gfi1 shared
          else shared
        ⟨true,
         gfs1.setImage i
           { gfi1 with
             left := 0, top := 0,
             width := gfs1.screen_width, height := gfs1.screen_height,
             disposal := Gif_Disposal.background,
             image_data := new_data },
         shared1⟩

/-- Lines 180-182: one iteration of the frame loop. -/
def loop_step (alloc : Nat → Alloc) (st : RunState) (i : Nat) : RunState :=
  let r := unoptimize_image st.gfs i st.screen (alloc i)
  ⟨if r.ok then st.ok else false, r.gfs, r.screen⟩

/-- Lines 180-182: the state after the first `k` iterations of the frame loop. -/
def loop_upto (alloc : Nat → Alloc) (st : RunState) (k : Nat) : RunState :=
  (List.range k).foldl (loop_step alloc) st

/-- Lines 171-178: the state on entry to the frame loop. `calcsize` stands for
`Gif_CalculateScreenSize(gfs, 0)` (absent): it yields the canvas width and height
the stream has afterwards. The canvas allocation of line 174 is not checked by
the code and is taken to succeed. -/
def init_state (calcsize : Gif_Stream → Nat × Nat) (gfs : Gif_Stream) : RunState :=
  let gfs1 : Gif_Stream :=
    { gfs with screen_width := (calcsize gfs).1, screen_height := (calcsize gfs).2 }
  let size := gfs1.screen_width * gfs1.screen_height
  let gfi := gfs1.image 0
  let background := if gfi.transparent ≥ 0 then TRANSPARENT else gfs1.background
  ⟨true, gfs1, List.replicate size background⟩

/-- Lines 155-186, keeping the shared canvas as it is when it is released (line
184). -/
def Gif_Unoptimize_run (calcsize : Gif_Stream → Nat × Nat) (alloc : Nat → Alloc)
    (gfs : Gif_Stream) : RunState :=
  if gfs.images.length ≤ 1 then ⟨true, gfs, []⟩
  else if gfs.images.any (fun gfi => gfi.localmap.isSome) then ⟨false, gfs, []⟩
  else if gfs.global.isNone then ⟨false, gfs, []⟩
  else loop_upto alloc (init_state calcsize gfs) gfs.images.length

/-- Lines 155-186: the returned flag and the stream after the call. -/
def Gif_Unoptimize (calcsize : Gif_Stream → Nat × Nat) (alloc : Nat → Alloc)
    (gfs : Gif_Stream) : Bool × Gif_Stream :=
  ((Gif_Unoptimize_run calcsize alloc gfs).ok, (Gif_Unoptimize_run calcsize alloc gfs).gfs)

/-! ## Auxiliary definitions for the statements and proofs -/

/-- The shared canvas after the compositing step of `unoptimize_image` (lines
127-133): untouched for a restore-to-previous frame, drawn on otherwise. -/
def shared_after_draw (gfs : Gif_Stream) (i : Nat) (screen : List Nat) : List Nat :=
  if (gfs.image i).disposal = Gif_Disposal.previous then screen
  else put_image_in_screen gfs (gfs.image i) screen

/-- Whether the allocations of lines 119 and 128 succeed for frame `i`. -/
def buffers_ok (gfs : Gif_Stream) (i : Nat) (a : Alloc) : Prop :=
  a.new_data = true ∧
    ¬ ((gfs.image i).disposal = Gif_Disposal.previous ∧ a.new_screen = false)

/-- The frame record written by lines 144-149 of `unoptimize_image`. -/
def flat_frame (gfs1 : Gif_Stream) (i : Nat) (new_data : List Nat) : Gif_Image :=
  { gfs1.image i with
    left := 0, top := 0,
    width := gfs1.screen_width, height := gfs1.screen_height,
    disposal := Gif_Disposal.background,
    image_data := new_data }

/-- The stream after `create_image_data`, as a function of its case: `t` is the
transparent index recorded on frame `i` and `g` the palette. -/
def remapped_stream (gfs : Gif_Stream) (i : Nat) (t : Int) (g : Option Gif_Colormap) :
    Gif_Stream :=
  { gfs with global := g, images := gfs.images.set i { gfs.image i with transparent := t } }

/-- What rewriting frame `i` can do to the rest of the stream: the canvas size, the
background and the number of frames stay, frames other than `i` stay, and a shared
palette stays present. -/
structure StreamEffect (gfs gfs1 : Gif_Stream) (i : Nat) : Prop where
  width : gfs1.screen_width = gfs.screen_width
  height : gfs1.screen_height = gfs.screen_height
  background : gfs1.background = gfs.background
  length : gfs1.images.length = gfs.images.length
  other : ∀ j, j ≠ i → gfs1.image j = gfs.image j
  global : gfs.global.isSome = true → gfs1.global.isSome = true

/-- What the frame loop keeps fixed. -/
structure LoopInv (st0 st : RunState) : Prop where
  width : st.gfs.screen_width = st0.gfs.screen_width
  height : st.gfs.screen_height = st0.gfs.screen_height
  background : st.gfs.background = st0.gfs.background
  length : st.gfs.images.length = st0.gfs.images.length
  global : st0.gfs.global.isSome = true → st.gfs.global.isSome = true
  screen : st.screen.length = st0.screen.length

/-- The return value of the call `unoptimize_image(gfs, gfs->images[j], screen)`
made by iteration `j` of the frame loop that starts in state `st`. -/
def rewrite_ok (alloc : Nat → Alloc) (st : RunState) (j : Nat) : Bool :=
  (unoptimize_image (loop_upto alloc st j).gfs j (loop_upto alloc st j).screen (alloc j)).ok

/-- A frame is flattened for the stream `gfs`: offset (0,0), the size of the
canvas, disposal restore-to-background and one pixel per canvas cell. -/
def flattened (gfs : Gif_Stream) (gfi : Gif_Image) : Prop :=
  gfi.left = 0 ∧ gfi.top = 0 ∧
  gfi.width = gfs.screen_width ∧ gfi.height = gfs.screen_height ∧
  gfi.disposal = Gif_Disposal.background ∧
  gfi.image_data.length = gfs.screen_width * gfs.screen_height

instance (gfs : Gif_Stream) (gfi : Gif_Image) : Decidable (flattened gfs gfi) := by
  unfold flattened
  infer_instance

/-- The stream passes the precondition checks of `Gif_Unoptimize` (lines 164-169):
at least two frames, no frame-local palette, a shared palette. -/
def passes_checks (gfs : Gif_Stream) : Prop :=
  2 ≤ gfs.images.length ∧ (∀ gfi ∈ gfs.images, gfi.localmap = none) ∧ gfs.global.isSome = true

instance (gfs : Gif_Stream) : Decidable (passes_checks gfs) := by
  unfold passes_checks
  infer_instance

/-- The pixels of the frame are bytes. -/
def byte_pixels (gfi : Gif_Image) : Prop :=
  ∀ v ∈ gfi.image_data, v < 256

instance (gfi : Gif_Image) : Decidable (byte_pixels gfi) := by
  unfold byte_pixels
  infer_instance

/-- Reading a stored pixel back: the frame's transparent index `t` stands for the
sentinel, every other value for itself. -/
def read_back (t : Int) (v : Nat) : Nat :=
  if (v : Int) = t then TRANSPARENT else v

/-- What output frame `i` of stream `out` shows at cell `(x, y)`, with its recorded
transparent index read back as the sentinel. -/
def shown (out : Gif_Stream) (i x y : Nat) : Nat :=
  read_back (out.image i).transparent
    ((out.image i).image_data.getD (out.screen_width * y + x) 0)

/-! ## Rectangle writes, the common form of compositing and disposal -/

/-- Writing `val x` (when there is one) at `base + x` for `x = 0 .. w-1`. -/
def write_row (base w : Nat) (val : Nat → Option Nat) (scr : List Nat) : List Nat :=
  (List.range w).foldl
    (fun s x => match val x with
      | some v => s.set (base + x) v
      | none => s)
    scr

/-- Writing rows `y = 0 .. h-1` of width `w` at offset `(left, top)` on a canvas of
width `sw`. -/
def write_rect (sw top left w h : Nat) (val : Nat → Nat → Option Nat) (scr : List Nat) :
    List Nat :=
  (List.range h).foldl (fun s y => write_row (sw * (y + top) + left) w (val y) s) scr

/-- The value `put_image_in_screen` writes for source pixel `(x, y)` of the frame,
if it writes one. -/
def image_val (gfi : Gif_Image) (y x : Nat) : Option Nat :=
  if (gfi.img y x : Int) ≠ gfi.transparent then some (gfi.img y x) else none

/-! ## The renderer of claim C1, defined on the input stream -/

/-- Cell `(x, y)` lies in the rectangle of the frame. -/
def in_rect (gfi : Gif_Image) (x y : Nat) : Prop :=
  gfi.left ≤ x ∧ x < gfi.left + gfi.width ∧ gfi.top ≤ y ∧ y < gfi.top + gfi.height

instance (gfi : Gif_Image) (x y : Nat) : Decidable (in_rect gfi x y) := by
  unfold in_rect
  infer_instance

/-- Renderer: draw the frame's non-transparent pixels at its offset onto the
virtual screen `c` (a virtual screen gives the extended index at each cell). -/
def renderer_draw (gfi : Gif_Image) (c : Nat → Nat → Nat) : Nat → Nat → Nat :=
  fun x y =>
    if in_rect gfi x y ∧ (gfi.img (y - gfi.top) (x - gfi.left) : Int) ≠ gfi.transparent then
      gfi.img (y - gfi.top) (x - gfi.left)
    else c x y

/-- Renderer: the fill of restore-to-background for input frame `gfi`: the sentinel
if that frame or input frame 0 declares a transparent index, otherwise the
background index. -/
def renderer_fill (gfs : Gif_Stream) (gfi : Gif_Image) : Nat :=
  if gfi.transparent ≥ 0 ∨ (gfs.image 0).transparent ≥ 0 then TRANSPARENT
  else gfs.background

/-- Renderer: apply the frame's disposal. `before` is the virtual screen before the
frame was drawn, `drawn` the one after. -/
def renderer_dispose (gfs : Gif_Stream) (gfi : Gif_Image) (before drawn : Nat → Nat → Nat) :
    Nat → Nat → Nat :=
  match gfi.disposal with
  | Gif_Disposal.none => drawn
  | Gif_Disposal.background =>
    fun x y => if in_rect gfi x y then renderer_fill gfs gfi else drawn x y
  | Gif_Disposal.previous => before

/-- Renderer: the virtual screen onto which input frame `i` is drawn. -/
def renderer_canvas (gfs : Gif_Stream) : Nat → Nat → Nat → Nat
  | 0 => fun _ _ => if (gfs.image 0).transparent ≥ 0 then TRANSPARENT else gfs.background
  | j + 1 =>
    renderer_dispose gfs (gfs.image j) (renderer_canvas gfs j)
      (renderer_draw (gfs.image j) (renderer_canvas gfs j))

/-- Renderer: the virtual screen shown for input frame `i`. -/
def renderer_screen (gfs : Gif_Stream) (i : Nat) : Nat → Nat → Nat :=
  renderer_draw (gfs.image i) (renderer_canvas gfs i)

/-! ## Virtual screens with a given restore-to-background fill -/

/-- The virtual screen held by a canvas buffer of width `sw`. -/
def screen_fn (sw : Nat) (screen : List Nat) : Nat → Nat → Nat :=
  fun x y => screen.getD (sw * y + x) 0

/-- Apply the disposal of frame `gfi`, restore-to-background filling its rectangle
with `fill`. -/
def dispose_with (gfi : Gif_Image) (fill : Nat) (before drawn : Nat → Nat → Nat) :
    Nat → Nat → Nat :=
  match gfi.disposal with
  | Gif_Disposal.none => drawn
  | Gif_Disposal.background => fun x y => if in_rect gfi x y then fill else drawn x y
  | Gif_Disposal.previous => before

/-- The virtual screen onto which input frame `i` is drawn when restore-to-background
after frame `j` fills with `fill j`. -/
def canvas_with (gfs : Gif_Stream) (fill : Nat → Nat) : Nat → Nat → Nat → Nat
  | 0 => fun _ _ => if (gfs.image 0).transparent ≥ 0 then TRANSPARENT else gfs.background
  | j + 1 =>
    dispose_with (gfs.image j) (fill j) (canvas_with gfs fill j)
      (renderer_draw (gfs.image j) (canvas_with gfs fill j))

/-- The fill value `put_background_in_screen` uses for frame `j` in the frame loop
that starts in state `st`: `solid` on the stream as iteration `j` leaves it. -/
def loop_fill (alloc : Nat → Alloc) (st : RunState) (j : Nat) : Nat :=
  solid (loop_upto alloc st (j + 1)).gfs ((loop_upto alloc st (j + 1)).gfs.image j)

/-! ## Example streams and canvases -/

/-- A frame without frame-local palette. -/
def frame (transparent : Int) (disposal : Gif_Disposal) (left top width height : Nat)
    (image_data : List Nat) : Gif_Image :=
  { localmap := none, transparent := transparent, disposal := disposal,
    left := left, top := top, width := width, height := height,
    image_data := image_data }

/-- A palette of `n` black entries. -/
def palette (n : Nat) : Gif_Colormap :=
  { ncol := n, col := List.replicate n default }

/-- The canvas size already stored in the stream (a calculator that changes
nothing). -/
def keep_size (gfs : Gif_Stream) : Nat × Nat :=
  (gfs.screen_width, gfs.screen_height)

/-- Allocation outcomes under which the pixel buffer of frame 1 cannot be
allocated and every other request succeeds. -/
def alloc_fail_1 (j : Nat) : Alloc :=
  if j = 1 then { Alloc.allOk with new_data := false } else Alloc.allOk

/-- A stream with a single 1x1 frame that has a frame-local palette, an offset
outside the 1x1 canvas and disposal restore-to-previous, and no shared palette. -/
def single_frame_stream : Gif_Stream :=
  { global := none, background := 300, screen_width := 1, screen_height := 1,
    images := [{ frame 0 Gif_Disposal.previous 5 6 1 1 [3] with localmap := some (palette 2) }] }

/-- Two 1x1 frames on a 1x1 canvas; the second one has a frame-local palette. -/
def local_palette_stream : Gif_Stream :=
  { global := some (palette 4), background := 0, screen_width := 1, screen_height := 1,
    images := [frame (-1) Gif_Disposal.none 0 0 1 1 [1],
               { frame 2 Gif_Disposal.background 0 0 1 1 [3] with localmap := some (palette 4) }] }

/-- Two 1x1 frames on a 1x1 canvas, no shared palette. -/
def no_global_stream : Gif_Stream :=
  { global := none, background := 0, screen_width := 1, screen_height := 1,
    images := [frame (-1) Gif_Disposal.none 0 0 1 1 [1],
               frame 2 Gif_Disposal.background 0 0 1 1 [3]] }

/-- A stream whose only frames are a 2x1 frame kept on the canvas and a 1x1
restore-to-previous frame drawn over its first cell. -/
def previous_stream : Gif_Stream :=
  { global := some (palette 4), background := 0, screen_width := 2, screen_height := 1,
    images := [frame (-1) Gif_Disposal.none 0 0 2 1 [1, 2],
               frame (-1) Gif_Disposal.previous 0 0 1 1 [3]] }

/-- Scenario A of the specification: a 2x2 canvas with shared palette `g` and
background index `b`; frame 0 covers the canvas with `[0,1,2,3]`, disposal none;
frame 1 is the single pixel `4` at (0,0), disposal restore-to-background; neither
has a transparent index. -/
def scenario_A (g : Gif_Colormap) (b : Nat) : Gif_Stream :=
  { global := some g, background := b, screen_width := 2, screen_height := 2,
    images := [frame (-1) Gif_Disposal.none 0 0 2 2 [0, 1, 2, 3],
               frame (-1) Gif_Disposal.background 0 0 1 1 [4]] }

/-- Three 1x1 frames on a 2x1 canvas. -/
def three_frame_stream : Gif_Stream :=
  { global := some (palette 8), background := 0, screen_width := 2, screen_height := 1,
    images := [frame (-1) Gif_Disposal.none 0 0 1 1 [1],
               frame (-1) Gif_Disposal.none 1 0 1 1 [2],
               frame (-1) Gif_Disposal.none 0 0 1 1 [3]] }

/-- A canvas of 257 cells that holds the sentinel and every value 0..255. -/
def exhausted_canvas : List Nat :=
  TRANSPARENT :: List.range 256

/-- A stream with a 257x1 canvas and one frame. -/
def wide_stream : Gif_Stream :=
  { global := some (palette 256), background := 0, screen_width := 257, screen_height := 1,
    images := [frame (-1) Gif_Disposal.none 0 0 1 1 [0]] }

/-- A stream with a 2x2 canvas, a palette of 4 entries and one frame that
declares transparent index 3. -/
def small_stream : Gif_Stream :=
  { global := some (palette 4), background := 0, screen_width := 2, screen_height := 2,
    images := [frame 3 Gif_Disposal.none 0 0 1 1 [0]] }

/-- A 2x1 canvas with background index 7. Frame 0 covers the canvas with the
opaque pixels `[1, 2]`, declares transparent index 0 (which none of its pixels
uses) and has disposal restore-to-background. Frame 1 is the single opaque pixel
`3` at (0,0). -/
def declared_unused_stream : Gif_Stream :=
  { global := some (palette 8), background := 7, screen_width := 2, screen_height := 1,
    images := [frame 0 Gif_Disposal.background 0 0 2 1 [1, 2],
               frame (-1) Gif_Disposal.none 0 0 1 1 [3]] }

/-! ## Definitions for the palette and the remaining scenarios -/

/-- The size of the shared palette, `gfs->global->ncol`; `0` when there is none. -/
def palette_size (gfs : Gif_Stream) : Nat :=
  match gfs.global with
  | some g => g.ncol
  | none => 0

/-- A stream with a 257x1 canvas whose only frame draws pixel `0` at cell (1,0),
disposal none. -/
def crowded_stream : Gif_Stream :=
  { global := some (palette 256), background := 0, screen_width := 257, screen_height := 1,
    images := [frame (-1) Gif_Disposal.none 1 0 1 1 [0]] }

/-- A 2x1 canvas with background index 7. Frame 0 covers the canvas with `[1, 2]`,
no transparent index, disposal none. Frame 1 is the single opaque pixel `3` at
(0,0); it declares transparent index 0 and has disposal restore-to-background. -/
def declared_later_stream : Gif_Stream :=
  { global := some (palette 8), background := 7, screen_width := 2, screen_height := 1,
    images := [frame (-1) Gif_Disposal.none 0 0 2 1 [1, 2],
               frame 0 Gif_Disposal.background 0 0 1 1 [3]] }

/-- A 2x2 canvas with a palette of one entry. Frame 0 is the pixel `0` at (0,0)
and declares transparent index 1; frame 1 is the pixel `0` at (1,0). -/
def growing_stream : Gif_Stream :=
  { global := some (palette 1), background := 0, screen_width := 2, screen_height := 2,
    images := [frame 1 Gif_Disposal.none 0 0 1 1 [0],
               frame (-1) Gif_Disposal.none 1 0 1 1 [0]] }

/-- The frames of `declared_unused_stream` without transparent index, on a stream
whose background index is 300. -/
def high_background_stream : Gif_Stream :=
  { global := some (palette 8), background := 300, screen_width := 2, screen_height := 1,
    images := [frame (-1) Gif_Disposal.background 0 0 2 1 [1, 2],
               frame (-1) Gif_Disposal.none 0 0 1 1 [3]] }

instance (gfs : Gif_Stream) (i : Nat) (a : Alloc) : Decidable (buffers_ok gfs i a) := by
  unfold buffers_ok
  infer_instance

/-! ## Definitions for idempotence (C17) -/

/-- Frame `j` of stream `s` is the remap of some canvas `V` of the stream's canvas
size with cells at most 256: its pixels are `V` under the cell map of
`create_image_data` for its transparent index `t`, and `t` is what
`create_image_data` chooses on `V`: `-1` if `V` has no sentinel, otherwise the first
unused index, which is below the palette size. -/
def remap_of_canvas (s : Gif_Stream) (j : Nat) : Prop :=
  ∃ V : List Nat,
    V.length = s.screen_width * s.screen_height ∧
    (∀ v ∈ V, v ≤ 256) ∧
    (s.image j).image_data = V.map (remap_cell (s.image j).transparent) ∧
    ((have_ V (s.screen_width * s.screen_height) TRANSPARENT = false ∧
        (s.image j).transparent = -1) ∨
      (have_ V (s.screen_width * s.screen_height) TRANSPARENT = true ∧
        ∃ n : Nat, first_unused V (s.screen_width * s.screen_height) = some n ∧
          (s.image j).transparent = n ∧ n < palette_size s))

/-- The frame has the placement and disposal that lines 144-148 write. -/
def flat_placement (s : Gif_Stream) (j : Nat) : Prop :=
  (s.image j).left = 0 ∧ (s.image j).top = 0 ∧
  (s.image j).width = s.screen_width ∧ (s.image j).height = s.screen_height ∧
  (s.image j).disposal = Gif_Disposal.background

/-- Frame 0 records a transparent index if any frame does. -/
def first_frame_leads (s : Gif_Stream) : Prop :=
  0 ≤ (s.image 0).transparent ∨ ∀ j, j < s.images.length → (s.image j).transparent < 0

instance (s : Gif_Stream) : Decidable (first_frame_leads s) := by
  unfold first_frame_leads
  infer_instance

/-- The value every cell of the shared canvas holds when a flat stream `s` is
processed again and the loop reaches frame `k`. -/
def refill (s : Gif_Stream) : Nat → Nat
  | 0 => if (s.image 0).transparent ≥ 0 then TRANSPARENT else s.background
  | k + 1 => solid s (s.image k)

/-- A 2x1 canvas with background index 7. Frame 0 covers the canvas with the opaque
pixels `[1, 2]`, declares transparent index 0 and has disposal restore-to-previous.
Frame 1 is the single opaque pixel `3` at (0,0). -/
def previous_first_stream : Gif_Stream :=
  { global := some (palette 8), background := 7, screen_width := 2, screen_height := 1,
    images := [frame 0 Gif_Disposal.previous 0 0 2 1 [1, 2],
               frame (-1) Gif_Disposal.none 0 0 1 1 [3]] }

/-! ## Basic facts about the embedded functions -/

theorem foldl_length_eq {α : Type} (f : List Nat → α → List Nat)
    (hf : ∀ s x, (f s x).length = s.length) (l : List α) (s : List Nat) :
    (l.foldl f s).length = s.length := by
  induction l generalizing s with
  | nil => rfl
  | cons a l ih => simp [List.foldl, ih, hf]

theorem put_image_row_length (gfs : Gif_Stream) (gfi : Gif_Image) (w y : Nat)
    (screen : List Nat) : (put_image_row gfs gfi w y screen).length = screen.length := by
  unfold put_image_row
  apply foldl_length_eq
  intro s x
  split <;> simp

theorem put_image_in_screen_length (gfs : Gif_Stream) (gfi : Gif_Image)
    (screen : List Nat) : (put_image_in_screen gfs gfi screen).length = screen.length := by
  unfold put_image_in_screen
  apply foldl_length_eq
  intro s y
  exact put_image_row_length gfs gfi _ y s

theorem put_background_row_length (gfs : Gif_Stream) (gfi : Gif_Image) (w y : Nat)
    (screen : List Nat) :
    (put_background_row gfs gfi w y screen).length = screen.length := by
  unfold put_background_row
  apply foldl_length_eq
  intro s x
  simp

theorem put_background_in_screen_length (gfs : Gif_Stream) (gfi : Gif_Image)
    (screen : List Nat) :
    (put_background_in_screen gfs gfi screen).length = screen.length := by
  unfold put_background_in_screen
  apply foldl_length_eq
  intro s y
  exact put_background_row_length gfs gfi _ y s

theorem shared_after_draw_length (gfs : Gif_Stream) (i : Nat) (screen : List Nat) :
    (shared_after_draw gfs i screen).length = screen.length := by
  unfold shared_after_draw
  split
  · rfl
  · exact put_image_in_screen_length _ _ _

theorem image_setImage_self (gfs : Gif_Stream) (i : Nat) (gfi : Gif_Image)
    (hi : i < gfs.images.length) : (gfs.setImage i gfi).image i = gfi := by
  simp [Gif_Stream.setImage, Gif_Stream.image, List.getD_eq_getElem?_getD, hi]

theorem image_setImage_ne (gfs : Gif_Stream) (i j : Nat) (gfi : Gif_Image)
    (hij : i ≠ j) : (gfs.setImage i gfi).image j = gfs.image j := by
  simp [Gif_Stream.setImage, Gif_Stream.image, List.getD_eq_getElem?_getD,
    List.getElem?_set_ne hij]

theorem set_getD_self {α : Type} (l : List α) (i : Nat) (d : α) :
    l.set i (l.getD i d) = l := by
  by_cases hi : i < l.length
  · apply List.ext_getElem?
    intro j
    by_cases hj : i = j
    · subst hj
      simp [List.getD_eq_getElem?_getD, hi]
    · simp [List.getElem?_set_ne hj]
  · exact List.set_eq_of_length_le (not_lt.mp hi)

theorem StreamEffect.refl (gfs : Gif_Stream) (i : Nat) : StreamEffect gfs gfs i :=
  ⟨rfl, rfl, rfl, rfl, fun _ _ => rfl, id⟩

theorem StreamEffect.trans {gfs gfs1 gfs2 : Gif_Stream} {i : Nat}
    (h1 : StreamEffect gfs gfs1 i) (h2 : StreamEffect gfs1 gfs2 i) :
    StreamEffect gfs gfs2 i :=
  ⟨h2.width.trans h1.width, h2.height.trans h1.height, h2.background.trans h1.background,
   h2.length.trans h1.length, fun j hj => (h2.other j hj).trans (h1.other j hj),
   fun h => h2.global (h1.global h)⟩

theorem setImage_effect (gfs : Gif_Stream) (i : Nat) (gfi : Gif_Image) :
    StreamEffect gfs (gfs.setImage i gfi) i :=
  ⟨rfl, rfl, rfl, by simp [Gif_Stream.setImage],
   fun j hj => image_setImage_ne _ _ _ _ (Ne.symm hj), id⟩

/-! ### `create_image_data` case by case -/

theorem create_image_data_no_sentinel (gfs : Gif_Stream) (i : Nat) (screen : List Nat)
    (r : Option (Nat → Gif_Color))
    (h : have_ screen (gfs.screen_width * gfs.screen_height) TRANSPARENT = false) :
    create_image_data gfs i screen r = create_image_data_finish gfs i screen (-1) := by
  simp [create_image_data, h]

theorem create_image_data_exhausted (gfs : Gif_Stream) (i : Nat) (screen : List Nat)
    (r : Option (Nat → Gif_Color))
    (h : have_ screen (gfs.screen_width * gfs.screen_height) TRANSPARENT = true)
    (hf : first_unused screen (gfs.screen_width * gfs.screen_height) = none) :
    create_image_data gfs i screen r = (false, gfs, []) := by
  simp [create_image_data, h, hf]

theorem create_image_data_null (gfs : Gif_Stream) (i : Nat) (screen : List Nat)
    (r : Option (Nat → Gif_Color)) (t : Nat)
    (h : have_ screen (gfs.screen_width * gfs.screen_height) TRANSPARENT = true)
    (hf : first_unused screen (gfs.screen_width * gfs.screen_height) = some t)
    (hg : gfs.global = none) :
    create_image_data gfs i screen r = (false, gfs, []) := by
  simp [create_image_data, h, hf, hg]

theorem create_image_data_fits (gfs : Gif_Stream) (i : Nat) (screen : List Nat)
    (r : Option (Nat → Gif_Color)) (t : Nat) (g : Gif_Colormap)
    (h : have_ screen (gfs.screen_width * gfs.screen_height) TRANSPARENT = true)
    (hf : first_unused screen (gfs.screen_width * gfs.screen_height) = some t)
    (hg : gfs.global = some g) (ht : t < g.ncol) :
    create_image_data gfs i screen r = create_image_data_finish gfs i screen t := by
  simp [create_image_data, h, hf, hg, ht]

theorem create_image_data_grow (gfs : Gif_Stream) (i : Nat) (screen : List Nat)
    (fresh : Nat → Gif_Color) (t : Nat) (g : Gif_Colormap)
    (h : have_ screen (gfs.screen_width * gfs.screen_height) TRANSPARENT = true)
    (hf : first_unused screen (gfs.screen_width * gfs.screen_height) = some t)
    (hg : gfs.global = some g) (ht : g.ncol ≤ t) :
    create_image_data gfs i screen (some fresh) =
      create_image_data_finish
        { gfs with global := some { ncol := t + 1, col := Gif_ReArray g.col fresh } }
        i screen t := by
  simp [create_image_data, h, hf, hg, ht]

theorem create_image_data_grow_fail (gfs : Gif_Stream) (i : Nat) (screen : List Nat)
    (t : Nat) (g : Gif_Colormap)
    (h : have_ screen (gfs.screen_width * gfs.screen_height) TRANSPARENT = true)
    (hf : first_unused screen (gfs.screen_width * gfs.screen_height) = some t)
    (hg : gfs.global = some g) (ht : g.ncol ≤ t) :
    create_image_data gfs i screen none =
      (false, { gfs with global := some { g with col := [] } }, []) := by
  simp [create_image_data, h, hf, hg, ht]

theorem create_image_data_finish_eq (gfs : Gif_Stream) (i : Nat) (screen : List Nat)
    (t : Int) :
    create_image_data_finish gfs i screen t =
      (true, remapped_stream gfs i t gfs.global,
       (screen.take (gfs.screen_width * gfs.screen_height)).map (remap_cell t)) := rfl

theorem remapped_stream_keep (gfs : Gif_Stream) (i : Nat) (g : Option Gif_Colormap) :
    remapped_stream gfs i (gfs.image i).transparent g = { gfs with global := g } := by
  have e : ({ gfs.image i with transparent := (gfs.image i).transparent } : Gif_Image)
      = gfs.image i := rfl
  unfold remapped_stream
  rw [e]
  unfold Gif_Stream.image
  rw [set_getD_self]

/-- Every result of `create_image_data` has the shape of `remapped_stream`; on
success `new_data` is the remapped canvas, and the recorded index is `-1` when the
canvas has no sentinel and the first unused index when it has one. -/
theorem create_image_data_shape (gfs : Gif_Stream) (i : Nat) (screen : List Nat)
    (r : Option (Nat → Gif_Color)) :
    ∃ (t : Int) (g : Option Gif_Colormap),
      (create_image_data gfs i screen r).2.1 = remapped_stream gfs i t g ∧
      (gfs.global.isSome = true → g.isSome = true) ∧
      ((create_image_data gfs i screen r).1 = true →
        (create_image_data gfs i screen r).2.2 =
            (screen.take (gfs.screen_width * gfs.screen_height)).map (remap_cell t) ∧
          ((have_ screen (gfs.screen_width * gfs.screen_height) TRANSPARENT = false ∧
              t = -1) ∨
            (have_ screen (gfs.screen_width * gfs.screen_height) TRANSPARENT = true ∧
              ∃ n : Nat, first_unused screen (gfs.screen_width * gfs.screen_height) = some n ∧
                t = n))) := by
  have keep : gfs = remapped_stream gfs i (gfs.image i).transparent gfs.global :=
    (remapped_stream_keep gfs i gfs.global).symm
  cases h : have_ screen (gfs.screen_width * gfs.screen_height) TRANSPARENT with
  | false =>
    rw [create_image_data_no_sentinel gfs i screen r h, create_image_data_finish_eq]
    exact ⟨_, _, rfl, id, fun _ => ⟨rfl, Or.inl ⟨rfl, rfl⟩⟩⟩
  | true =>
    cases hf : first_unused screen (gfs.screen_width * gfs.screen_height) with
    | none =>
      rw [create_image_data_exhausted gfs i screen r h hf]
      exact ⟨_, _, keep, id, fun hh => by simp at hh⟩
    | some t =>
      cases hg : gfs.global with
      | none =>
        rw [create_image_data_null gfs i screen r t h hf hg]
        refine ⟨(gfs.image i).transparent, none, ?_, by simp, fun hh => by simp at hh⟩
        rw [← hg]
        exact keep
      | some g =>
        by_cases ht : t < g.ncol
        · rw [create_image_data_fits gfs i screen r t g h hf hg ht,
            create_image_data_finish_eq]
          exact ⟨_, _, rfl, by simp [hg], fun _ => ⟨rfl, Or.inr ⟨rfl, t, rfl, rfl⟩⟩⟩
        · cases r with
          | none =>
            rw [create_image_data_grow_fail gfs i screen t g h hf hg (not_lt.mp ht)]
            exact ⟨(gfs.image i).transparent, some { g with col := [] },
              (remapped_stream_keep gfs i _).symm, fun _ => rfl, fun hh => by simp at hh⟩
          | some fresh =>
            rw [create_image_data_grow gfs i screen fresh t g h hf hg (not_lt.mp ht),
              create_image_data_finish_eq]
            exact ⟨_, _, rfl, fun _ => rfl, fun _ => ⟨rfl, Or.inr ⟨rfl, t, rfl, rfl⟩⟩⟩

theorem remapped_stream_effect (gfs : Gif_Stream) (i : Nat) (t : Int)
    (g : Option Gif_Colormap) (hg : gfs.global.isSome = true → g.isSome = true) :
    StreamEffect gfs (remapped_stream gfs i t g) i :=
  ⟨rfl, rfl, rfl, by simp [remapped_stream],
   fun j hj => by
     simp [remapped_stream, Gif_Stream.image, List.getD_eq_getElem?_getD,
       List.getElem?_set_ne (Ne.symm hj)],
   hg⟩

theorem remapped_stream_image (gfs : Gif_Stream) (i : Nat) (t : Int)
    (g : Option Gif_Colormap) (hi : i < gfs.images.length) :
    (remapped_stream gfs i t g).image i = { gfs.image i with transparent := t } := by
  simp [remapped_stream, Gif_Stream.image, List.getD_eq_getElem?_getD, hi]

theorem remapped_stream_disposal (gfs : Gif_Stream) (i : Nat) (t : Int)
    (g : Option Gif_Colormap) :
    ((remapped_stream gfs i t g).image i).disposal = (gfs.image i).disposal := by
  by_cases hi : i < gfs.images.length
  · rw [remapped_stream_image gfs i t g hi]
  · simp [remapped_stream, Gif_Stream.image, List.getD_eq_getElem?_getD,
      List.set_eq_of_length_le (not_lt.mp hi)]

theorem create_image_data_effect (gfs : Gif_Stream) (i : Nat) (screen : List Nat)
    (r : Option (Nat → Gif_Color)) :
    StreamEffect gfs (create_image_data gfs i screen r).2.1 i := by
  obtain ⟨t, g, h, hg, _⟩ := create_image_data_shape gfs i screen r
  rw [h]
  exact remapped_stream_effect gfs i t g hg

theorem create_image_data_disposal (gfs : Gif_Stream) (i : Nat) (screen : List Nat)
    (r : Option (Nat → Gif_Color)) :
    ((create_image_data gfs i screen r).2.1.image i).disposal = (gfs.image i).disposal := by
  obtain ⟨t, g, h, _, _⟩ := create_image_data_shape gfs i screen r
  rw [h]
  exact remapped_stream_disposal gfs i t g

/-! ### `unoptimize_image` case by case -/

theorem unoptimize_image_no_data (gfs : Gif_Stream) (i : Nat) (screen : List Nat) (a : Alloc)
    (h : a.new_data = false) : unoptimize_image gfs i screen a = ⟨false, gfs, screen⟩ := by
  simp [unoptimize_image, h]

theorem unoptimize_image_no_scratch (gfs : Gif_Stream) (i : Nat) (screen : List Nat)
    (a : Alloc) (hd : (gfs.image i).disposal = Gif_Disposal.previous)
    (h : a.new_screen = false) : unoptimize_image gfs i screen a = ⟨false, gfs, screen⟩ := by
  unfold unoptimize_image
  split
  · rfl
  · simp [hd, h]

theorem unoptimize_image_no_buffers (gfs : Gif_Stream) (i : Nat) (screen : List Nat)
    (a : Alloc) (hb : ¬ buffers_ok gfs i a) :
    unoptimize_image gfs i screen a = ⟨false, gfs, screen⟩ := by
  unfold buffers_ok at hb
  by_cases h1 : a.new_data = true
  · have h2 : (gfs.image i).disposal = Gif_Disposal.previous ∧ a.new_screen = false := by
      by_contra h
      exact hb ⟨h1, h⟩
    exact unoptimize_image_no_scratch gfs i screen a h2.1 h2.2
  · exact unoptimize_image_no_data gfs i screen a (by simpa using h1)

theorem unoptimize_image_remap_fail (gfs gfs1 : Gif_Stream) (i : Nat) (screen nd : List Nat)
    (a : Alloc) (hb : buffers_ok gfs i a)
    (hc : create_image_data gfs i (put_image_in_screen gfs (gfs.image i) screen) a.rearray
      = (false, gfs1, nd)) :
    unoptimize_image gfs i screen a = ⟨false, gfs1, shared_after_draw gfs i screen⟩ := by
  obtain ⟨h1, h2⟩ := hb
  unfold unoptimize_image
  simp only [h1, Bool.not_true, Bool.false_eq_true, if_false, h2, hc]
  rfl

theorem unoptimize_image_remap_ok (gfs gfs1 : Gif_Stream) (i : Nat) (screen nd : List Nat)
    (a : Alloc) (hb : buffers_ok gfs i a)
    (hc : create_image_data gfs i (put_image_in_screen gfs (gfs.image i) screen) a.rearray
      = (true, gfs1, nd)) :
    unoptimize_image gfs i screen a =
      ⟨true,
       gfs1.setImage i (flat_frame gfs1 i nd),
       if (gfs1.image i).disposal = Gif_Disposal.previous then shared_after_draw gfs i screen
       else if (gfs1.image i).disposal = Gif_Disposal.background then
         put_background_in_screen gfs1 (gfs1.image i) (shared_after_draw gfs i screen)
       else shared_after_draw gfs i screen⟩ := by
  obtain ⟨h1, h2⟩ := hb
  unfold unoptimize_image
  simp only [h1, Bool.not_true, Bool.false_eq_true, if_false, h2, hc]
  rfl

/-! ## The compositor and the disposal fill, cell by cell -/

theorem write_row_succ (base w : Nat) (val : Nat → Option Nat) (scr : List Nat) :
    write_row base (w + 1) val scr =
      match val w with
      | some v => (write_row base w val scr).set (base + w) v
      | none => write_row base w val scr := by
  simp [write_row, List.range_succ, List.foldl_append]

theorem write_row_length (base w : Nat) (val : Nat → Option Nat) (scr : List Nat) :
    (write_row base w val scr).length = scr.length := by
  induction w with
  | zero => rfl
  | succ w ih =>
    rw [write_row_succ]
    split <;> simp [ih]

theorem getD_set_eq (l : List Nat) (i j a : Nat) (hj : j < l.length) :
    (l.set i a).getD j 0 = if i = j then a else l.getD j 0 := by
  by_cases h : i = j
  · subst h
    simp [List.getD_eq_getElem?_getD, hj]
  · simp [List.getD_eq_getElem?_getD, List.getElem?_set_ne h, h]

theorem write_row_getD (base w : Nat) (val : Nat → Option Nat) (scr : List Nat) (idx : Nat)
    (hidx : idx < scr.length) :
    (write_row base w val scr).getD idx 0 =
      if base ≤ idx ∧ idx < base + w then (val (idx - base)).getD (scr.getD idx 0)
      else scr.getD idx 0 := by
  induction w with
  | zero =>
    have c : ¬ (base ≤ idx ∧ idx < base + 0) := by omega
    rw [if_neg c]
    rfl
  | succ w ih =>
    rw [write_row_succ]
    by_cases hw : idx = base + w
    · have e : idx - base = w := by omega
      have c : base ≤ idx ∧ idx < base + (w + 1) := by omega
      have c0 : ¬ (base ≤ idx ∧ idx < base + w) := by omega
      rw [if_pos c, e]
      cases hv : val w with
      | none =>
        simp only [Option.getD_none]
        rw [ih, if_neg c0]
      | some v =>
        simp only [Option.getD_some]
        rw [getD_set_eq _ _ _ _ (by rw [write_row_length]; exact hidx), if_pos hw.symm]
    · have hc : (base ≤ idx ∧ idx < base + (w + 1)) ↔ (base ≤ idx ∧ idx < base + w) := by
        omega
      simp only [hc]
      cases hv : val w with
      | none => exact ih
      | some v =>
        simp only
        rw [getD_set_eq _ _ _ _ (by rw [write_row_length]; exact hidx),
          if_neg (fun h => hw h.symm)]
        exact ih

theorem write_rect_succ (sw top left w h : Nat) (val : Nat → Nat → Option Nat)
    (scr : List Nat) :
    write_rect sw top left w (h + 1) val scr =
      write_row (sw * (h + top) + left) w (val h) (write_rect sw top left w h val scr) := by
  simp [write_rect, List.range_succ, List.foldl_append]

theorem write_rect_length (sw top left w h : Nat) (val : Nat → Nat → Option Nat)
    (scr : List Nat) : (write_rect sw top left w h val scr).length = scr.length := by
  induction h with
  | zero => rfl
  | succ h ih => rw [write_rect_succ, write_row_length, ih]

/-- A cell index lies in the span of row `y` exactly when the cell is in that row
and between the row's columns. -/
theorem row_span_iff (sw top left w y cx cy : Nat) (hcx : cx < sw)
    (hw : w = 0 ∨ left + w ≤ sw) :
    (sw * (y + top) + left ≤ sw * cy + cx ∧ sw * cy + cx < sw * (y + top) + left + w) ↔
      (cy = y + top ∧ left ≤ cx ∧ cx < left + w) := by
  rcases hw with hw | hw
  · subst hw
    constructor
    · intro h; omega
    · intro h; omega
  · rcases Nat.lt_trichotomy cy (y + top) with hlt | heq | hgt
    · have := Nat.mul_le_mul_left sw (show cy + 1 ≤ y + top from hlt)
      rw [Nat.mul_add, Nat.mul_one] at this
      constructor
      · intro h; omega
      · intro h; omega
    · subst heq
      constructor
      · intro h; omega
      · intro h; omega
    · have := Nat.mul_le_mul_left sw (show y + top + 1 ≤ cy from hgt)
      rw [Nat.mul_add, Nat.mul_one] at this
      constructor
      · intro h; omega
      · intro h; omega

theorem write_rect_getD (sw top left w h : Nat) (val : Nat → Nat → Option Nat)
    (scr : List Nat) (cx cy : Nat) (hcx : cx < sw) (hw : w = 0 ∨ left + w ≤ sw)
    (hidx : sw * cy + cx < scr.length) :
    (write_rect sw top left w h val scr).getD (sw * cy + cx) 0 =
      if top ≤ cy ∧ cy < top + h ∧ left ≤ cx ∧ cx < left + w then
        (val (cy - top) (cx - left)).getD (scr.getD (sw * cy + cx) 0)
      else scr.getD (sw * cy + cx) 0 := by
  induction h with
  | zero =>
    have c : ¬ (top ≤ cy ∧ cy < top + 0 ∧ left ≤ cx ∧ cx < left + w) := by omega
    rw [if_neg c]
    rfl
  | succ h ih =>
    rw [write_rect_succ, write_row_getD _ _ _ _ _ (by rw [write_rect_length]; exact hidx)]
    simp only [row_span_iff sw top left w h cx cy hcx hw]
    rw [ih]
    by_cases hrow : cy = h + top
    · subst hrow
      have e1 : sw * (h + top) + cx - (sw * (h + top) + left) = cx - left := by omega
      have e2 : h + top - top = h := by omega
      by_cases hcol : left ≤ cx ∧ cx < left + w
      · have c1 : h + top = h + top ∧ left ≤ cx ∧ cx < left + w := ⟨rfl, hcol⟩
        have c2 : top ≤ h + top ∧ h + top < top + (h + 1) ∧ left ≤ cx ∧ cx < left + w := by
          omega
        have c3 : ¬ (top ≤ h + top ∧ h + top < top + h ∧ left ≤ cx ∧ cx < left + w) := by
          omega
        rw [if_pos c1, if_pos c2, if_neg c3, e1, e2]
      · have c1 : ¬ (h + top = h + top ∧ left ≤ cx ∧ cx < left + w) := fun hh => hcol hh.2
        have c2 : ¬ (top ≤ h + top ∧ h + top < top + (h + 1) ∧ left ≤ cx ∧ cx < left + w) :=
          fun hh => hcol hh.2.2
        have c3 : ¬ (top ≤ h + top ∧ h + top < top + h ∧ left ≤ cx ∧ cx < left + w) :=
          fun hh => hcol hh.2.2
        rw [if_neg c1, if_neg c2, if_neg c3]
    · have c1 : ¬ (cy = h + top ∧ left ≤ cx ∧ cx < left + w) := fun hh => hrow hh.1
      rw [if_neg c1]
      have hc : (top ≤ cy ∧ cy < top + (h + 1) ∧ left ≤ cx ∧ cx < left + w) ↔
          (top ≤ cy ∧ cy < top + h ∧ left ≤ cx ∧ cx < left + w) := by omega
      simp only [hc]

theorem put_image_row_eq (gfs : Gif_Stream) (gfi : Gif_Image) (w y : Nat) (scr : List Nat) :
    put_image_row gfs gfi w y scr =
      write_row (gfs.screen_width * (y + gfi.top) + gfi.left) w (image_val gfi y) scr := by
  unfold put_image_row write_row
  congr 1
  funext s x
  unfold image_val
  split <;> rfl

theorem put_image_in_screen_eq (gfs : Gif_Stream) (gfi : Gif_Image) (scr : List Nat) :
    put_image_in_screen gfs gfi scr =
      write_rect gfs.screen_width gfi.top gfi.left
        (clip gfi.left gfi.width gfs.screen_width) (clip gfi.top gfi.height gfs.screen_height)
        (image_val gfi) scr := by
  unfold put_image_in_screen write_rect
  simp only [put_image_row_eq]

theorem put_background_row_eq (gfs : Gif_Stream) (gfi : Gif_Image) (w y : Nat)
    (scr : List Nat) :
    put_background_row gfs gfi w y scr =
      write_row (gfs.screen_width * (y + gfi.top) + gfi.left) w
        (fun _ => some (solid gfs gfi)) scr := rfl

theorem put_background_in_screen_eq (gfs : Gif_Stream) (gfi : Gif_Image) (scr : List Nat) :
    put_background_in_screen gfs gfi scr =
      write_rect gfs.screen_width gfi.top gfi.left
        (clip gfi.left gfi.width gfs.screen_width) (clip gfi.top gfi.height gfs.screen_height)
        (fun _ _ => some (solid gfs gfi)) scr := rfl

theorem clip_fits (off len lim : Nat) : clip off len lim = 0 ∨ off + clip off len lim ≤ lim := by
  unfold clip
  split <;> omega

theorem clip_iff (off len lim c : Nat) (hc : c < lim) :
    (off ≤ c ∧ c < off + clip off len lim) ↔ (off ≤ c ∧ c < off + len) := by
  unfold clip
  split <;> omega

theorem cell_index_lt (sw sh cx cy : Nat) (hcx : cx < sw) (hcy : cy < sh) :
    sw * cy + cx < sw * sh := by
  have := Nat.mul_le_mul_left sw (show cy + 1 ≤ sh from hcy)
  rw [Nat.mul_add, Nat.mul_one] at this
  omega

theorem in_rect_clip (gfs : Gif_Stream) (gfi : Gif_Image) (cx cy : Nat)
    (hcx : cx < gfs.screen_width) (hcy : cy < gfs.screen_height) :
    (gfi.top ≤ cy ∧ cy < gfi.top + clip gfi.top gfi.height gfs.screen_height ∧
      gfi.left ≤ cx ∧ cx < gfi.left + clip gfi.left gfi.width gfs.screen_width) ↔
    in_rect gfi cx cy := by
  have h1 := clip_iff gfi.left gfi.width gfs.screen_width cx hcx
  have h2 := clip_iff gfi.top gfi.height gfs.screen_height cy hcy
  unfold in_rect
  constructor
  · rintro ⟨a, b, c, d⟩
    exact ⟨(h1.mp ⟨c, d⟩).1, (h1.mp ⟨c, d⟩).2, (h2.mp ⟨a, b⟩).1, (h2.mp ⟨a, b⟩).2⟩
  · rintro ⟨a, b, c, d⟩
    exact ⟨(h2.mpr ⟨c, d⟩).1, (h2.mpr ⟨c, d⟩).2, (h1.mpr ⟨a, b⟩).1, (h1.mpr ⟨a, b⟩).2⟩

/-- The canvas after `put_image_in_screen`, cell by cell: the frame's source pixel
where the cell lies in the frame's rectangle and the pixel is not the frame's
transparent index, the previous value elsewhere. -/
theorem put_image_in_screen_getD (gfs : Gif_Stream) (gfi : Gif_Image) (screen : List Nat)
    (cx cy : Nat) (hcx : cx < gfs.screen_width) (hcy : cy < gfs.screen_height)
    (hlen : screen.length = gfs.screen_width * gfs.screen_height) :
    (put_image_in_screen gfs gfi screen).getD (gfs.screen_width * cy + cx) 0 =
      if in_rect gfi cx cy ∧
          (gfi.img (cy - gfi.top) (cx - gfi.left) : Int) ≠ gfi.transparent then
        gfi.img (cy - gfi.top) (cx - gfi.left)
      else screen.getD (gfs.screen_width * cy + cx) 0 := by
  rw [put_image_in_screen_eq,
    write_rect_getD _ _ _ _ _ _ _ _ _ hcx (clip_fits _ _ _)
      (by rw [hlen]; exact cell_index_lt _ _ _ _ hcx hcy)]
  simp only [in_rect_clip gfs gfi cx cy hcx hcy]
  by_cases hr : in_rect gfi cx cy
  · by_cases hp : (gfi.img (cy - gfi.top) (cx - gfi.left) : Int) ≠ gfi.transparent
    · simp [hr, hp, image_val]
    · simp [hr, hp, image_val]
  · simp [hr]

/-- The canvas after `put_background_in_screen`, cell by cell: the fill value inside
the frame's rectangle, the previous value elsewhere. -/
theorem put_background_in_screen_getD (gfs : Gif_Stream) (gfi : Gif_Image)
    (screen : List Nat) (cx cy : Nat) (hcx : cx < gfs.screen_width)
    (hcy : cy < gfs.screen_height)
    (hlen : screen.length = gfs.screen_width * gfs.screen_height) :
    (put_background_in_screen gfs gfi screen).getD (gfs.screen_width * cy + cx) 0 =
      if in_rect gfi cx cy then solid gfs gfi
      else screen.getD (gfs.screen_width * cy + cx) 0 := by
  rw [put_background_in_screen_eq,
    write_rect_getD _ _ _ _ _ _ _ _ _ hcx (clip_fits _ _ _)
      (by rw [hlen]; exact cell_index_lt _ _ _ _ hcx hcy)]
  simp only [in_rect_clip gfs gfi cx cy hcx hcy]
  by_cases hr : in_rect gfi cx cy
  · simp [hr]
  · simp [hr]

theorem write_row_forall (P : Nat → Prop) (base w : Nat) (val : Nat → Option Nat)
    (scr : List Nat) (hs : ∀ v ∈ scr, P v) (hv : ∀ x v, val x = some v → P v) :
    ∀ v ∈ write_row base w val scr, P v := by
  induction w with
  | zero => exact hs
  | succ w ih =>
    rw [write_row_succ]
    cases hval : val w with
    | none => exact ih
    | some a =>
      intro v hm
      rcases List.mem_or_eq_of_mem_set hm with h | h
      · exact ih v h
      · rw [h]
        exact hv w a hval

theorem write_rect_forall (P : Nat → Prop) (sw top left w h : Nat)
    (val : Nat → Nat → Option Nat) (scr : List Nat) (hs : ∀ v ∈ scr, P v)
    (hv : ∀ y x v, val y x = some v → P v) :
    ∀ v ∈ write_rect sw top left w h val scr, P v := by
  induction h with
  | zero => exact hs
  | succ h ih =>
    rw [write_rect_succ]
    exact write_row_forall P _ _ _ _ ih (hv h)

theorem img_lt (gfi : Gif_Image) (hp : byte_pixels gfi) (y x : Nat) : gfi.img y x < 256 := by
  unfold Gif_Image.img
  by_cases h : y * gfi.width + x < gfi.image_data.length
  · rw [List.getD_eq_getElem _ _ h]
    exact hp _ (List.getElem_mem _)
  · rw [List.getD_eq_default _ _ (not_lt.mp h)]
    decide

/-- Drawing a frame of byte pixels keeps every canvas cell at most 256. -/
theorem put_image_in_screen_le (gfs : Gif_Stream) (gfi : Gif_Image) (screen : List Nat)
    (hp : byte_pixels gfi) (hs : ∀ v ∈ screen, v ≤ 256) :
    ∀ v ∈ put_image_in_screen gfs gfi screen, v ≤ 256 := by
  rw [put_image_in_screen_eq]
  apply write_rect_forall (fun v => v ≤ 256) _ _ _ _ _ _ _ hs
  intro y x v hv
  unfold image_val at hv
  split at hv
  · have := img_lt gfi hp y x
    simp only [Option.some.injEq] at hv
    omega
  · simp at hv

theorem solid_le (gfs : Gif_Stream) (gfi : Gif_Image) (hb : gfs.background ≤ 256) :
    solid gfs gfi ≤ 256 := by
  unfold solid TRANSPARENT
  split
  · exact le_refl _
  · split
    · exact le_refl _
    · exact hb

/-- Restoring to background keeps every canvas cell at most 256 when the
background index is. -/
theorem put_background_in_screen_le (gfs : Gif_Stream) (gfi : Gif_Image)
    (screen : List Nat) (hb : gfs.background ≤ 256) (hs : ∀ v ∈ screen, v ≤ 256) :
    ∀ v ∈ put_background_in_screen gfs gfi screen, v ≤ 256 := by
  rw [put_background_in_screen_eq]
  apply write_rect_forall (fun v => v ≤ 256) _ _ _ _ _ _ _ hs
  intro y x v hv
  simp only [Option.some.injEq] at hv
  rw [← hv]
  exact solid_le gfs gfi hb

/-! ## Precondition checks (C2, C3, C4) -/

/-- C2: on a stream with zero or one frame `Gif_Unoptimize` returns success and the
stream it leaves is the input stream, every field of it unchanged. -/
theorem Gif_Unoptimize_at_most_one_frame (calcsize : Gif_Stream → Nat × Nat)
    (alloc : Nat → Alloc) (gfs : Gif_Stream) (h : gfs.images.length ≤ 1) :
    Gif_Unoptimize calcsize alloc gfs = (true, gfs) := by
  simp [Gif_Unoptimize, Gif_Unoptimize_run, h]

/-- Witness for C2 on a one-frame stream with a frame-local palette. -/
theorem Gif_Unoptimize_at_most_one_frame_witness :
    single_frame_stream.images.length ≤ 1 ∧
      Gif_Unoptimize keep_size (fun _ => Alloc.allOk) single_frame_stream
        = (true, single_frame_stream) :=
  ⟨by decide,
   Gif_Unoptimize_at_most_one_frame keep_size (fun _ => Alloc.allOk) single_frame_stream
     (by decide)⟩

/-- C3: on a stream with at least two frames one of which has a frame-local palette,
`Gif_Unoptimize` returns failure and the stream it leaves is the input stream. -/
theorem Gif_Unoptimize_local_palette (calcsize : Gif_Stream → Nat × Nat)
    (alloc : Nat → Alloc) (gfs : Gif_Stream) (h2 : 2 ≤ gfs.images.length)
    (hl : ∃ gfi ∈ gfs.images, gfi.localmap.isSome = true) :
    Gif_Unoptimize calcsize alloc gfs = (false, gfs) := by
  have h1 : ¬ gfs.images.length ≤ 1 := by omega
  have ha : gfs.images.any (fun gfi => gfi.localmap.isSome) = true :=
    List.any_eq_true.mpr hl
  simp [Gif_Unoptimize, Gif_Unoptimize_run, h1, ha]

/-- Witness for C3. -/
theorem Gif_Unoptimize_local_palette_witness :
    Gif_Unoptimize keep_size (fun _ => Alloc.allOk) local_palette_stream
      = (false, local_palette_stream) :=
  Gif_Unoptimize_local_palette keep_size (fun _ => Alloc.allOk) local_palette_stream
    (by decide) ⟨_, List.mem_cons_of_mem _ (List.mem_singleton.mpr rfl), rfl⟩

/-- C4: on a stream with at least two frames and no shared palette, `Gif_Unoptimize`
returns failure and the stream it leaves is the input stream. -/
theorem Gif_Unoptimize_no_global (calcsize : Gif_Stream → Nat × Nat)
    (alloc : Nat → Alloc) (gfs : Gif_Stream) (h2 : 2 ≤ gfs.images.length)
    (hg : gfs.global = none) :
    Gif_Unoptimize calcsize alloc gfs = (false, gfs) := by
  have h1 : ¬ gfs.images.length ≤ 1 := by omega
  simp only [Gif_Unoptimize, Gif_Unoptimize_run, h1, hg, if_false, Option.isNone_none, if_true]
  split <;> rfl

/-- Witness for C4. -/
theorem Gif_Unoptimize_no_global_witness :
    Gif_Unoptimize keep_size (fun _ => Alloc.allOk) no_global_stream
      = (false, no_global_stream) :=
  Gif_Unoptimize_no_global keep_size (fun _ => Alloc.allOk) no_global_stream
    (by decide) rfl

/-! ## The frame loop -/

theorem unoptimize_image_effect (gfs : Gif_Stream) (i : Nat) (screen : List Nat) (a : Alloc) :
    StreamEffect gfs (unoptimize_image gfs i screen a).gfs i := by
  by_cases hb : buffers_ok gfs i a
  · have he := create_image_data_effect gfs i
      (put_image_in_screen gfs (gfs.image i) screen) a.rearray
    rcases hc : create_image_data gfs i (put_image_in_screen gfs (gfs.image i) screen)
      a.rearray with ⟨ok, gfs1, nd⟩
    rw [hc] at he
    cases ok with
    | false =>
      rw [unoptimize_image_remap_fail gfs gfs1 i screen nd a hb hc]
      exact he
    | true =>
      rw [unoptimize_image_remap_ok gfs gfs1 i screen nd a hb hc]
      exact he.trans (setImage_effect gfs1 i _)
  · rw [unoptimize_image_no_buffers gfs i screen a hb]
    exact StreamEffect.refl gfs i

theorem unoptimize_image_screen_length (gfs : Gif_Stream) (i : Nat) (screen : List Nat)
    (a : Alloc) : (unoptimize_image gfs i screen a).screen.length = screen.length := by
  by_cases hb : buffers_ok gfs i a
  · rcases hc : create_image_data gfs i (put_image_in_screen gfs (gfs.image i) screen)
      a.rearray with ⟨ok, gfs1, nd⟩
    cases ok with
    | false =>
      rw [unoptimize_image_remap_fail gfs gfs1 i screen nd a hb hc]
      exact shared_after_draw_length gfs i screen
    | true =>
      rw [unoptimize_image_remap_ok gfs gfs1 i screen nd a hb hc]
      simp only
      split
      · exact shared_after_draw_length gfs i screen
      · split
        · rw [put_background_in_screen_length]
          exact shared_after_draw_length gfs i screen
        · exact shared_after_draw_length gfs i screen
  · rw [unoptimize_image_no_buffers gfs i screen a hb]

/-- A successful `unoptimize_image` leaves frame `i` flattened. -/
theorem unoptimize_image_flattened (gfs : Gif_Stream) (i : Nat) (screen : List Nat)
    (a : Alloc) (hi : i < gfs.images.length)
    (hlen : screen.length = gfs.screen_width * gfs.screen_height)
    (hok : (unoptimize_image gfs i screen a).ok = true) :
    flattened (unoptimize_image gfs i screen a).gfs
      ((unoptimize_image gfs i screen a).gfs.image i) := by
  by_cases hb : buffers_ok gfs i a
  · have he := create_image_data_effect gfs i
      (put_image_in_screen gfs (gfs.image i) screen) a.rearray
    obtain ⟨t, g, _, _, hnd⟩ := create_image_data_shape gfs i
      (put_image_in_screen gfs (gfs.image i) screen) a.rearray
    rcases hc : create_image_data gfs i (put_image_in_screen gfs (gfs.image i) screen)
      a.rearray with ⟨ok, gfs1, nd⟩
    rw [hc] at he hnd
    cases ok with
    | false =>
      rw [unoptimize_image_remap_fail gfs gfs1 i screen nd a hb hc] at hok
      simp at hok
    | true =>
      rw [unoptimize_image_remap_ok gfs gfs1 i screen nd a hb hc]
      have hi1 : i < gfs1.images.length := by rw [he.length]; exact hi
      have hn : nd.length = gfs.screen_width * gfs.screen_height := by
        have := (hnd rfl).1
        simp only at this
        rw [this, List.length_map, List.length_take, put_image_in_screen_length, hlen]
        exact Nat.min_self _
      simp only
      rw [image_setImage_self _ _ _ hi1]
      refine ⟨rfl, rfl, rfl, rfl, rfl, ?_⟩
      show nd.length = gfs1.screen_width * gfs1.screen_height
      rw [hn, he.width, he.height]
  · rw [unoptimize_image_no_buffers gfs i screen a hb] at hok
    simp at hok

theorem loop_upto_zero (alloc : Nat → Alloc) (st : RunState) : loop_upto alloc st 0 = st := rfl

theorem loop_upto_succ (alloc : Nat → Alloc) (st : RunState) (k : Nat) :
    loop_upto alloc st (k + 1) = loop_step alloc (loop_upto alloc st k) k := by
  simp [loop_upto, List.range_succ, List.foldl_append]

theorem loop_step_gfs (alloc : Nat → Alloc) (st : RunState) (k : Nat) :
    (loop_step alloc st k).gfs = (unoptimize_image st.gfs k st.screen (alloc k)).gfs := rfl

theorem loop_step_screen (alloc : Nat → Alloc) (st : RunState) (k : Nat) :
    (loop_step alloc st k).screen = (unoptimize_image st.gfs k st.screen (alloc k)).screen := rfl

theorem loop_step_ok (alloc : Nat → Alloc) (st : RunState) (k : Nat) :
    (loop_step alloc st k).ok = true ↔
      st.ok = true ∧ (unoptimize_image st.gfs k st.screen (alloc k)).ok = true := by
  unfold loop_step
  cases h : (unoptimize_image st.gfs k st.screen (alloc k)).ok <;> simp [h]

theorem loop_inv (alloc : Nat → Alloc) (st : RunState) (k : Nat) :
    LoopInv st (loop_upto alloc st k) := by
  induction k with
  | zero => exact ⟨rfl, rfl, rfl, rfl, id, rfl⟩
  | succ k ih =>
    rw [loop_upto_succ]
    have he := unoptimize_image_effect (loop_upto alloc st k).gfs k
      (loop_upto alloc st k).screen (alloc k)
    refine ⟨?_, ?_, ?_, ?_, ?_, ?_⟩
    · rw [loop_step_gfs, he.width, ih.width]
    · rw [loop_step_gfs, he.height, ih.height]
    · rw [loop_step_gfs, he.background, ih.background]
    · rw [loop_step_gfs, he.length, ih.length]
    · intro h
      rw [loop_step_gfs]
      exact he.global (ih.global h)
    · rw [loop_step_screen, unoptimize_image_screen_length, ih.screen]

/-- Frames the loop has not reached yet are as in the starting state. -/
theorem loop_later (alloc : Nat → Alloc) (st : RunState) (k j : Nat) (h : k ≤ j) :
    (loop_upto alloc st k).gfs.image j = st.gfs.image j := by
  induction k with
  | zero => rfl
  | succ k ih =>
    rw [loop_upto_succ, loop_step_gfs,
      (unoptimize_image_effect _ k _ _).other j (by omega)]
    exact ih (by omega)

/-- A frame the loop has passed stays as iteration `j` left it. -/
theorem loop_earlier (alloc : Nat → Alloc) (st : RunState) (k j : Nat) (h : j < k) :
    (loop_upto alloc st k).gfs.image j = (loop_upto alloc st (j + 1)).gfs.image j := by
  induction k with
  | zero => omega
  | succ k ih =>
    by_cases hjk : j = k
    · subst hjk
      rfl
    · rw [loop_upto_succ, loop_step_gfs,
        (unoptimize_image_effect _ k _ _).other j hjk]
      exact ih (by omega)

/-- The flag after `k` iterations: every rewrite so far succeeded. -/
theorem loop_ok (alloc : Nat → Alloc) (st : RunState) (k : Nat) :
    (loop_upto alloc st k).ok = true ↔
      st.ok = true ∧ ∀ j, j < k → rewrite_ok alloc st j = true := by
  induction k with
  | zero => simp [loop_upto_zero]
  | succ k ih =>
    rw [loop_upto_succ, loop_step_ok, ih]
    constructor
    · rintro ⟨⟨h0, hall⟩, hk⟩
      refine ⟨h0, fun j hj => ?_⟩
      by_cases hjk : j = k
      · subst hjk
        exact hk
      · exact hall j (by omega)
    · rintro ⟨h0, hall⟩
      exact ⟨⟨h0, fun j hj => hall j (by omega)⟩, hall k (by omega)⟩

/-- A frame whose rewrite succeeded is flattened in every later state of the
loop. -/
theorem loop_flattened (alloc : Nat → Alloc) (st : RunState) (k j : Nat) (hjk : j < k)
    (hj : j < st.gfs.images.length)
    (hlen : st.screen.length = st.gfs.screen_width * st.gfs.screen_height)
    (hok : rewrite_ok alloc st j = true) :
    flattened (loop_upto alloc st k).gfs ((loop_upto alloc st k).gfs.image j) := by
  have hinv := loop_inv alloc st j
  have hf := unoptimize_image_flattened (loop_upto alloc st j).gfs j
    (loop_upto alloc st j).screen (alloc j) (by rw [hinv.length]; exact hj)
    (by rw [hinv.screen, hinv.width, hinv.height]; exact hlen) hok
  rw [← loop_step_gfs, ← loop_upto_succ] at hf
  rw [loop_earlier alloc st k j hjk]
  have h1 := loop_inv alloc st (j + 1)
  have h2 := loop_inv alloc st k
  unfold flattened at hf ⊢
  rw [h2.width, h2.height]
  rw [h1.width, h1.height] at hf
  exact hf

theorem init_state_screen_length (calcsize : Gif_Stream → Nat × Nat) (gfs : Gif_Stream) :
    (init_state calcsize gfs).screen.length =
      (init_state calcsize gfs).gfs.screen_width * (init_state calcsize gfs).gfs.screen_height := by
  simp [init_state]

theorem init_state_images (calcsize : Gif_Stream → Nat × Nat) (gfs : Gif_Stream) :
    (init_state calcsize gfs).gfs.images = gfs.images := rfl

theorem init_state_ok (calcsize : Gif_Stream → Nat × Nat) (gfs : Gif_Stream) :
    (init_state calcsize gfs).ok = true := rfl

/-- On a stream that passes the precondition checks the call runs the frame loop
over all frames. -/
theorem Gif_Unoptimize_run_of_checks (calcsize : Gif_Stream → Nat × Nat)
    (alloc : Nat → Alloc) (gfs : Gif_Stream) (h : passes_checks gfs) :
    Gif_Unoptimize_run calcsize alloc gfs =
      loop_upto alloc (init_state calcsize gfs) gfs.images.length := by
  obtain ⟨h2, hl, hg⟩ := h
  have h1 : ¬ gfs.images.length ≤ 1 := by omega
  have ha : gfs.images.any (fun gfi => gfi.localmap.isSome) = false := by
    rw [List.any_eq_false]
    intro gfi hm
    simp [hl gfi hm]
  have hn : gfs.global.isNone = false := by
    cases hgl : gfs.global with
    | none => rw [hgl] at hg; simp at hg
    | some g => rfl
  simp [Gif_Unoptimize_run, h1, ha, hn]

/-- A call on at least two frames that returns success passed the checks. -/
theorem passes_checks_of_ok (calcsize : Gif_Stream → Nat × Nat)
    (alloc : Nat → Alloc) (gfs : Gif_Stream) (h2 : 2 ≤ gfs.images.length)
    (hok : (Gif_Unoptimize calcsize alloc gfs).1 = true) : passes_checks gfs := by
  have h1 : ¬ gfs.images.length ≤ 1 := by omega
  unfold Gif_Unoptimize Gif_Unoptimize_run at hok
  simp only [h1, if_false] at hok
  by_cases ha : gfs.images.any (fun gfi => gfi.localmap.isSome) = true
  · simp [ha] at hok
  · by_cases hn : gfs.global.isNone = true
    · simp [ha, hn] at hok
    · refine ⟨h2, ?_, ?_⟩
      · intro gfi hm
        cases hl : gfi.localmap with
        | none => rfl
        | some c =>
          exact absurd (List.any_eq_true.mpr ⟨gfi, hm, by simp [hl]⟩) ha
      · cases hgl : gfs.global with
        | none => simp [hgl] at hn
        | some g => rfl

/-! ## Restore-to-previous (C8) -/

/-- C8: rewriting a frame whose disposal is restore-to-previous leaves the shared
canvas cell for cell equal to the canvas `S` it was given, whether the rewrite
succeeds or fails; the frame loop hands that same canvas `S` on to the following
frame. -/
theorem unoptimize_image_previous_screen (gfs : Gif_Stream) (i : Nat) (S : List Nat)
    (a : Alloc) (hd : (gfs.image i).disposal = Gif_Disposal.previous) :
    (unoptimize_image gfs i S a).screen = S ∧
    ∀ (alloc : Nat → Alloc) (ok : Bool), alloc i = a →
      (loop_step alloc ⟨ok, gfs, S⟩ i).screen = S := by
  have key : (unoptimize_image gfs i S a).screen = S := by
    by_cases hb : buffers_ok gfs i a
    · have hd1 := create_image_data_disposal gfs i
        (put_image_in_screen gfs (gfs.image i) S) a.rearray
      rcases hc : create_image_data gfs i (put_image_in_screen gfs (gfs.image i) S) a.rearray
        with ⟨ok, gfs1, nd⟩
      rw [hc] at hd1
      cases ok with
      | false =>
        rw [unoptimize_image_remap_fail gfs gfs1 i S nd a hb hc]
        simp [shared_after_draw, hd]
      | true =>
        rw [unoptimize_image_remap_ok gfs gfs1 i S nd a hb hc]
        simp only at hd1
        simp [shared_after_draw, hd, hd1]
    · rw [unoptimize_image_no_buffers gfs i S a hb]
  refine ⟨key, fun alloc ok ha => ?_⟩
  rw [loop_step_screen]
  simp only
  rw [ha]
  exact key

/-- Witness for C8: the restore-to-previous frame of `previous_stream`, rewritten
on the canvas `[1, 2]`, is flattened to `[3, 2]` and leaves the canvas `[1, 2]`. -/
theorem unoptimize_image_previous_screen_witness :
    ((unoptimize_image previous_stream 1 [1, 2] Alloc.allOk).gfs.image 1).image_data = [3, 2] ∧
    ((unoptimize_image previous_stream 1 [1, 2] Alloc.allOk).screen = [1, 2] ∧
    ∀ (alloc : Nat → Alloc) (ok : Bool), alloc 1 = Alloc.allOk →
      (loop_step alloc ⟨ok, previous_stream, [1, 2]⟩ 1).screen = [1, 2]) :=
  ⟨by decide, unoptimize_image_previous_screen previous_stream 1 [1, 2] Alloc.allOk rfl⟩

/-! ## Flattened output (C5) and the aggregate flag (C6) -/

/-- C5: when `Gif_Unoptimize` returns success on a stream with at least two frames,
the stream keeps its number of frames and every frame has offset (0,0), the width
and height of the stream's canvas, disposal restore-to-background and a pixel
buffer of canvas width times canvas height cells. -/
theorem Gif_Unoptimize_success_flattened (calcsize : Gif_Stream → Nat × Nat)
    (alloc : Nat → Alloc) (gfs : Gif_Stream) (h2 : 2 ≤ gfs.images.length)
    (hok : (Gif_Unoptimize calcsize alloc gfs).1 = true) :
    (Gif_Unoptimize calcsize alloc gfs).2.images.length = gfs.images.length ∧
    ∀ gfi ∈ (Gif_Unoptimize calcsize alloc gfs).2.images,
      gfi.left = 0 ∧ gfi.top = 0 ∧
      gfi.width = (Gif_Unoptimize calcsize alloc gfs).2.screen_width ∧
      gfi.height = (Gif_Unoptimize calcsize alloc gfs).2.screen_height ∧
      gfi.disposal = Gif_Disposal.background ∧
      gfi.image_data.length =
        (Gif_Unoptimize calcsize alloc gfs).2.screen_width *
          (Gif_Unoptimize calcsize alloc gfs).2.screen_height := by
  have hc := passes_checks_of_ok calcsize alloc gfs h2 hok
  have hrun := Gif_Unoptimize_run_of_checks calcsize alloc gfs hc
  unfold Gif_Unoptimize at hok ⊢
  simp only at hok ⊢
  rw [hrun] at hok ⊢
  have hinv := loop_inv alloc (init_state calcsize gfs) gfs.images.length
  have hall := ((loop_ok alloc (init_state calcsize gfs) gfs.images.length).mp hok).2
  refine ⟨hinv.length, fun gfi hm => ?_⟩
  obtain ⟨j, hj, rfl⟩ := List.getElem_of_mem hm
  have hj0 : j < gfs.images.length := by
    have := hinv.length
    rw [init_state_images] at this
    omega
  have hf := loop_flattened alloc (init_state calcsize gfs) gfs.images.length j hj0 hj0
    (init_state_screen_length calcsize gfs) (hall j hj0)
  have e : (loop_upto alloc (init_state calcsize gfs) gfs.images.length).gfs.image j
      = (loop_upto alloc (init_state calcsize gfs) gfs.images.length).gfs.images[j] := by
    simp [Gif_Stream.image, List.getD_eq_getElem?_getD, hj]
  rw [e] at hf
  exact hf

/-- Witness for C5: Scenario A with background index 7. -/
theorem Gif_Unoptimize_success_flattened_witness :
    (Gif_Unoptimize keep_size (fun _ => Alloc.allOk) (scenario_A (palette 8) 7)).2.images.length = 2 ∧
    ∀ gfi ∈ (Gif_Unoptimize keep_size (fun _ => Alloc.allOk) (scenario_A (palette 8) 7)).2.images,
      gfi.left = 0 ∧ gfi.top = 0 ∧
      gfi.width = (Gif_Unoptimize keep_size (fun _ => Alloc.allOk) (scenario_A (palette 8) 7)).2.screen_width ∧
      gfi.height = (Gif_Unoptimize keep_size (fun _ => Alloc.allOk) (scenario_A (palette 8) 7)).2.screen_height ∧
      gfi.disposal = Gif_Disposal.background ∧
      gfi.image_data.length =
        (Gif_Unoptimize keep_size (fun _ => Alloc.allOk) (scenario_A (palette 8) 7)).2.screen_width *
          (Gif_Unoptimize keep_size (fun _ => Alloc.allOk) (scenario_A (palette 8) 7)).2.screen_height :=
  Gif_Unoptimize_success_flattened keep_size (fun _ => Alloc.allOk) (scenario_A (palette 8) 7)
    (by decide) (by decide)

/-- C6: on a stream that passes the precondition checks, `Gif_Unoptimize` returns
success exactly when the rewrite of every frame succeeded; and whatever the
returned flag, the loop visits every frame: each frame whose own rewrite succeeded,
before or after a failed one, is flattened in the stream the call leaves. -/
theorem Gif_Unoptimize_aggregate (calcsize : Gif_Stream → Nat × Nat)
    (alloc : Nat → Alloc) (gfs : Gif_Stream) (hc : passes_checks gfs) :
    ((Gif_Unoptimize calcsize alloc gfs).1 = true ↔
      ∀ j, j < gfs.images.length → rewrite_ok alloc (init_state calcsize gfs) j = true) ∧
    (Gif_Unoptimize calcsize alloc gfs).2.images.length = gfs.images.length ∧
    ∀ j, j < gfs.images.length → rewrite_ok alloc (init_state calcsize gfs) j = true →
      ((Gif_Unoptimize calcsize alloc gfs).2.image j).left = 0 ∧
      ((Gif_Unoptimize calcsize alloc gfs).2.image j).top = 0 ∧
      ((Gif_Unoptimize calcsize alloc gfs).2.image j).width =
        (Gif_Unoptimize calcsize alloc gfs).2.screen_width ∧
      ((Gif_Unoptimize calcsize alloc gfs).2.image j).height =
        (Gif_Unoptimize calcsize alloc gfs).2.screen_height ∧
      ((Gif_Unoptimize calcsize alloc gfs).2.image j).disposal = Gif_Disposal.background ∧
      ((Gif_Unoptimize calcsize alloc gfs).2.image j).image_data.length =
        (Gif_Unoptimize calcsize alloc gfs).2.screen_width *
          (Gif_Unoptimize calcsize alloc gfs).2.screen_height := by
  have hrun := Gif_Unoptimize_run_of_checks calcsize alloc gfs hc
  unfold Gif_Unoptimize
  simp only
  rw [hrun]
  refine ⟨?_, (loop_inv alloc (init_state calcsize gfs) gfs.images.length).length, ?_⟩
  · rw [loop_ok]
    simp [init_state_ok]
  · intro j hj hokj
    exact loop_flattened alloc (init_state calcsize gfs) gfs.images.length j hj hj
      (init_state_screen_length calcsize gfs) hokj

/-- Witness for C6: three frames of which the second cannot be rewritten (its
pixel buffer cannot be allocated). The call returns failure, the rewrites of frames
0 and 2 succeed and both are flattened, frame 1 is as in the input. -/
theorem Gif_Unoptimize_aggregate_witness :
    (Gif_Unoptimize keep_size alloc_fail_1 three_frame_stream).1 = false ∧
    rewrite_ok alloc_fail_1 (init_state keep_size three_frame_stream) 0 = true ∧
    rewrite_ok alloc_fail_1 (init_state keep_size three_frame_stream) 1 = false ∧
    rewrite_ok alloc_fail_1 (init_state keep_size three_frame_stream) 2 = true ∧
    (Gif_Unoptimize keep_size alloc_fail_1 three_frame_stream).2.image 1
      = three_frame_stream.image 1 ∧
    ((Gif_Unoptimize keep_size alloc_fail_1 three_frame_stream).2.image 0).image_data = [1, 0] ∧
    ((Gif_Unoptimize keep_size alloc_fail_1 three_frame_stream).2.image 2).image_data = [3, 0] ∧
    (((Gif_Unoptimize keep_size alloc_fail_1 three_frame_stream).1 = true ↔
      ∀ j, j < three_frame_stream.images.length →
        rewrite_ok alloc_fail_1 (init_state keep_size three_frame_stream) j = true) ∧
    (Gif_Unoptimize keep_size alloc_fail_1 three_frame_stream).2.images.length
      = three_frame_stream.images.length ∧
    ∀ j, j < three_frame_stream.images.length →
      rewrite_ok alloc_fail_1 (init_state keep_size three_frame_stream) j = true →
      ((Gif_Unoptimize keep_size alloc_fail_1 three_frame_stream).2.image j).left = 0 ∧
      ((Gif_Unoptimize keep_size alloc_fail_1 three_frame_stream).2.image j).top = 0 ∧
      ((Gif_Unoptimize keep_size alloc_fail_1 three_frame_stream).2.image j).width =
        (Gif_Unoptimize keep_size alloc_fail_1 three_frame_stream).2.screen_width ∧
      ((Gif_Unoptimize keep_size alloc_fail_1 three_frame_stream).2.image j).height =
        (Gif_Unoptimize keep_size alloc_fail_1 three_frame_stream).2.screen_height ∧
      ((Gif_Unoptimize keep_size alloc_fail_1 three_frame_stream).2.image j).disposal
        = Gif_Disposal.background ∧
      ((Gif_Unoptimize keep_size alloc_fail_1 three_frame_stream).2.image j).image_data.length =
        (Gif_Unoptimize keep_size alloc_fail_1 three_frame_stream).2.screen_width *
          (Gif_Unoptimize keep_size alloc_fail_1 three_frame_stream).2.screen_height) :=
  ⟨by decide, by decide, by decide, by decide, by decide, by decide, by decide,
   Gif_Unoptimize_aggregate keep_size alloc_fail_1 three_frame_stream (by decide)⟩

/-! ## The remapper (C7, C10) -/

theorem have_iff (screen : List Nat) (size v : Nat) :
    have_ screen size v = true ↔ v ∈ screen.take size := by
  simp [have_]

theorem have_iff_of_length (screen : List Nat) (size v : Nat) (hlen : screen.length = size) :
    have_ screen size v = true ↔ v ∈ screen := by
  rw [have_iff, List.take_of_length_le (by omega)]

theorem first_unused_eq_none (screen : List Nat) (size : Nat) :
    first_unused screen size = none ↔ ∀ v, v < 256 → have_ screen size v = true := by
  simp [first_unused, List.find?_eq_none]

theorem first_unused_some (screen : List Nat) (size n : Nat)
    (h : first_unused screen size = some n) : n < 256 ∧ have_ screen size n = false := by
  unfold first_unused at h
  have h1 := List.mem_of_find?_eq_some h
  have h2 := List.find?_some h
  exact ⟨List.mem_range.mp h1, by simpa using h2⟩

/-- The recorded transparent index and the cell map of a successful
`create_image_data` on a canvas of the stream's size whose cells are at most 256:
either the canvas has no sentinel, the index is `-1` and cells are copied, or it
has one, the index `n` is below 256 and absent from the canvas, and exactly the
sentinel cells are stored as `n`. -/
theorem create_image_data_ok_cases (gfs : Gif_Stream) (i : Nat) (screen : List Nat)
    (r : Option (Nat → Gif_Color)) (hi : i < gfs.images.length)
    (hlen : screen.length = gfs.screen_width * gfs.screen_height)
    (hok : (create_image_data gfs i screen r).1 = true) :
    (create_image_data gfs i screen r).2.2 =
        screen.map (remap_cell ((create_image_data gfs i screen r).2.1.image i).transparent) ∧
    ((TRANSPARENT ∉ screen ∧
        ((create_image_data gfs i screen r).2.1.image i).transparent = -1) ∨
      (TRANSPARENT ∈ screen ∧ ∃ n : Nat, n < 256 ∧ n ∉ screen ∧
        ((create_image_data gfs i screen r).2.1.image i).transparent = n)) := by
  obtain ⟨t, g, hs, _, hnd⟩ := create_image_data_shape gfs i screen r
  obtain ⟨hmap, hcase⟩ := hnd hok
  have ht : ((create_image_data gfs i screen r).2.1.image i).transparent = t := by
    rw [hs, remapped_stream_image gfs i t g hi]
  rw [ht, hmap, List.take_of_length_le (by omega)]
  refine ⟨rfl, ?_⟩
  rcases hcase with ⟨hno, rfl⟩ | ⟨hyes, n, hn, rfl⟩
  · left
    refine ⟨fun hmem => ?_, rfl⟩
    rw [(have_iff_of_length screen _ _ hlen).mpr hmem] at hno
    simp at hno
  · right
    obtain ⟨hlt, habs⟩ := first_unused_some screen _ n hn
    refine ⟨(have_iff_of_length screen _ _ hlen).mp hyes, n, hlt, fun hmem => ?_, rfl⟩
    rw [(have_iff_of_length screen _ _ hlen).mpr hmem] at habs
    simp at habs

/-- C7: with a shared palette present and the palette reallocation succeeding,
`create_image_data` on a canvas of the stream's size with cells at most 256
reports failure exactly when the canvas contains the sentinel and every one of
the values 0..255; in every other case it reports success. -/
theorem create_image_data_fails_iff (gfs : Gif_Stream) (i : Nat) (screen : List Nat)
    (fresh : Nat → Gif_Color)
    (hlen : screen.length = gfs.screen_width * gfs.screen_height)
    (_hcells : ∀ v ∈ screen, v ≤ 256)
    (hg : gfs.global.isSome = true) :
    ((create_image_data gfs i screen (some fresh)).1 = false ↔
      (TRANSPARENT ∈ screen ∧ ∀ v, v < 256 → v ∈ screen)) ∧
    ((create_image_data gfs i screen (some fresh)).1 = true ↔
      ¬ (TRANSPARENT ∈ screen ∧ ∀ v, v < 256 → v ∈ screen)) := by
  have key : (create_image_data gfs i screen (some fresh)).1 = false ↔
      (TRANSPARENT ∈ screen ∧ ∀ v, v < 256 → v ∈ screen) := by
    cases h : have_ screen (gfs.screen_width * gfs.screen_height) TRANSPARENT with
    | false =>
      rw [create_image_data_no_sentinel gfs i screen _ h, create_image_data_finish_eq]
      have hno : TRANSPARENT ∉ screen := fun hm => by
        rw [(have_iff_of_length screen _ _ hlen).mpr hm] at h
        simp at h
      simp [hno]
    | true =>
      have hyes : TRANSPARENT ∈ screen := (have_iff_of_length screen _ _ hlen).mp h
      cases hf : first_unused screen (gfs.screen_width * gfs.screen_height) with
      | none =>
        rw [create_image_data_exhausted gfs i screen _ h hf]
        have hall := (first_unused_eq_none screen _).mp hf
        simp only [true_iff]
        exact ⟨hyes, fun v hv => (have_iff_of_length screen _ _ hlen).mp (hall v hv)⟩
      | some n =>
        obtain ⟨hlt, habs⟩ := first_unused_some screen _ n hf
        have hmiss : ¬ (TRANSPARENT ∈ screen ∧ ∀ v, v < 256 → v ∈ screen) := by
          rintro ⟨_, hall⟩
          rw [(have_iff_of_length screen _ _ hlen).mpr (hall n hlt)] at habs
          simp at habs
        cases hgl : gfs.global with
        | none => rw [hgl] at hg; simp at hg
        | some g =>
          by_cases ht : n < g.ncol
          · rw [create_image_data_fits gfs i screen _ n g h hf hgl ht,
              create_image_data_finish_eq]
            simp [hmiss]
          · rw [create_image_data_grow gfs i screen fresh n g h hf hgl (not_lt.mp ht),
              create_image_data_finish_eq]
            simp [hmiss]
  refine ⟨key, ?_⟩
  rw [← key]
  simp

set_option maxRecDepth 100000 in
/-- Witness for C7: on the canvas of 257 cells that holds the sentinel and all of
0..255 the remapper fails. -/
theorem create_image_data_fails_iff_witness :
    (create_image_data wide_stream 0 exhausted_canvas (some (fun _ => default))).1 = false ∧
    (((create_image_data wide_stream 0 exhausted_canvas (some (fun _ => default))).1 = false ↔
      (TRANSPARENT ∈ exhausted_canvas ∧ ∀ v, v < 256 → v ∈ exhausted_canvas)) ∧
    ((create_image_data wide_stream 0 exhausted_canvas (some (fun _ => default))).1 = true ↔
      ¬ (TRANSPARENT ∈ exhausted_canvas ∧ ∀ v, v < 256 → v ∈ exhausted_canvas))) :=
  ⟨by decide,
   create_image_data_fails_iff wide_stream 0 exhausted_canvas (fun _ => default)
     (by decide) (by decide) (by decide)⟩

/-- The cell map of a successful `create_image_data`, cell by cell. `t` is `-1` on
a canvas without sentinel and a value of 0..255 absent from the canvas otherwise.
Every stored value is a byte; it equals `t` exactly for a sentinel cell and is the
cell itself otherwise; reading it back gives the cell. -/
theorem remap_cell_spec (screen : List Nat) (t : Int)
    (hcells : ∀ v ∈ screen, v ≤ 256)
    (hcase : (TRANSPARENT ∉ screen ∧ t = -1) ∨
      (TRANSPARENT ∈ screen ∧ ∃ n : Nat, n < 256 ∧ n ∉ screen ∧ t = n)) :
    ∀ v ∈ screen, remap_cell t v < 256 ∧
      (((remap_cell t v : Nat) : Int) = t ↔ v = TRANSPARENT) ∧
      (v ≠ TRANSPARENT → remap_cell t v = v) ∧ read_back t (remap_cell t v) = v := by
  intro v hv
  have hv256 := hcells v hv
  rcases hcase with ⟨hno, rfl⟩ | ⟨_, n, hn, habs, rfl⟩
  · have hne : v ≠ TRANSPARENT := fun e => hno (e ▸ hv)
    have hlt : v < 256 := by
      unfold TRANSPARENT at hne
      omega
    have e : remap_cell (-1) v = v := by
      simp [remap_cell, hne, Nat.mod_eq_of_lt hlt]
    rw [e]
    refine ⟨hlt, ?_, fun _ => rfl, ?_⟩
    · constructor
      · intro h
        omega
      · intro h
        exact absurd h hne
    · have : ¬ ((v : Int) = -1) := by omega
      simp [read_back, this]
  · by_cases hs : v = TRANSPARENT
    · have e : remap_cell (n : Int) v = n := by
        have : ((n : Int) % 256).toNat = n := by omega
        simp [remap_cell, hs, this]
      rw [e]
      refine ⟨hn, ?_, fun h => absurd hs h, ?_⟩
      · simp [hs]
      · simp [read_back, hs]
    · have hlt : v < 256 := by
        unfold TRANSPARENT at hs
        omega
      have e : remap_cell (n : Int) v = v := by
        simp [remap_cell, hs, Nat.mod_eq_of_lt hlt]
      rw [e]
      have hvn : v ≠ n := fun e => habs (e ▸ hv)
      refine ⟨hlt, ?_, fun _ => rfl, ?_⟩
      · constructor
        · intro h
          exact absurd (by exact_mod_cast h) hvn
        · intro h
          exact absurd h hs
      · have : ¬ ((v : Int) = (n : Int)) := by exact_mod_cast hvn
        simp [read_back, this]

/-- C10: a successful `create_image_data` on a canvas of the stream's size with
cells at most 256 is lossless. With `t` the transparent index it records on the
frame: the output has one cell per canvas cell; every output cell is in 0..255;
at every position the output cell equals `t` exactly when the canvas cell is the
sentinel, and equals the canvas cell otherwise; reading `t` back as the sentinel
recovers the canvas. -/
theorem create_image_data_lossless (gfs : Gif_Stream) (i : Nat) (screen : List Nat)
    (r : Option (Nat → Gif_Color)) (hi : i < gfs.images.length)
    (hlen : screen.length = gfs.screen_width * gfs.screen_height)
    (hcells : ∀ v ∈ screen, v ≤ 256)
    (hok : (create_image_data gfs i screen r).1 = true) :
    (create_image_data gfs i screen r).2.2.length = screen.length ∧
    (∀ v ∈ (create_image_data gfs i screen r).2.2, v < 256) ∧
    (∀ p, p < screen.length →
      (((create_image_data gfs i screen r).2.2.getD p 0 : Int) =
          ((create_image_data gfs i screen r).2.1.image i).transparent ↔
        screen.getD p 0 = TRANSPARENT) ∧
      (screen.getD p 0 ≠ TRANSPARENT →
        (create_image_data gfs i screen r).2.2.getD p 0 = screen.getD p 0)) ∧
    (create_image_data gfs i screen r).2.2.map
        (read_back ((create_image_data gfs i screen r).2.1.image i).transparent) = screen := by
  obtain ⟨hmap, hcase⟩ := create_image_data_ok_cases gfs i screen r hi hlen hok
  generalize ((create_image_data gfs i screen r).2.1.image i).transparent = t at hmap hcase
  rw [hmap]
  have cell := remap_cell_spec screen t hcells hcase
  refine ⟨by simp, ?_, ?_, ?_⟩
  · intro v hv
    obtain ⟨u, hu, rfl⟩ := List.mem_map.mp hv
    exact (cell u hu).1
  · intro p hp
    have hmem : screen.getD p 0 ∈ screen := by
      rw [List.getD_eq_getElem _ _ hp]
      exact List.getElem_mem _
    have e : (screen.map (remap_cell t)).getD p 0 = remap_cell t (screen.getD p 0) := by
      simp [List.getD_eq_getElem?_getD, hp]
    rw [e]
    exact ⟨(cell _ hmem).2.1, (cell _ hmem).2.2.1⟩
  · rw [List.map_map]
    calc screen.map (read_back t ∘ remap_cell t) = screen.map id :=
          List.map_congr_left (fun v hv => (cell v hv).2.2.2)
      _ = screen := List.map_id _

/-- Witness for C10: the canvas `[256, 0, 5, 256]` is stored as `[1, 0, 5, 1]` with
transparent index 1. -/
theorem create_image_data_lossless_witness :
    (create_image_data small_stream 0 [256, 0, 5, 256] none).2.2 = [1, 0, 5, 1] ∧
    ((create_image_data small_stream 0 [256, 0, 5, 256] none).2.1.image 0).transparent = 1 ∧
    ((create_image_data small_stream 0 [256, 0, 5, 256] none).2.2.length
        = [256, 0, 5, 256].length ∧
    (∀ v ∈ (create_image_data small_stream 0 [256, 0, 5, 256] none).2.2, v < 256) ∧
    (∀ p, p < [256, 0, 5, 256].length →
      (((create_image_data small_stream 0 [256, 0, 5, 256] none).2.2.getD p 0 : Int) =
          ((create_image_data small_stream 0 [256, 0, 5, 256] none).2.1.image 0).transparent ↔
        [256, 0, 5, 256].getD p 0 = TRANSPARENT) ∧
      ([256, 0, 5, 256].getD p 0 ≠ TRANSPARENT →
        (create_image_data small_stream 0 [256, 0, 5, 256] none).2.2.getD p 0
          = [256, 0, 5, 256].getD p 0)) ∧
    (create_image_data small_stream 0 [256, 0, 5, 256] none).2.2.map
        (read_back ((create_image_data small_stream 0 [256, 0, 5, 256] none).2.1.image 0).transparent)
      = [256, 0, 5, 256]) :=
  ⟨by decide, by decide,
   create_image_data_lossless small_stream 0 [256, 0, 5, 256] none
     (by decide) (by decide) (by decide) (by decide)⟩

/-! ## Scenario A (C9) -/

/-- C9: Scenario A. For every shared palette, every background index `b ≤ 255`,
a canvas-size calculation that yields the 2x2 canvas and pixel-buffer allocations
that succeed, `Gif_Unoptimize` returns success, frame 0 is rewritten to
`[0,1,2,3]`, frame 1 to `[4,1,2,3]` with offset (0,0), size 2x2 and no transparent
index, and the shared canvas after frame 1 is `[b,1,2,3]`. -/
theorem scenario_A_result (calcsize : Gif_Stream → Nat × Nat) (alloc : Nat → Alloc)
    (g : Gif_Colormap) (b : Nat) (_hb : b ≤ 255)
    (hsize : calcsize (scenario_A g b) = (2, 2))
    (halloc : ∀ j, (alloc j).new_data = true) :
    Gif_Unoptimize calcsize alloc (scenario_A g b) =
      (true,
       { global := some g, background := b, screen_width := 2, screen_height := 2,
         images := [frame (-1) Gif_Disposal.background 0 0 2 2 [0, 1, 2, 3],
                    frame (-1) Gif_Disposal.background 0 0 2 2 [4, 1, 2, 3]] }) ∧
    (Gif_Unoptimize_run calcsize alloc (scenario_A g b)).screen = [b, 1, 2, 3] := by
  have hrun : Gif_Unoptimize_run calcsize alloc (scenario_A g b) =
      loop_upto alloc (init_state calcsize (scenario_A g b)) 2 :=
    Gif_Unoptimize_run_of_checks calcsize alloc (scenario_A g b) ⟨by simp [scenario_A], by simp [scenario_A, frame], rfl⟩
  have hinit : init_state calcsize (scenario_A g b) =
      ⟨true, scenario_A g b, [b, b, b, b]⟩ := by
    simp only [init_state, hsize]
    simp [scenario_A, frame, Gif_Stream.image, List.replicate]
  unfold Gif_Unoptimize
  rw [hrun, hinit]
  simp [scenario_A, frame, loop_upto, loop_step,
    unoptimize_image, List.range_succ, Gif_Stream.image, put_image_in_screen,
    put_image_row, clip, Gif_Image.img, create_image_data, have_, TRANSPARENT,
    create_image_data_finish, Gif_Stream.setImage, remap_cell, put_background_in_screen,
    put_background_row, solid, halloc]

/-- Witness for C9: background index 7, a palette of 8 entries. -/
theorem scenario_A_result_witness :
    Gif_Unoptimize keep_size (fun _ => Alloc.allOk) (scenario_A (palette 8) 7) =
      (true,
       { global := some (palette 8), background := 7, screen_width := 2, screen_height := 2,
         images := [frame (-1) Gif_Disposal.background 0 0 2 2 [0, 1, 2, 3],
                    frame (-1) Gif_Disposal.background 0 0 2 2 [4, 1, 2, 3]] }) ∧
    (Gif_Unoptimize_run keep_size (fun _ => Alloc.allOk) (scenario_A (palette 8) 7)).screen
      = [7, 1, 2, 3] :=
  scenario_A_result keep_size (fun _ => Alloc.allOk) (palette 8) 7 (by decide) rfl
    (fun _ => rfl)

/-! ## Output against the renderer (C1) -/

/-- C1, evaluated on `declared_unused_stream`, which has two frames, no frame-local
palette, a shared palette and background index 7. `Gif_Unoptimize` returns success.
Input frame 0 declares a transparent index and has disposal restore-to-background,
so the renderer of the claim shows the sentinel at cell (1,0) for frame 1. The code
takes the fill decision of lines 54-59 from `gfi->transparent` after line 107 has
overwritten it with `-1`, fills with the background index, and output frame 1 holds
`[3, 7]` with no transparent index: it shows colour 7 at cell (1,0). -/
theorem Gif_Unoptimize_differs_from_renderer :
    passes_checks declared_unused_stream ∧
    declared_unused_stream.background ≤ 255 ∧
    (Gif_Unoptimize keep_size (fun _ => Alloc.allOk) declared_unused_stream).1 = true ∧
    ((Gif_Unoptimize keep_size (fun _ => Alloc.allOk) declared_unused_stream).2.image 1).image_data
      = [3, 7] ∧
    ((Gif_Unoptimize keep_size (fun _ => Alloc.allOk) declared_unused_stream).2.image 1).transparent
      = -1 ∧
    shown (Gif_Unoptimize keep_size (fun _ => Alloc.allOk) declared_unused_stream).2 1 1 0 = 7 ∧
    renderer_screen declared_unused_stream 1 1 0 = TRANSPARENT ∧
    (init_state keep_size declared_unused_stream).screen = [TRANSPARENT, TRANSPARENT] ∧
    (loop_upto (fun _ => Alloc.allOk) (init_state keep_size declared_unused_stream) 1).screen
      = [7, 7] := by
  decide

/-! ## One rewrite against the virtual screen -/

theorem renderer_draw_congr (gfi : Gif_Image) (c c1 : Nat → Nat → Nat) (x y : Nat)
    (h : c x y = c1 x y) : renderer_draw gfi c x y = renderer_draw gfi c1 x y := by
  unfold renderer_draw
  simp only [h]

theorem dispose_with_congr (gfi : Gif_Image) (fill : Nat) (b b1 d d1 : Nat → Nat → Nat)
    (x y : Nat) (hb : b x y = b1 x y) (hd : d x y = d1 x y) :
    dispose_with gfi fill b d x y = dispose_with gfi fill b1 d1 x y := by
  unfold dispose_with
  cases gfi.disposal <;> simp only [hb, hd]

theorem put_image_in_screen_fn (gfs : Gif_Stream) (gfi : Gif_Image) (screen : List Nat)
    (x y : Nat) (hx : x < gfs.screen_width) (hy : y < gfs.screen_height)
    (hlen : screen.length = gfs.screen_width * gfs.screen_height) :
    screen_fn gfs.screen_width (put_image_in_screen gfs gfi screen) x y =
      renderer_draw gfi (screen_fn gfs.screen_width screen) x y :=
  put_image_in_screen_getD gfs gfi screen x y hx hy hlen

theorem create_image_data_image (gfs : Gif_Stream) (i : Nat) (screen : List Nat)
    (r : Option (Nat → Gif_Color)) (hi : i < gfs.images.length) :
    (create_image_data gfs i screen r).2.1.image i =
      { gfs.image i with
        transparent := ((create_image_data gfs i screen r).2.1.image i).transparent } := by
  obtain ⟨t, g, h, _, _⟩ := create_image_data_shape gfs i screen r
  rw [h, remapped_stream_image gfs i t g hi]

theorem solid_setImage (gfs : Gif_Stream) (i : Nat) (G : Gif_Image)
    (hi : i < gfs.images.length) (ht : G.transparent = (gfs.image i).transparent) :
    solid (gfs.setImage i G) ((gfs.setImage i G).image i) = solid gfs (gfs.image i) := by
  rw [image_setImage_self gfs i G hi]
  have h0 : ((gfs.setImage i G).image 0).transparent = (gfs.image 0).transparent := by
    by_cases h : i = 0
    · subst h
      rw [image_setImage_self gfs 0 G hi, ht]
    · rw [image_setImage_ne gfs i 0 G h]
  unfold solid
  rw [h0, ht]
  rfl

/-- One successful rewrite, against the virtual screen `screen_fn sw screen` the
canvas holds on entry: the rewritten frame shows the frame drawn on that screen;
the canvas on exit holds the frame's disposal applied, restore-to-background
filling with the value `solid` computes on the stream as the call leaves it; and
the canvas cells stay at most 256. -/
theorem unoptimize_image_step (gfs : Gif_Stream) (i : Nat) (screen : List Nat) (a : Alloc)
    (hi : i < gfs.images.length)
    (hlen : screen.length = gfs.screen_width * gfs.screen_height)
    (hcells : ∀ v ∈ screen, v ≤ 256) (hp : byte_pixels (gfs.image i))
    (hb : gfs.background ≤ 256)
    (hok : (unoptimize_image gfs i screen a).ok = true) :
    (∀ x y, x < gfs.screen_width → y < gfs.screen_height →
      shown (unoptimize_image gfs i screen a).gfs i x y =
        renderer_draw (gfs.image i) (screen_fn gfs.screen_width screen) x y) ∧
    (∀ x y, x < gfs.screen_width → y < gfs.screen_height →
      screen_fn gfs.screen_width (unoptimize_image gfs i screen a).screen x y =
        dispose_with (gfs.image i)
          (solid (unoptimize_image gfs i screen a).gfs
            ((unoptimize_image gfs i screen a).gfs.image i))
          (screen_fn gfs.screen_width screen)
          (renderer_draw (gfs.image i) (screen_fn gfs.screen_width screen)) x y) ∧
    (∀ v ∈ (unoptimize_image gfs i screen a).screen, v ≤ 256) := by
  by_cases hbuf : buffers_ok gfs i a
  swap
  · rw [unoptimize_image_no_buffers gfs i screen a hbuf] at hok
    simp at hok
  have hlen1 : (put_image_in_screen gfs (gfs.image i) screen).length
      = gfs.screen_width * gfs.screen_height := by
    rw [put_image_in_screen_length, hlen]
  have hcells1 := put_image_in_screen_le gfs (gfs.image i) screen hp hcells
  have he := create_image_data_effect gfs i
    (put_image_in_screen gfs (gfs.image i) screen) a.rearray
  have himg := create_image_data_image gfs i
    (put_image_in_screen gfs (gfs.image i) screen) a.rearray hi
  have hcases := create_image_data_ok_cases gfs i
    (put_image_in_screen gfs (gfs.image i) screen) a.rearray hi hlen1
  rcases hc : create_image_data gfs i (put_image_in_screen gfs (gfs.image i) screen)
    a.rearray with ⟨ok, gfs1, nd⟩
  rw [hc] at he himg hcases
  simp only at himg hcases
  cases ok with
  | false =>
    rw [unoptimize_image_remap_fail gfs gfs1 i screen nd a hbuf hc] at hok
    simp at hok
  | true =>
    obtain ⟨hnd, hcase⟩ := hcases rfl
    have hi1 : i < gfs1.images.length := by rw [he.length]; exact hi
    have hdisp : (gfs1.image i).disposal = (gfs.image i).disposal := by rw [himg]
    have hrect : ∀ x y, in_rect (gfs1.image i) x y ↔ in_rect (gfs.image i) x y := by
      intro x y
      rw [himg]
      rfl
    have hcell := remap_cell_spec _ _ hcells1 hcase
    rw [unoptimize_image_remap_ok gfs gfs1 i screen nd a hbuf hc]
    simp only
    have hdraw : ∀ x y, x < gfs.screen_width → y < gfs.screen_height →
        screen_fn gfs.screen_width (shared_after_draw gfs i screen) x y =
          if (gfs.image i).disposal = Gif_Disposal.previous then
            screen_fn gfs.screen_width screen x y
          else renderer_draw (gfs.image i) (screen_fn gfs.screen_width screen) x y := by
      intro x y hx hy
      unfold shared_after_draw
      split
      · rfl
      · exact put_image_in_screen_fn gfs (gfs.image i) screen x y hx hy hlen
    have hshared_le : ∀ v ∈ shared_after_draw gfs i screen, v ≤ 256 := by
      unfold shared_after_draw
      split
      · exact hcells
      · exact hcells1
    refine ⟨?_, ?_, ?_⟩
    · intro x y hx hy
      unfold shown
      rw [image_setImage_self _ _ _ hi1]
      show read_back (gfs1.image i).transparent
        (nd.getD (gfs1.screen_width * y + x) 0) = _
      rw [show gfs1.screen_width = gfs.screen_width from he.width]
      have hidx : gfs.screen_width * y + x
          < (put_image_in_screen gfs (gfs.image i) screen).length := by
        rw [hlen1]
        exact cell_index_lt _ _ _ _ hx hy
      have e : nd.getD (gfs.screen_width * y + x) 0 =
          remap_cell (gfs1.image i).transparent
            ((put_image_in_screen gfs (gfs.image i) screen).getD
              (gfs.screen_width * y + x) 0) := by
        rw [hnd]
        simp [List.getD_eq_getElem?_getD, hidx]
      rw [e]
      have hmem : (put_image_in_screen gfs (gfs.image i) screen).getD
          (gfs.screen_width * y + x) 0 ∈ put_image_in_screen gfs (gfs.image i) screen := by
        rw [List.getD_eq_getElem _ _ hidx]
        exact List.getElem_mem _
      rw [(hcell _ hmem).2.2.2]
      exact put_image_in_screen_fn gfs (gfs.image i) screen x y hx hy hlen
    · intro x y hx hy
      rw [solid_setImage gfs1 i (flat_frame gfs1 i nd) hi1 rfl]
      rw [hdisp]
      unfold dispose_with
      cases hd : (gfs.image i).disposal with
      | none =>
        simp only [reduceCtorEq, if_false]
        rw [hdraw x y hx hy, hd]
        simp
      | background =>
        simp only [reduceCtorEq, if_false, if_true]
        have := put_background_in_screen_getD gfs1 (gfs1.image i)
          (shared_after_draw gfs i screen) x y (by rw [he.width]; exact hx)
          (by rw [he.height]; exact hy)
          (by rw [shared_after_draw_length, he.width, he.height]; exact hlen)
        rw [he.width] at this
        unfold screen_fn
        rw [this]
        simp only [hrect]
        have hd2 := hdraw x y hx hy
        rw [hd] at hd2
        simp only [reduceCtorEq, if_false] at hd2
        unfold screen_fn at hd2
        rw [hd2]
      | previous =>
        simp only [if_true]
        rw [hdraw x y hx hy, hd]
        simp
    · rw [hdisp]
      split
      · exact hshared_le
      · split
        · exact put_background_in_screen_le gfs1 (gfs1.image i) _
            (by rw [he.background]; exact hb) hshared_le
        · exact hshared_le
/-! ## The frame loop against the virtual screen -/

theorem dispose_with_fill (gfi : Gif_Image) (f f1 : Nat) (b d : Nat → Nat → Nat)
    (h : gfi.disposal = Gif_Disposal.background → f = f1) :
    dispose_with gfi f b d = dispose_with gfi f1 b d := by
  unfold dispose_with
  cases hd : gfi.disposal with
  | none => rfl
  | background => simp only [h hd]
  | previous => rfl

/-- `canvas_with` looks at the frames and the background index of the stream only,
and at the fill values of the restore-to-background frames before `i`. -/
theorem canvas_with_congr (gfs gfs1 : Gif_Stream) (F F1 : Nat → Nat) (i : Nat)
    (himg : ∀ j, gfs.image j = gfs1.image j) (hbg : gfs.background = gfs1.background)
    (hF : ∀ j, j < i → (gfs.image j).disposal = Gif_Disposal.background → F j = F1 j) :
    canvas_with gfs F i = canvas_with gfs1 F1 i := by
  induction i with
  | zero =>
    unfold canvas_with
    rw [himg 0, hbg]
  | succ i ih =>
    unfold canvas_with
    rw [ih (fun j hj => hF j (by omega)), ← himg i,
      dispose_with_fill (gfs.image i) (F i) (F1 i) _ _ (hF i (by omega))]

theorem renderer_canvas_eq (gfs : Gif_Stream) (i : Nat) :
    renderer_canvas gfs i = canvas_with gfs (fun j => renderer_fill gfs (gfs.image j)) i := by
  induction i with
  | zero => rfl
  | succ i ih =>
    unfold renderer_canvas canvas_with
    rw [ih]
    unfold renderer_dispose dispose_with
    cases (gfs.image i).disposal <;> rfl

/-- The shared canvas after `k` iterations of the frame loop, all successful, holds
the virtual screen onto which frame `k` is drawn, and its cells are at most 256. -/
theorem loop_canvas (alloc : Nat → Alloc) (st : RunState)
    (hlen : st.screen.length = st.gfs.screen_width * st.gfs.screen_height)
    (hcells : ∀ v ∈ st.screen, v ≤ 256)
    (hpix : ∀ j, j < st.gfs.images.length → byte_pixels (st.gfs.image j))
    (hb : st.gfs.background ≤ 256)
    (hinit : ∀ x y, x < st.gfs.screen_width → y < st.gfs.screen_height →
      screen_fn st.gfs.screen_width st.screen x y =
        if (st.gfs.image 0).transparent ≥ 0 then TRANSPARENT else st.gfs.background)
    (k : Nat) (hk : k ≤ st.gfs.images.length)
    (hok : ∀ j, j < k → rewrite_ok alloc st j = true) :
    (∀ x y, x < st.gfs.screen_width → y < st.gfs.screen_height →
      screen_fn st.gfs.screen_width (loop_upto alloc st k).screen x y =
        canvas_with st.gfs (loop_fill alloc st) k x y) ∧
    (∀ v ∈ (loop_upto alloc st k).screen, v ≤ 256) := by
  induction k with
  | zero => exact ⟨hinit, hcells⟩
  | succ k ih =>
    obtain ⟨ihc, ihb⟩ := ih (by omega) (fun j hj => hok j (by omega))
    have hinv := loop_inv alloc st k
    have hstep := unoptimize_image_step (loop_upto alloc st k).gfs k
      (loop_upto alloc st k).screen (alloc k)
      (by rw [hinv.length]; omega)
      (by rw [hinv.screen, hinv.width, hinv.height]; exact hlen)
      ihb
      (by rw [loop_later alloc st k k (le_refl k)]; exact hpix k (by omega))
      (by rw [hinv.background]; exact hb)
      (hok k (by omega))
    rw [← loop_step_gfs, ← loop_step_screen, ← loop_upto_succ, hinv.width, hinv.height,
      loop_later alloc st k k (le_refl k)] at hstep
    obtain ⟨_, hscr, hle⟩ := hstep
    refine ⟨fun x y hx hy => ?_, hle⟩
    rw [hscr x y hx hy]
    show _ = dispose_with (st.gfs.image k) (loop_fill alloc st k)
      (canvas_with st.gfs (loop_fill alloc st) k)
      (renderer_draw (st.gfs.image k) (canvas_with st.gfs (loop_fill alloc st) k)) x y
    exact dispose_with_congr _ _ _ _ _ _ x y (ihc x y hx hy)
      (renderer_draw_congr _ _ _ x y (ihc x y hx hy))

theorem shown_congr (out out1 : Gif_Stream) (i x y : Nat)
    (hw : out.screen_width = out1.screen_width) (hi : out.image i = out1.image i) :
    shown out i x y = shown out1 i x y := by
  unfold shown
  rw [hw, hi]

/-- After the loop has passed frame `j` successfully, the frame shows input frame
`j` drawn on the virtual screen of that moment. -/
theorem loop_shown (alloc : Nat → Alloc) (st : RunState)
    (hlen : st.screen.length = st.gfs.screen_width * st.gfs.screen_height)
    (hcells : ∀ v ∈ st.screen, v ≤ 256)
    (hpix : ∀ j, j < st.gfs.images.length → byte_pixels (st.gfs.image j))
    (hb : st.gfs.background ≤ 256)
    (hinit : ∀ x y, x < st.gfs.screen_width → y < st.gfs.screen_height →
      screen_fn st.gfs.screen_width st.screen x y =
        if (st.gfs.image 0).transparent ≥ 0 then TRANSPARENT else st.gfs.background)
    (k j : Nat) (hjk : j < k) (hk : k ≤ st.gfs.images.length)
    (hok : ∀ m, m < k → rewrite_ok alloc st m = true)
    (x y : Nat) (hx : x < st.gfs.screen_width) (hy : y < st.gfs.screen_height) :
    shown (loop_upto alloc st k).gfs j x y =
      renderer_draw (st.gfs.image j) (canvas_with st.gfs (loop_fill alloc st) j) x y := by
  obtain ⟨hc, hle⟩ := loop_canvas alloc st hlen hcells hpix hb hinit j (by omega)
    (fun m hm => hok m (by omega))
  have hinv := loop_inv alloc st j
  have hstep := unoptimize_image_step (loop_upto alloc st j).gfs j
    (loop_upto alloc st j).screen (alloc j)
    (by rw [hinv.length]; omega)
    (by rw [hinv.screen, hinv.width, hinv.height]; exact hlen)
    hle
    (by rw [loop_later alloc st j j (le_refl j)]; exact hpix j (by omega))
    (by rw [hinv.background]; exact hb)
    (hok j hjk)
  rw [← loop_step_gfs, ← loop_upto_succ, hinv.width, hinv.height,
    loop_later alloc st j j (le_refl j)] at hstep
  rw [shown_congr (loop_upto alloc st k).gfs (loop_upto alloc st (j + 1)).gfs j x y
    ((loop_inv alloc st k).width.trans (loop_inv alloc st (j + 1)).width.symm)
    (loop_earlier alloc st k j hjk)]
  rw [hstep.1 x y hx hy]
  exact renderer_draw_congr _ _ _ x y (hc x y hx hy)

/-- The fill value of frame `j` can be read off any later state of the loop. -/
theorem loop_fill_eq (alloc : Nat → Alloc) (st : RunState) (k j : Nat) (hjk : j < k) :
    loop_fill alloc st j = solid (loop_upto alloc st k).gfs ((loop_upto alloc st k).gfs.image j) := by
  unfold loop_fill solid
  rw [loop_earlier alloc st k j hjk, loop_earlier alloc st k 0 (by omega),
    loop_earlier alloc st (j + 1) 0 (by omega), (loop_inv alloc st k).background,
    (loop_inv alloc st (j + 1)).background]

/-! ## `Gif_Unoptimize` against the virtual screen -/

theorem init_state_cells (calcsize : Gif_Stream → Nat × Nat) (gfs : Gif_Stream)
    (hb : gfs.background ≤ 256) : ∀ v ∈ (init_state calcsize gfs).screen, v ≤ 256 := by
  intro v hv
  unfold init_state at hv
  simp only at hv
  rw [List.eq_of_mem_replicate hv]
  split
  · exact le_refl _
  · exact hb

theorem init_state_fn (calcsize : Gif_Stream → Nat × Nat) (gfs : Gif_Stream) (x y : Nat)
    (hx : x < (init_state calcsize gfs).gfs.screen_width)
    (hy : y < (init_state calcsize gfs).gfs.screen_height) :
    screen_fn (init_state calcsize gfs).gfs.screen_width (init_state calcsize gfs).screen x y =
      if ((init_state calcsize gfs).gfs.image 0).transparent ≥ 0 then TRANSPARENT
      else (init_state calcsize gfs).gfs.background := by
  have hidx := cell_index_lt _ _ _ _ hx hy
  rw [← init_state_screen_length] at hidx
  unfold screen_fn
  rw [List.getD_eq_getElem _ _ hidx]
  unfold init_state
  simp only [List.getElem_replicate]

theorem image_mem (gfs : Gif_Stream) (j : Nat) (hj : j < gfs.images.length) :
    gfs.image j ∈ gfs.images := by
  unfold Gif_Stream.image
  rw [List.getD_eq_getElem _ _ hj]
  exact List.getElem_mem _

/-- What the rewritten frames show. On a stream that passes the precondition
checks, with background index at most 255 and byte pixels, on which `Gif_Unoptimize`
returns success: output frame `i`, its transparent index read back as the sentinel,
equals at every canvas cell input frame `i` drawn on the virtual screen obtained
from the input frames before it, where restore-to-background after frame `j` fills
with the value `solid` takes on the rewritten stream (the transparent indexes
recorded on rewritten frame `j` and rewritten frame 0 decide it). -/
theorem Gif_Unoptimize_shows (calcsize : Gif_Stream → Nat × Nat) (alloc : Nat → Alloc)
    (gfs : Gif_Stream) (hc : passes_checks gfs) (hb : gfs.background ≤ 255)
    (hpix : ∀ gfi ∈ gfs.images, byte_pixels gfi)
    (hok : (Gif_Unoptimize calcsize alloc gfs).1 = true)
    (i x y : Nat) (hi : i < gfs.images.length)
    (hx : x < (Gif_Unoptimize calcsize alloc gfs).2.screen_width)
    (hy : y < (Gif_Unoptimize calcsize alloc gfs).2.screen_height) :
    shown (Gif_Unoptimize calcsize alloc gfs).2 i x y =
      renderer_draw (gfs.image i)
        (canvas_with gfs
          (fun j => solid (Gif_Unoptimize calcsize alloc gfs).2
            ((Gif_Unoptimize calcsize alloc gfs).2.image j)) i) x y := by
  have hrun := Gif_Unoptimize_run_of_checks calcsize alloc gfs hc
  unfold Gif_Unoptimize at hok hx hy ⊢
  simp only at hok hx hy ⊢
  rw [hrun] at hok hx hy ⊢
  have hinv := loop_inv alloc (init_state calcsize gfs) gfs.images.length
  rw [hinv.width] at hx
  rw [hinv.height] at hy
  have hall := ((loop_ok alloc (init_state calcsize gfs) gfs.images.length).mp hok).2
  have hs := loop_shown alloc (init_state calcsize gfs)
    (init_state_screen_length calcsize gfs)
    (init_state_cells calcsize gfs (by omega))
    (fun j hj => hpix _ (image_mem gfs j hj))
    (show gfs.background ≤ 256 by omega)
    (init_state_fn calcsize gfs)
    gfs.images.length i hi (le_refl _) hall x y hx hy
  rw [hs]
  have e : canvas_with (init_state calcsize gfs).gfs
      (loop_fill alloc (init_state calcsize gfs)) i =
      canvas_with gfs
        (fun j => solid (loop_upto alloc (init_state calcsize gfs) gfs.images.length).gfs
          ((loop_upto alloc (init_state calcsize gfs) gfs.images.length).gfs.image j)) i :=
    canvas_with_congr _ _ _ _ i (fun _ => rfl) rfl
      (fun j hj _ => loop_fill_eq alloc (init_state calcsize gfs) gfs.images.length j
        (by omega))
  rw [e]
  rfl

/-- Witness for `Gif_Unoptimize_shows`: frame 1 of `declared_unused_stream` at cell
(1,0). -/
theorem Gif_Unoptimize_shows_witness :
    shown (Gif_Unoptimize keep_size (fun _ => Alloc.allOk) declared_unused_stream).2 1 1 0 =
      renderer_draw (declared_unused_stream.image 1)
        (canvas_with declared_unused_stream
          (fun j => solid (Gif_Unoptimize keep_size (fun _ => Alloc.allOk) declared_unused_stream).2
            ((Gif_Unoptimize keep_size (fun _ => Alloc.allOk) declared_unused_stream).2.image j))
          1) 1 0 :=
  Gif_Unoptimize_shows keep_size (fun _ => Alloc.allOk) declared_unused_stream
    (by decide) (by decide) (by decide) (by decide) 1 1 0 (by decide) (by decide) (by decide)

/-- Where the fill the code uses for every restore-to-background frame before `i`
is the fill of the renderer (the sentinel if input frame `j` or input frame 0
declares a transparent index, the background index otherwise), output frame `i`
shows the virtual screen of the renderer. -/
theorem Gif_Unoptimize_shows_renderer (calcsize : Gif_Stream → Nat × Nat)
    (alloc : Nat → Alloc) (gfs : Gif_Stream) (hc : passes_checks gfs)
    (hb : gfs.background ≤ 255) (hpix : ∀ gfi ∈ gfs.images, byte_pixels gfi)
    (hok : (Gif_Unoptimize calcsize alloc gfs).1 = true)
    (i x y : Nat) (hi : i < gfs.images.length)
    (hx : x < (Gif_Unoptimize calcsize alloc gfs).2.screen_width)
    (hy : y < (Gif_Unoptimize calcsize alloc gfs).2.screen_height)
    (hfill : ∀ j, j < i → (gfs.image j).disposal = Gif_Disposal.background →
      solid (Gif_Unoptimize calcsize alloc gfs).2
          ((Gif_Unoptimize calcsize alloc gfs).2.image j) =
        renderer_fill gfs (gfs.image j)) :
    shown (Gif_Unoptimize calcsize alloc gfs).2 i x y = renderer_screen gfs i x y := by
  rw [Gif_Unoptimize_shows calcsize alloc gfs hc hb hpix hok i x y hi hx hy]
  unfold renderer_screen
  rw [renderer_canvas_eq,
    canvas_with_congr gfs gfs _ (fun j => renderer_fill gfs (gfs.image j)) i
      (fun _ => rfl) rfl hfill]

/-- Witness for `Gif_Unoptimize_shows_renderer`: frame 1 of Scenario A at cell
(0,0). -/
theorem Gif_Unoptimize_shows_renderer_witness :
    shown (Gif_Unoptimize keep_size (fun _ => Alloc.allOk) (scenario_A (palette 8) 7)).2 1 0 0
      = renderer_screen (scenario_A (palette 8) 7) 1 0 0 :=
  Gif_Unoptimize_shows_renderer keep_size (fun _ => Alloc.allOk) (scenario_A (palette 8) 7)
    (by decide) (by decide) (by decide) (by decide) 1 0 0 (by decide) (by decide) (by decide)
    (by decide)

/-! ## The least unused index -/

theorem find_range_least (p : Nat → Bool) (k n : Nat)
    (h : (List.range k).find? p = some n) : ∀ m, m < n → p m = false := by
  induction k with
  | zero => simp at h
  | succ k ih =>
    rw [List.range_succ, List.find?_append] at h
    cases hf : (List.range k).find? p with
    | some a =>
      rw [hf] at h
      simp at h
      subst h
      exact ih hf
    | none =>
      rw [hf] at h
      simp at h
      have hk : n = k := h.2.symm
      subst hk
      intro m hm
      have := List.find?_eq_none.mp hf m (List.mem_range.mpr hm)
      simpa using this

theorem first_unused_least (screen : List Nat) (size n : Nat)
    (h : first_unused screen size = some n) :
    ∀ m, m < n → have_ screen size m = true := by
  intro m hm
  have := find_range_least _ 256 n h m hm
  simpa using this

/-! ## The palette size (C11) -/

theorem create_image_data_finish_transparent (gfs : Gif_Stream) (i : Nat) (screen : List Nat)
    (t : Int) (hi : i < gfs.images.length) :
    ((create_image_data_finish gfs i screen t).2.1.image i).transparent = t := by
  rw [create_image_data_finish_eq]
  simp only
  rw [remapped_stream_image gfs i t _ hi]

/-- The palette after `create_image_data`, for a stream with palette `g`: its size
after a successful call that records `t ≥ g.ncol` is `t + 1`, in every other case
it is `g.ncol`; a recorded index is below the new size; the size does not shrink
and stays within 256. -/
theorem create_image_data_palette (gfs : Gif_Stream) (i : Nat) (screen : List Nat)
    (r : Option (Nat → Gif_Color)) (g : Gif_Colormap) (hi : i < gfs.images.length)
    (hg : gfs.global = some g) :
    ∃ g1 : Gif_Colormap, (create_image_data gfs i screen r).2.1.global = some g1 ∧
      (((create_image_data gfs i screen r).1 = true ∧
          ((create_image_data gfs i screen r).2.1.image i).transparent ≥ g.ncol) →
        (g1.ncol : Int) = ((create_image_data gfs i screen r).2.1.image i).transparent + 1) ∧
      (¬ ((create_image_data gfs i screen r).1 = true ∧
          ((create_image_data gfs i screen r).2.1.image i).transparent ≥ g.ncol) →
        g1.ncol = g.ncol) ∧
      ((create_image_data gfs i screen r).1 = true →
        ((create_image_data gfs i screen r).2.1.image i).transparent < g1.ncol) ∧
      g.ncol ≤ g1.ncol ∧ (g.ncol ≤ 256 → g1.ncol ≤ 256) := by
  cases h : have_ screen (gfs.screen_width * gfs.screen_height) TRANSPARENT with
  | false =>
    rw [create_image_data_no_sentinel gfs i screen r h]
    have ht := create_image_data_finish_transparent gfs i screen (-1) hi
    refine ⟨g, hg, ?_, fun _ => rfl, ?_, le_refl _, id⟩
    · rintro ⟨_, h2⟩
      rw [ht] at h2
      omega
    · intro _
      rw [ht]
      omega
  | true =>
    cases hf : first_unused screen (gfs.screen_width * gfs.screen_height) with
    | none =>
      rw [create_image_data_exhausted gfs i screen r h hf]
      exact ⟨g, hg, fun hh => by simp at hh, fun _ => rfl, fun hh => by simp at hh,
        le_refl _, id⟩
    | some n =>
      have hn := (first_unused_some screen _ n hf).1
      by_cases ht : n < g.ncol
      · rw [create_image_data_fits gfs i screen r n g h hf hg ht]
        have htr := create_image_data_finish_transparent gfs i screen n hi
        refine ⟨g, hg, ?_, fun _ => rfl, ?_, le_refl _, id⟩
        · rintro ⟨_, h2⟩
          rw [htr] at h2
          omega
        · intro _
          rw [htr]
          omega
      · cases r with
        | none =>
          rw [create_image_data_grow_fail gfs i screen n g h hf hg (not_lt.mp ht)]
          exact ⟨{ g with col := [] }, rfl, fun hh => by simp at hh, fun _ => rfl,
            fun hh => by simp at hh, le_refl _, id⟩
        | some fresh =>
          rw [create_image_data_grow gfs i screen fresh n g h hf hg (not_lt.mp ht)]
          have htr := create_image_data_finish_transparent
            { gfs with global := some { ncol := n + 1, col := Gif_ReArray g.col fresh } }
            i screen n hi
          refine ⟨{ ncol := n + 1, col := Gif_ReArray g.col fresh }, rfl, ?_, ?_, ?_, ?_, ?_⟩
          · intro _
            rw [htr]
            push_cast
            rfl
          · intro hh
            exfalso
            apply hh
            refine ⟨rfl, ?_⟩
            rw [htr]
            exact_mod_cast (not_lt.mp ht)
          · intro _
            rw [htr]
            push_cast
            omega
          · show g.ncol ≤ n + 1
            omega
          · intro _
            show n + 1 ≤ 256
            omega

theorem unoptimize_image_palette (gfs : Gif_Stream) (i : Nat) (screen : List Nat) (a : Alloc)
    (g : Gif_Colormap) (hi : i < gfs.images.length) (hg : gfs.global = some g) :
    ∃ g1 : Gif_Colormap, (unoptimize_image gfs i screen a).gfs.global = some g1 ∧
      g.ncol ≤ g1.ncol ∧ (g.ncol ≤ 256 → g1.ncol ≤ 256) := by
  by_cases hb : buffers_ok gfs i a
  · obtain ⟨g1, h1, _, _, _, h5, h6⟩ := create_image_data_palette gfs i
      (put_image_in_screen gfs (gfs.image i) screen) a.rearray g hi hg
    rcases hc : create_image_data gfs i (put_image_in_screen gfs (gfs.image i) screen)
      a.rearray with ⟨ok, gfs1, nd⟩
    rw [hc] at h1
    cases ok with
    | false =>
      rw [unoptimize_image_remap_fail gfs gfs1 i screen nd a hb hc]
      exact ⟨g1, h1, h5, h6⟩
    | true =>
      rw [unoptimize_image_remap_ok gfs gfs1 i screen nd a hb hc]
      exact ⟨g1, h1, h5, h6⟩
  · rw [unoptimize_image_no_buffers gfs i screen a hb]
    exact ⟨g, hg, le_refl _, id⟩

/-- Over the frame loop the palette stays present, does not shrink and stays within
256. -/
theorem loop_palette (alloc : Nat → Alloc) (st : RunState) (g : Gif_Colormap)
    (hg : st.gfs.global = some g) (k : Nat) (hk : k ≤ st.gfs.images.length) :
    ∃ g1 : Gif_Colormap, (loop_upto alloc st k).gfs.global = some g1 ∧
      g.ncol ≤ g1.ncol ∧ (g.ncol ≤ 256 → g1.ncol ≤ 256) := by
  induction k with
  | zero => exact ⟨g, hg, le_refl _, id⟩
  | succ k ih =>
    obtain ⟨g1, h1, h2, h3⟩ := ih (by omega)
    have hinv := loop_inv alloc st k
    obtain ⟨g2, e1, e2, e3⟩ := unoptimize_image_palette (loop_upto alloc st k).gfs k
      (loop_upto alloc st k).screen (alloc k) g1 (by rw [hinv.length]; omega) h1
    rw [loop_upto_succ, loop_step_gfs]
    exact ⟨g2, e1, by omega, fun h => e3 (h3 h)⟩

/-- C11: the shared palette's size never shrinks and never exceeds 256. For a call
of `create_image_data` on a palette of size `n ≤ 256`: when the call chooses a
transparent index `t ≥ n` for the frame (it succeeds and records `t`), the size
afterwards is `t + 1`; in every other case (no sentinel, `t < n`, or a failing
call) it is `n`; either way it is at least `n` and at most 256. Over a whole
`Gif_Unoptimize` run on a stream that passes the precondition checks, the final
size is at least the initial one and at most 256. -/
theorem palette_size_grows (gfs : Gif_Stream) (g : Gif_Colormap)
    (hg : gfs.global = some g) (hn : g.ncol ≤ 256) :
    (∀ (i : Nat) (screen : List Nat) (r : Option (Nat → Gif_Color)),
      i < gfs.images.length →
      ∃ g1 : Gif_Colormap, (create_image_data gfs i screen r).2.1.global = some g1 ∧
        (((create_image_data gfs i screen r).1 = true ∧
            ((create_image_data gfs i screen r).2.1.image i).transparent ≥ g.ncol) →
          (g1.ncol : Int) =
            ((create_image_data gfs i screen r).2.1.image i).transparent + 1) ∧
        (¬ ((create_image_data gfs i screen r).1 = true ∧
            ((create_image_data gfs i screen r).2.1.image i).transparent ≥ g.ncol) →
          g1.ncol = g.ncol) ∧
        g.ncol ≤ g1.ncol ∧ g1.ncol ≤ 256) ∧
    (∀ (calcsize : Gif_Stream → Nat × Nat) (alloc : Nat → Alloc), passes_checks gfs →
      ∃ g1 : Gif_Colormap, (Gif_Unoptimize calcsize alloc gfs).2.global = some g1 ∧
        g.ncol ≤ g1.ncol ∧ g1.ncol ≤ 256) := by
  constructor
  · intro i screen r hi
    obtain ⟨g1, h1, h2, h3, _, h5, h6⟩ := create_image_data_palette gfs i screen r g hi hg
    exact ⟨g1, h1, h2, h3, h5, h6 hn⟩
  · intro calcsize alloc hc
    have hrun := Gif_Unoptimize_run_of_checks calcsize alloc gfs hc
    unfold Gif_Unoptimize
    simp only
    rw [hrun]
    obtain ⟨g1, h1, h2, h3⟩ := loop_palette alloc (init_state calcsize gfs) g hg
      gfs.images.length (le_refl _)
    exact ⟨g1, h1, h2, h3 hn⟩

/-- Witness for C11: `growing_stream` has a palette of one entry; on the canvas
`[0, 256, 256, 256]` the call records index 1 and the palette grows to 2 entries,
which is also its size after the whole run. -/
theorem palette_size_grows_witness :
    ((create_image_data growing_stream 0 [0, 256, 256, 256] (some (fun _ => default))).2.1.image
      0).transparent = 1 ∧
    palette_size (create_image_data growing_stream 0 [0, 256, 256, 256]
      (some (fun _ => default))).2.1 = 2 ∧
    palette_size (Gif_Unoptimize keep_size (fun _ => Alloc.allOk) growing_stream).2 = 2 ∧
    ((∀ (i : Nat) (screen : List Nat) (r : Option (Nat → Gif_Color)),
      i < growing_stream.images.length →
      ∃ g1 : Gif_Colormap, (create_image_data growing_stream i screen r).2.1.global = some g1 ∧
        (((create_image_data growing_stream i screen r).1 = true ∧
            ((create_image_data growing_stream i screen r).2.1.image i).transparent
              ≥ (palette 1).ncol) →
          (g1.ncol : Int) =
            ((create_image_data growing_stream i screen r).2.1.image i).transparent + 1) ∧
        (¬ ((create_image_data growing_stream i screen r).1 = true ∧
            ((create_image_data growing_stream i screen r).2.1.image i).transparent
              ≥ (palette 1).ncol) →
          g1.ncol = (palette 1).ncol) ∧
        (palette 1).ncol ≤ g1.ncol ∧ g1.ncol ≤ 256) ∧
    (∀ (calcsize : Gif_Stream → Nat × Nat) (alloc : Nat → Alloc),
      passes_checks growing_stream →
      ∃ g1 : Gif_Colormap, (Gif_Unoptimize calcsize alloc growing_stream).2.global = some g1 ∧
        (palette 1).ncol ≤ g1.ncol ∧ g1.ncol ≤ 256)) :=
  ⟨by decide, by decide, by decide,
   palette_size_grows growing_stream (palette 1) rfl (by decide)⟩

/-! ## The chosen transparent index (C13) and the canvas without sentinel (C14) -/

/-- On a canvas of the stream's size that holds the sentinel, a successful
`create_image_data` records the first unused index. -/
theorem create_image_data_records (gfs : Gif_Stream) (i : Nat) (screen : List Nat)
    (r : Option (Nat → Gif_Color)) (hi : i < gfs.images.length)
    (hlen : screen.length = gfs.screen_width * gfs.screen_height)
    (hs : TRANSPARENT ∈ screen)
    (hok : (create_image_data gfs i screen r).1 = true) :
    ∃ n : Nat, first_unused screen (gfs.screen_width * gfs.screen_height) = some n ∧
      ((create_image_data gfs i screen r).2.1.image i).transparent = n := by
  obtain ⟨t, g, hsh, _, hnd⟩ := create_image_data_shape gfs i screen r
  obtain ⟨_, hcase⟩ := hnd hok
  have ht : ((create_image_data gfs i screen r).2.1.image i).transparent = t := by
    rw [hsh, remapped_stream_image gfs i t g hi]
  rw [ht]
  rcases hcase with ⟨hno, _⟩ | ⟨_, n, hn, rfl⟩
  · rw [(have_iff_of_length screen _ _ hlen).mpr hs] at hno
    simp at hno
  · exact ⟨n, hn, rfl⟩

/-- The first unused index of a canvas is the least value of 0..255 absent from
it. -/
theorem first_unused_spec (screen : List Nat) (size n : Nat) (hlen : screen.length = size)
    (h : first_unused screen size = some n) :
    n < 256 ∧ n ∉ screen ∧ ∀ m, m < n → m ∈ screen := by
  obtain ⟨hlt, habs⟩ := first_unused_some screen size n h
  refine ⟨hlt, fun hm => ?_, fun m hm => ?_⟩
  · rw [(have_iff_of_length screen size n hlen).mpr hm] at habs
    simp at habs
  · exact (have_iff_of_length screen size m hlen).mp (first_unused_least screen size n h m hm)

/-- C13: on a canvas of the stream's size that contains the sentinel and on which
`create_image_data` succeeds, the transparent index recorded on the frame is the
least value of 0..255 that occurs nowhere in the canvas: it is below 256, does not
occur in the canvas, and every smaller value does. It depends on the canvas only:
a successful call on the same canvas for any other stream, frame and allocation
outcome records the same index. -/
theorem create_image_data_least_unused (gfs : Gif_Stream) (i : Nat) (screen : List Nat)
    (r : Option (Nat → Gif_Color)) (hi : i < gfs.images.length)
    (hlen : screen.length = gfs.screen_width * gfs.screen_height)
    (hs : TRANSPARENT ∈ screen)
    (hok : (create_image_data gfs i screen r).1 = true) :
    (∃ n : Nat, ((create_image_data gfs i screen r).2.1.image i).transparent = n ∧
      n < 256 ∧ n ∉ screen ∧ ∀ m, m < n → m ∈ screen) ∧
    (∀ (gfs1 : Gif_Stream) (i1 : Nat) (r1 : Option (Nat → Gif_Color)),
      i1 < gfs1.images.length →
      screen.length = gfs1.screen_width * gfs1.screen_height →
      (create_image_data gfs1 i1 screen r1).1 = true →
      ((create_image_data gfs1 i1 screen r1).2.1.image i1).transparent =
        ((create_image_data gfs i screen r).2.1.image i).transparent) := by
  obtain ⟨n, hn, ht⟩ := create_image_data_records gfs i screen r hi hlen hs hok
  have hspec := first_unused_spec screen _ n hlen hn
  refine ⟨⟨n, ht, hspec⟩, fun gfs1 i1 r1 hi1 hlen1 hok1 => ?_⟩
  obtain ⟨n1, hn1, ht1⟩ := create_image_data_records gfs1 i1 screen r1 hi1 hlen1 hs hok1
  rw [← hlen1, hlen, hn] at hn1
  rw [ht, ht1]
  simp only [Option.some.injEq] at hn1
  rw [hn1]

/-- Witness for C13: on the canvas `[256, 0, 5, 256]` the recorded index is 1, for
a frame that declared index 3 on a palette of 4 entries and for a frame without
transparent index on a palette of 8 entries. -/
theorem create_image_data_least_unused_witness :
    ((create_image_data small_stream 0 [256, 0, 5, 256] none).2.1.image 0).transparent = 1 ∧
    ((create_image_data (scenario_A (palette 8) 7) 1 [256, 0, 5, 256] none).2.1.image
      1).transparent = 1 ∧
    ((∃ n : Nat, ((create_image_data small_stream 0 [256, 0, 5, 256] none).2.1.image
        0).transparent = n ∧
      n < 256 ∧ n ∉ [256, 0, 5, 256] ∧ ∀ m, m < n → m ∈ [256, 0, 5, 256]) ∧
    (∀ (gfs1 : Gif_Stream) (i1 : Nat) (r1 : Option (Nat → Gif_Color)),
      i1 < gfs1.images.length →
      [256, 0, 5, 256].length = gfs1.screen_width * gfs1.screen_height →
      (create_image_data gfs1 i1 [256, 0, 5, 256] r1).1 = true →
      ((create_image_data gfs1 i1 [256, 0, 5, 256] r1).2.1.image i1).transparent =
        ((create_image_data small_stream 0 [256, 0, 5, 256] none).2.1.image 0).transparent)) :=
  ⟨by decide, by decide,
   create_image_data_least_unused small_stream 0 [256, 0, 5, 256] none
     (by decide) (by decide) (by decide) (by decide)⟩

/-- C14: on a canvas of the stream's size without sentinel cell (all cells at most
255) `create_image_data` succeeds, the output buffer is the canvas, the frame's
transparent index becomes `-1` whatever it was, and nothing else changes in the
stream: the palette and every other field of every frame are as before. -/
theorem create_image_data_opaque (gfs : Gif_Stream) (i : Nat) (screen : List Nat)
    (r : Option (Nat → Gif_Color)) (hi : i < gfs.images.length)
    (hlen : screen.length = gfs.screen_width * gfs.screen_height)
    (hcells : ∀ v ∈ screen, v ≤ 255) :
    create_image_data gfs i screen r =
      (true, gfs.setImage i { gfs.image i with transparent := -1 }, screen) ∧
    (create_image_data gfs i screen r).1 = true ∧
    (create_image_data gfs i screen r).2.2 = screen ∧
    ((create_image_data gfs i screen r).2.1.image i).transparent = -1 ∧
    (create_image_data gfs i screen r).2.1.global = gfs.global := by
  have hno : have_ screen (gfs.screen_width * gfs.screen_height) TRANSPARENT = false := by
    cases h : have_ screen (gfs.screen_width * gfs.screen_height) TRANSPARENT with
    | false => rfl
    | true =>
      have := hcells _ ((have_iff_of_length screen _ _ hlen).mp h)
      unfold TRANSPARENT at this
      omega
  have hmap : (screen.take (gfs.screen_width * gfs.screen_height)).map (remap_cell (-1))
      = screen := by
    rw [List.take_of_length_le (by omega)]
    calc screen.map (remap_cell (-1)) = screen.map id := by
          apply List.map_congr_left
          intro v hv
          have := hcells v hv
          have hne : v ≠ TRANSPARENT := by
            unfold TRANSPARENT
            omega
          simp [remap_cell, hne, Nat.mod_eq_of_lt (show v < 256 by omega)]
      _ = screen := List.map_id _
  have e : create_image_data gfs i screen r =
      (true, gfs.setImage i { gfs.image i with transparent := -1 }, screen) := by
    rw [create_image_data_no_sentinel gfs i screen r hno]
    unfold create_image_data_finish
    simp only [hmap]
  rw [e]
  exact ⟨rfl, rfl, rfl, image_setImage_self gfs i _ hi ▸ rfl, rfl⟩

/-- Witness for C14: the frame of `small_stream` declares transparent index 3; on the
canvas `[3, 0, 5, 255]` the output is the canvas and the index becomes `-1`. -/
theorem create_image_data_opaque_witness :
    (small_stream.image 0).transparent = 3 ∧
    (create_image_data small_stream 0 [3, 0, 5, 255] none =
      (true, small_stream.setImage 0 { small_stream.image 0 with transparent := -1 },
        [3, 0, 5, 255]) ∧
    (create_image_data small_stream 0 [3, 0, 5, 255] none).1 = true ∧
    (create_image_data small_stream 0 [3, 0, 5, 255] none).2.2 = [3, 0, 5, 255] ∧
    ((create_image_data small_stream 0 [3, 0, 5, 255] none).2.1.image 0).transparent = -1 ∧
    (create_image_data small_stream 0 [3, 0, 5, 255] none).2.1.global = small_stream.global) :=
  ⟨by decide,
   create_image_data_opaque small_stream 0 [3, 0, 5, 255] none
     (by decide) (by decide) (by decide)⟩


/-! ## The compositor (C15), palette exhaustion (C16) and the disposal fill (C12) -/

/-- C15: on a canvas buffer of the stream's canvas size, after
`put_image_in_screen` every canvas cell `(cx, cy)` holds the frame's source pixel
at `(cx - left, cy - top)` if the cell lies in the frame's rectangle and that pixel
differs from the frame's transparent index, and its previous value otherwise. The
buffer keeps its length (nothing is written outside the canvas, and by the cell
formula nothing wraps into another row), and a frame without transparent index
has no source pixel skipped. -/
theorem put_image_in_screen_cell (gfs : Gif_Stream) (gfi : Gif_Image) (screen : List Nat)
    (cx cy : Nat) (hcx : cx < gfs.screen_width) (hcy : cy < gfs.screen_height)
    (hlen : screen.length = gfs.screen_width * gfs.screen_height) :
    (put_image_in_screen gfs gfi screen).getD (gfs.screen_width * cy + cx) 0 =
      (if in_rect gfi cx cy ∧
          (gfi.img (cy - gfi.top) (cx - gfi.left) : Int) ≠ gfi.transparent then
        gfi.img (cy - gfi.top) (cx - gfi.left)
      else screen.getD (gfs.screen_width * cy + cx) 0) ∧
    (put_image_in_screen gfs gfi screen).length = screen.length ∧
    (gfi.transparent < 0 → in_rect gfi cx cy →
      (put_image_in_screen gfs gfi screen).getD (gfs.screen_width * cy + cx) 0 =
        gfi.img (cy - gfi.top) (cx - gfi.left)) := by
  have h := put_image_in_screen_getD gfs gfi screen cx cy hcx hcy hlen
  refine ⟨h, put_image_in_screen_length gfs gfi screen, fun ht hr => ?_⟩
  rw [h]
  have hne : (gfi.img (cy - gfi.top) (cx - gfi.left) : Int) ≠ gfi.transparent := by omega
  rw [if_pos ⟨hr, hne⟩]

/-- Witness for C15: a 2x2 frame at offset (1,0) of a 2x2 canvas, with transparent
index 9; only its left column lies in the canvas. Cell (1,0) takes source pixel
(0,0), cell (1,1) keeps its value because source pixel (0,1) is transparent, and
column 0 is untouched although the frame's right column does not fit. -/
theorem put_image_in_screen_cell_witness :
    put_image_in_screen (scenario_A (palette 8) 7)
      (frame 9 Gif_Disposal.none 1 0 2 2 [4, 5, 9, 6]) [0, 1, 2, 3] = [0, 4, 2, 3] ∧
    ((put_image_in_screen (scenario_A (palette 8) 7)
        (frame 9 Gif_Disposal.none 1 0 2 2 [4, 5, 9, 6]) [0, 1, 2, 3]).getD
        ((scenario_A (palette 8) 7).screen_width * 1 + 1) 0 =
      (if in_rect (frame 9 Gif_Disposal.none 1 0 2 2 [4, 5, 9, 6]) 1 1 ∧
          ((frame 9 Gif_Disposal.none 1 0 2 2 [4, 5, 9, 6]).img
              (1 - (frame 9 Gif_Disposal.none 1 0 2 2 [4, 5, 9, 6]).top)
              (1 - (frame 9 Gif_Disposal.none 1 0 2 2 [4, 5, 9, 6]).left) : Int) ≠
            (frame 9 Gif_Disposal.none 1 0 2 2 [4, 5, 9, 6]).transparent then
        (frame 9 Gif_Disposal.none 1 0 2 2 [4, 5, 9, 6]).img
          (1 - (frame 9 Gif_Disposal.none 1 0 2 2 [4, 5, 9, 6]).top)
          (1 - (frame 9 Gif_Disposal.none 1 0 2 2 [4, 5, 9, 6]).left)
      else [0, 1, 2, 3].getD ((scenario_A (palette 8) 7).screen_width * 1 + 1) 0) ∧
    (put_image_in_screen (scenario_A (palette 8) 7)
        (frame 9 Gif_Disposal.none 1 0 2 2 [4, 5, 9, 6]) [0, 1, 2, 3]).length
      = [0, 1, 2, 3].length ∧
    ((frame 9 Gif_Disposal.none 1 0 2 2 [4, 5, 9, 6]).transparent < 0 →
      in_rect (frame 9 Gif_Disposal.none 1 0 2 2 [4, 5, 9, 6]) 1 1 →
      (put_image_in_screen (scenario_A (palette 8) 7)
          (frame 9 Gif_Disposal.none 1 0 2 2 [4, 5, 9, 6]) [0, 1, 2, 3]).getD
          ((scenario_A (palette 8) 7).screen_width * 1 + 1) 0 =
        (frame 9 Gif_Disposal.none 1 0 2 2 [4, 5, 9, 6]).img
          (1 - (frame 9 Gif_Disposal.none 1 0 2 2 [4, 5, 9, 6]).top)
          (1 - (frame 9 Gif_Disposal.none 1 0 2 2 [4, 5, 9, 6]).left))) :=
  ⟨by decide,
   put_image_in_screen_cell (scenario_A (palette 8) 7)
     (frame 9 Gif_Disposal.none 1 0 2 2 [4, 5, 9, 6]) [0, 1, 2, 3] 1 1
     (by decide) (by decide) (by decide)⟩

/-- C16: when the buffers of the rewrite are allocated and the composited canvas
holds the sentinel and every value 0..255 (palette exhaustion), `unoptimize_image`
reports failure and leaves the whole stream as it was: the frame's offset, size,
disposal, transparent index and pixels and the palette are unchanged. The shared
canvas is left as the compositor left it: for a restore-to-previous frame it is
the canvas given, otherwise it holds the frame's drawn pixels and the frame's
disposal is not applied. -/
theorem unoptimize_image_exhausted (gfs : Gif_Stream) (i : Nat) (screen : List Nat)
    (a : Alloc) (hb : buffers_ok gfs i a)
    (hlen : screen.length = gfs.screen_width * gfs.screen_height)
    (hs : TRANSPARENT ∈ put_image_in_screen gfs (gfs.image i) screen)
    (hall : ∀ v, v < 256 → v ∈ put_image_in_screen gfs (gfs.image i) screen) :
    (unoptimize_image gfs i screen a).ok = false ∧
    (unoptimize_image gfs i screen a).gfs = gfs ∧
    (unoptimize_image gfs i screen a).screen =
      (if (gfs.image i).disposal = Gif_Disposal.previous then screen
       else put_image_in_screen gfs (gfs.image i) screen) := by
  have hlen1 : (put_image_in_screen gfs (gfs.image i) screen).length
      = gfs.screen_width * gfs.screen_height := by
    rw [put_image_in_screen_length, hlen]
  have h1 := (have_iff_of_length _ _ _ hlen1).mpr hs
  have h2 : first_unused (put_image_in_screen gfs (gfs.image i) screen)
      (gfs.screen_width * gfs.screen_height) = none :=
    (first_unused_eq_none _ _).mpr
      (fun v hv => (have_iff_of_length _ _ _ hlen1).mpr (hall v hv))
  have hc := create_image_data_exhausted gfs i
    (put_image_in_screen gfs (gfs.image i) screen) a.rearray h1 h2
  rw [unoptimize_image_remap_fail gfs gfs i screen [] a hb hc]
  exact ⟨rfl, rfl, rfl⟩

set_option maxRecDepth 100000 in
/-- Witness for C16: the frame of `crowded_stream` is drawn on the canvas that
holds the sentinel and all of 0..255. -/
theorem unoptimize_image_exhausted_witness :
    (unoptimize_image crowded_stream 0 exhausted_canvas Alloc.allOk).ok = false ∧
    (unoptimize_image crowded_stream 0 exhausted_canvas Alloc.allOk).gfs = crowded_stream ∧
    (unoptimize_image crowded_stream 0 exhausted_canvas Alloc.allOk).screen =
      (if (crowded_stream.image 0).disposal = Gif_Disposal.previous then exhausted_canvas
       else put_image_in_screen crowded_stream (crowded_stream.image 0) exhausted_canvas) :=
  unoptimize_image_exhausted crowded_stream 0 exhausted_canvas Alloc.allOk
    ⟨rfl, by decide⟩ (by decide) (by decide) (by decide)

/-- C12, evaluated on frame 1 of `declared_later_stream`: the frame has disposal
restore-to-background, declares transparent index 0 in the input stream and is
rewritten successfully. After compositing the shared canvas is `[3, 2]`. The claim
has the frame's 1x1 rectangle reset to the sentinel; the code, reading the
transparent index that line 107 has just overwritten with `-1`, resets it to the
background index 7 and leaves `[7, 2]`. The cell outside the rectangle is
unchanged. -/
theorem put_background_fill_differs :
    (declared_later_stream.image 1).disposal = Gif_Disposal.background ∧
    (declared_later_stream.image 1).transparent ≥ 0 ∧
    renderer_fill declared_later_stream (declared_later_stream.image 1) = TRANSPARENT ∧
    rewrite_ok (fun _ => Alloc.allOk) (init_state keep_size declared_later_stream) 1 = true ∧
    put_image_in_screen declared_later_stream (declared_later_stream.image 1)
      (loop_upto (fun _ => Alloc.allOk) (init_state keep_size declared_later_stream) 1).screen
      = [3, 2] ∧
    (loop_upto (fun _ => Alloc.allOk) (init_state keep_size declared_later_stream) 2).screen
      = [7, 2] ∧
    declared_later_stream.background = 7 := by
  decide

/-! ## A property of all canvas cells, through the whole run (C20) -/

theorem put_image_in_screen_forall (P : Nat → Prop) (gfs : Gif_Stream) (gfi : Gif_Image)
    (screen : List Nat) (hpix : ∀ y x, P (gfi.img y x)) (hs : ∀ v ∈ screen, P v) :
    ∀ v ∈ put_image_in_screen gfs gfi screen, P v := by
  rw [put_image_in_screen_eq]
  apply write_rect_forall P _ _ _ _ _ _ _ hs
  intro y x v hv
  unfold image_val at hv
  split at hv
  · simp only [Option.some.injEq] at hv
    rw [← hv]
    exact hpix y x
  · simp at hv

theorem put_background_in_screen_forall (P : Nat → Prop) (gfs : Gif_Stream)
    (gfi : Gif_Image) (screen : List Nat) (hf : P (solid gfs gfi))
    (hs : ∀ v ∈ screen, P v) :
    ∀ v ∈ put_background_in_screen gfs gfi screen, P v := by
  rw [put_background_in_screen_eq]
  apply write_rect_forall P _ _ _ _ _ _ _ hs
  intro y x v hv
  simp only [Option.some.injEq] at hv
  rw [← hv]
  exact hf

theorem solid_cases (gfs : Gif_Stream) (gfi : Gif_Image) :
    solid gfs gfi = TRANSPARENT ∨ solid gfs gfi = gfs.background := by
  unfold solid
  split
  · exact Or.inl rfl
  · split
    · exact Or.inl rfl
    · exact Or.inr rfl

/-- A property of canvas cells that holds of the sentinel, of the background index
and of the frame's pixels is kept by the compositing step and by the whole rewrite
of the frame, whether it succeeds or fails. -/
theorem unoptimize_image_cells (P : Nat → Prop) (gfs : Gif_Stream) (i : Nat)
    (screen : List Nat) (a : Alloc) (hT : P TRANSPARENT) (hB : P gfs.background)
    (hpix : ∀ y x, P ((gfs.image i).img y x)) (hs : ∀ v ∈ screen, P v) :
    (∀ v ∈ put_image_in_screen gfs (gfs.image i) screen, P v) ∧
    (∀ v ∈ (unoptimize_image gfs i screen a).screen, P v) := by
  have hdraw := put_image_in_screen_forall P gfs (gfs.image i) screen hpix hs
  refine ⟨hdraw, ?_⟩
  have hshared : ∀ v ∈ shared_after_draw gfs i screen, P v := by
    unfold shared_after_draw
    split
    · exact hs
    · exact hdraw
  by_cases hb : buffers_ok gfs i a
  · have he := create_image_data_effect gfs i
      (put_image_in_screen gfs (gfs.image i) screen) a.rearray
    rcases hc : create_image_data gfs i (put_image_in_screen gfs (gfs.image i) screen)
      a.rearray with ⟨ok, gfs1, nd⟩
    rw [hc] at he
    cases ok with
    | false =>
      rw [unoptimize_image_remap_fail gfs gfs1 i screen nd a hb hc]
      exact hshared
    | true =>
      rw [unoptimize_image_remap_ok gfs gfs1 i screen nd a hb hc]
      simp only
      split
      · exact hshared
      · split
        · apply put_background_in_screen_forall P gfs1 (gfs1.image i) _ _ hshared
          rcases solid_cases gfs1 (gfs1.image i) with h | h
          · rw [h]; exact hT
          · rw [h, show gfs1.background = gfs.background from he.background]; exact hB
        · exact hshared
  · rw [unoptimize_image_no_buffers gfs i screen a hb]
    exact hs

/-- A property of canvas cells that holds of the sentinel, of the background index,
of the pixels of every frame and of the canvas on entry to the frame loop holds of
the shared canvas after every iteration and of the composited canvas (the shared
canvas or the scratch copy) of every iteration. -/
theorem loop_cells (P : Nat → Prop) (alloc : Nat → Alloc) (st : RunState)
    (hT : P TRANSPARENT) (hB : P st.gfs.background)
    (hpix : ∀ j, j < st.gfs.images.length → ∀ y x, P ((st.gfs.image j).img y x))
    (hs : ∀ v ∈ st.screen, P v) (k : Nat) (hk : k ≤ st.gfs.images.length) :
    (∀ v ∈ (loop_upto alloc st k).screen, P v) ∧
    (k < st.gfs.images.length →
      ∀ v ∈ put_image_in_screen (loop_upto alloc st k).gfs
        ((loop_upto alloc st k).gfs.image k) (loop_upto alloc st k).screen, P v) := by
  have step : ∀ m, m < st.gfs.images.length → (∀ v ∈ (loop_upto alloc st m).screen, P v) →
      (∀ v ∈ put_image_in_screen (loop_upto alloc st m).gfs
        ((loop_upto alloc st m).gfs.image m) (loop_upto alloc st m).screen, P v) ∧
      (∀ v ∈ (loop_upto alloc st (m + 1)).screen, P v) := by
    intro m hm hsm
    have hinv := loop_inv alloc st m
    have := unoptimize_image_cells P (loop_upto alloc st m).gfs m
      (loop_upto alloc st m).screen (alloc m) hT
      (by rw [hinv.background]; exact hB)
      (by rw [loop_later alloc st m m (le_refl m)]; exact hpix m hm) hsm
    rw [loop_upto_succ, loop_step_screen]
    exact this
  have hscreen : ∀ m, m ≤ st.gfs.images.length → ∀ v ∈ (loop_upto alloc st m).screen, P v := by
    intro m
    induction m with
    | zero => exact fun _ => hs
    | succ m ih => exact fun hm => (step m (by omega) (ih (by omega))).2
  exact ⟨hscreen k hk, fun hlt => (step k hlt (hscreen k hk)).1⟩

theorem img_byte (gfs : Gif_Stream) (hpix : ∀ gfi ∈ gfs.images, byte_pixels gfi)
    (j : Nat) (y x : Nat) : (gfs.image j).img y x < 256 := by
  by_cases hj : j < gfs.images.length
  · exact img_lt _ (hpix _ (image_mem gfs j hj)) y x
  · have e : gfs.image j = default := by
      unfold Gif_Stream.image
      exact List.getD_eq_default _ _ (not_lt.mp hj)
    rw [e]
    show (([] : List Nat).getD (y * 0 + x) 0) < 256
    simp

theorem init_state_screen_eq (calcsize : Gif_Stream → Nat × Nat) (gfs : Gif_Stream) :
    (init_state calcsize gfs).screen =
      List.replicate ((calcsize gfs).1 * (calcsize gfs).2)
        (if (gfs.image 0).transparent ≥ 0 then TRANSPARENT else gfs.background) := rfl

/-- C20: with byte pixels and a background index of at most 256, every cell of the
shared canvas is at most 256 after initialisation and after every iteration of the
frame loop (that is, after each disposal step), and so is every cell of the
composited canvas of every iteration (the shared canvas or the scratch copy after
the compositing step, the buffer `create_image_data` indexes its 257-entry table
with), whether rewrites succeed or fail. Without the precondition: with a
background index above 256, a first frame without transparent index and a
non-empty canvas, every cell of the initial canvas is above 256. -/
theorem canvas_cells_le_256 (calcsize : Gif_Stream → Nat × Nat) (alloc : Nat → Alloc)
    (gfs : Gif_Stream) (hpix : ∀ gfi ∈ gfs.images, byte_pixels gfi) :
    (gfs.background ≤ 256 →
      ∀ k, k ≤ gfs.images.length →
        (∀ v ∈ (loop_upto alloc (init_state calcsize gfs) k).screen, v ≤ 256) ∧
        (k < gfs.images.length →
          ∀ v ∈ put_image_in_screen (loop_upto alloc (init_state calcsize gfs) k).gfs
            ((loop_upto alloc (init_state calcsize gfs) k).gfs.image k)
            (loop_upto alloc (init_state calcsize gfs) k).screen, v ≤ 256)) ∧
    (256 < gfs.background → (gfs.image 0).transparent < 0 →
      0 < (calcsize gfs).1 * (calcsize gfs).2 →
      (init_state calcsize gfs).screen ≠ [] ∧
      ∀ v ∈ (init_state calcsize gfs).screen, 256 < v) := by
  constructor
  · intro hb k hk
    exact loop_cells (fun v => v ≤ 256) alloc (init_state calcsize gfs) (le_refl _) hb
      (fun j _ y x => le_of_lt (img_byte gfs hpix j y x))
      (init_state_cells calcsize gfs hb) k hk
  · intro hb ht hsize
    have hnot : ¬ (gfs.image 0).transparent ≥ 0 := by omega
    have e : (init_state calcsize gfs).screen =
        List.replicate ((calcsize gfs).1 * (calcsize gfs).2) gfs.background := by
      rw [init_state_screen_eq, if_neg hnot]
    rw [e]
    constructor
    · intro h
      have := congrArg List.length h
      simp only [List.length_replicate, List.length_nil] at this
      omega
    · intro v hv
      rw [List.eq_of_mem_replicate hv]
      exact hb

/-- Witness for C20: `declared_unused_stream` (background index 7), and
`high_background_stream` (background index 300), whose initial canvas is
`[300, 300]`. -/
theorem canvas_cells_le_256_witness :
    (init_state keep_size high_background_stream).screen = [300, 300] ∧
    ((init_state keep_size high_background_stream).screen ≠ [] ∧
      ∀ v ∈ (init_state keep_size high_background_stream).screen, 256 < v) ∧
    ∀ k, k ≤ declared_unused_stream.images.length →
      (∀ v ∈ (loop_upto (fun _ => Alloc.allOk)
          (init_state keep_size declared_unused_stream) k).screen, v ≤ 256) ∧
      (k < declared_unused_stream.images.length →
        ∀ v ∈ put_image_in_screen
          (loop_upto (fun _ => Alloc.allOk) (init_state keep_size declared_unused_stream) k).gfs
          ((loop_upto (fun _ => Alloc.allOk)
            (init_state keep_size declared_unused_stream) k).gfs.image k)
          (loop_upto (fun _ => Alloc.allOk)
            (init_state keep_size declared_unused_stream) k).screen, v ≤ 256) :=
  ⟨by decide,
   (canvas_cells_le_256 keep_size (fun _ => Alloc.allOk) high_background_stream
     (by decide)).2 (by decide) (by decide) (by decide),
   (canvas_cells_le_256 keep_size (fun _ => Alloc.allOk) declared_unused_stream
     (by decide)).1 (by decide)⟩

/-! ## A run without sentinel (C18) -/

/-- With the buffers allocated, a canvas without sentinel, byte pixels, a background
index other than the sentinel and no transparent index on frame 0 (or frame 0 being
the frame rewritten): the composited canvas has no sentinel, the rewrite succeeds,
records no transparent index, leaves the palette as it is and leaves a shared
canvas without sentinel. -/
theorem unoptimize_image_no_sentinel (gfs : Gif_Stream) (i : Nat) (screen : List Nat)
    (a : Alloc) (hi : i < gfs.images.length)
    (hlen : screen.length = gfs.screen_width * gfs.screen_height)
    (hb : buffers_ok gfs i a) (hbg : gfs.background ≠ TRANSPARENT)
    (hpix : byte_pixels (gfs.image i)) (hs : TRANSPARENT ∉ screen)
    (h0 : i = 0 ∨ (gfs.image 0).transparent < 0) :
    TRANSPARENT ∉ put_image_in_screen gfs (gfs.image i) screen ∧
    (unoptimize_image gfs i screen a).ok = true ∧
    TRANSPARENT ∉ (unoptimize_image gfs i screen a).screen ∧
    ((unoptimize_image gfs i screen a).gfs.image i).transparent = -1 ∧
    (unoptimize_image gfs i screen a).gfs.global = gfs.global ∧
    ((unoptimize_image gfs i screen a).gfs.image 0).transparent < 0 := by
  have hdraw : ∀ v ∈ put_image_in_screen gfs (gfs.image i) screen, v ≠ TRANSPARENT :=
    put_image_in_screen_forall (fun v => v ≠ TRANSPARENT) gfs (gfs.image i) screen
      (fun y x => by
        have := img_lt _ hpix y x
        unfold TRANSPARENT
        omega)
      (fun v hv e => hs (e ▸ hv))
  have hC : TRANSPARENT ∉ put_image_in_screen gfs (gfs.image i) screen :=
    fun h => hdraw _ h rfl
  have hlen1 : (put_image_in_screen gfs (gfs.image i) screen).length
      = gfs.screen_width * gfs.screen_height := by
    rw [put_image_in_screen_length, hlen]
  have hno : have_ (put_image_in_screen gfs (gfs.image i) screen)
      (gfs.screen_width * gfs.screen_height) TRANSPARENT = false := by
    cases h : have_ (put_image_in_screen gfs (gfs.image i) screen)
      (gfs.screen_width * gfs.screen_height) TRANSPARENT with
    | false => rfl
    | true => exact absurd ((have_iff_of_length _ _ _ hlen1).mp h) hC
  have hc := create_image_data_no_sentinel gfs i
    (put_image_in_screen gfs (gfs.image i) screen) a.rearray hno
  rw [create_image_data_finish_eq] at hc
  rw [unoptimize_image_remap_ok gfs _ i screen _ a hb hc]
  have hi1 : i < (remapped_stream gfs i (-1) gfs.global).images.length := by
    simp [remapped_stream, hi]
  have ht1 : ((remapped_stream gfs i (-1) gfs.global).image i).transparent = -1 := by
    rw [remapped_stream_image gfs i (-1) gfs.global hi]
  have ht0 : ((remapped_stream gfs i (-1) gfs.global).image 0).transparent < 0 := by
    by_cases h : i = 0
    · subst h
      rw [ht1]
      decide
    · rw [(remapped_stream_effect gfs i (-1) gfs.global id).other 0 (Ne.symm h)]
      rcases h0 with h0 | h0
      · exact absurd h0 h
      · exact h0
  have hsolid : solid (remapped_stream gfs i (-1) gfs.global)
      ((remapped_stream gfs i (-1) gfs.global).image i) ≠ TRANSPARENT := by
    unfold solid
    rw [ht1, if_neg (by decide), if_neg (by omega)]
    exact hbg
  have hshared : ∀ v ∈ shared_after_draw gfs i screen, v ≠ TRANSPARENT := by
    unfold shared_after_draw
    split
    · exact fun v hv e => hs (e ▸ hv)
    · exact hdraw
  refine ⟨hC, rfl, ?_, ?_, rfl, ?_⟩
  · intro hmem
    simp only at hmem
    split at hmem
    · exact hshared _ hmem rfl
    · split at hmem
      · exact put_background_in_screen_forall (fun v => v ≠ TRANSPARENT) _ _ _ hsolid
          hshared _ hmem rfl
      · exact hshared _ hmem rfl
  · simp only
    rw [image_setImage_self _ _ _ hi1]
    exact ht1
  · simp only
    by_cases h : i = 0
    · subst h
      rw [image_setImage_self _ _ _ hi1]
      show ((remapped_stream gfs 0 (-1) gfs.global).image 0).transparent < 0
      exact ht0
    · rw [image_setImage_ne _ _ _ _ h]
      exact ht0

/-- From a state without sentinel on the canvas and without transparent index on
frame 0, with the buffers of every rewrite allocated: no iteration of the loop sees the sentinel,
every rewrite succeeds and records no transparent index, the palette stays. -/
theorem loop_no_sentinel (alloc : Nat → Alloc) (st : RunState)
    (hlen : st.screen.length = st.gfs.screen_width * st.gfs.screen_height)
    (hbg : st.gfs.background ≠ TRANSPARENT)
    (hpix : ∀ j, j < st.gfs.images.length → byte_pixels (st.gfs.image j))
    (hs : TRANSPARENT ∉ st.screen) (h0 : (st.gfs.image 0).transparent < 0)
    (hbuf : ∀ j, j < st.gfs.images.length → buffers_ok st.gfs j (alloc j))
    (k : Nat) (hk : k ≤ st.gfs.images.length) :
    TRANSPARENT ∉ (loop_upto alloc st k).screen ∧
    ((loop_upto alloc st k).gfs.image 0).transparent < 0 ∧
    (loop_upto alloc st k).gfs.global = st.gfs.global ∧
    (∀ j, j < k → rewrite_ok alloc st j = true ∧
      ((loop_upto alloc st k).gfs.image j).transparent = -1 ∧
      TRANSPARENT ∉ put_image_in_screen (loop_upto alloc st j).gfs
        ((loop_upto alloc st j).gfs.image j) (loop_upto alloc st j).screen) := by
  induction k with
  | zero => exact ⟨hs, h0, rfl, fun j hj => absurd hj (by omega)⟩
  | succ k ih =>
    obtain ⟨ih1, ih2, ih3, ih4⟩ := ih (by omega)
    have hinv := loop_inv alloc st k
    have hstep := unoptimize_image_no_sentinel (loop_upto alloc st k).gfs k
      (loop_upto alloc st k).screen (alloc k)
      (by rw [hinv.length]; omega)
      (by rw [hinv.screen, hinv.width, hinv.height]; exact hlen)
      (by
        have := hbuf k (by omega)
        unfold buffers_ok at this ⊢
        rw [loop_later alloc st k k (le_refl k)]
        exact this)
      (by rw [hinv.background]; exact hbg)
      (by rw [loop_later alloc st k k (le_refl k)]; exact hpix k (by omega))
      ih1 (Or.inr ih2)
    obtain ⟨s1, s2, s3, s4, s5, s6⟩ := hstep
    rw [← loop_step_gfs, ← loop_upto_succ] at s4 s5 s6
    rw [← loop_step_screen, ← loop_upto_succ] at s3
    refine ⟨s3, s6, s5.trans ih3, fun j hj => ?_⟩
    by_cases hjk : j = k
    · subst hjk
      exact ⟨s2, s4, s1⟩
    · obtain ⟨a1, a2, a3⟩ := ih4 j (by omega)
      refine ⟨a1, ?_, a3⟩
      rw [loop_earlier alloc st (k + 1) j (by omega), ← loop_earlier alloc st k j (by omega)]
      exact a2

/-- C18: on a stream that passes the precondition checks, with byte pixels, a
background index of at most 255 and no transparent index on the first frame, and
with every buffer allocated: the sentinel is in the shared canvas at no point of
the run and in no composited canvas (shared canvas or scratch copy), every rewrite
succeeds, `Gif_Unoptimize` returns success, every output frame has transparent
index `-1` (also a frame that declared one in the input), and the palette is
unchanged. -/
theorem Gif_Unoptimize_no_sentinel (calcsize : Gif_Stream → Nat × Nat)
    (alloc : Nat → Alloc) (gfs : Gif_Stream) (hc : passes_checks gfs)
    (hb : gfs.background ≤ 255) (hpix : ∀ gfi ∈ gfs.images, byte_pixels gfi)
    (h0 : (gfs.image 0).transparent < 0)
    (halloc : ∀ j, (alloc j).new_data = true ∧ (alloc j).new_screen = true) :
    (∀ k, k ≤ gfs.images.length →
      TRANSPARENT ∉ (loop_upto alloc (init_state calcsize gfs) k).screen) ∧
    (∀ j, j < gfs.images.length →
      TRANSPARENT ∉ put_image_in_screen (loop_upto alloc (init_state calcsize gfs) j).gfs
        ((loop_upto alloc (init_state calcsize gfs) j).gfs.image j)
        (loop_upto alloc (init_state calcsize gfs) j).screen ∧
      rewrite_ok alloc (init_state calcsize gfs) j = true) ∧
    (Gif_Unoptimize calcsize alloc gfs).1 = true ∧
    (∀ j, j < gfs.images.length →
      ((Gif_Unoptimize calcsize alloc gfs).2.image j).transparent = -1) ∧
    (Gif_Unoptimize calcsize alloc gfs).2.global = gfs.global := by
  have hrun := Gif_Unoptimize_run_of_checks calcsize alloc gfs hc
  have hs0 : TRANSPARENT ∉ (init_state calcsize gfs).screen := by
    rw [init_state_screen_eq, if_neg (by omega)]
    intro h
    have := List.eq_of_mem_replicate h
    unfold TRANSPARENT at this
    omega
  have key := fun k hk => loop_no_sentinel alloc (init_state calcsize gfs)
    (init_state_screen_length calcsize gfs)
    (show gfs.background ≠ TRANSPARENT by unfold TRANSPARENT; omega)
    (fun j hj => hpix _ (image_mem gfs j hj)) hs0 h0
    (fun j _ => ⟨(halloc j).1, fun h => by simp [(halloc j).2] at h⟩) k hk
  have hfin := key gfs.images.length (le_refl _)
  unfold Gif_Unoptimize
  simp only
  rw [hrun]
  refine ⟨fun k hk => (key k hk).1, fun j hj => ?_, ?_, fun j hj => (hfin.2.2.2 j hj).2.1,
    hfin.2.2.1⟩
  · exact ⟨(hfin.2.2.2 j hj).2.2, (hfin.2.2.2 j hj).1⟩
  · rw [loop_ok]
    exact ⟨rfl, fun j hj => (hfin.2.2.2 j hj).1⟩

/-- Witness for C18: `declared_later_stream`, whose second frame declares
transparent index 0. -/
theorem Gif_Unoptimize_no_sentinel_witness :
    (declared_later_stream.image 1).transparent = 0 ∧
    ((∀ k, k ≤ declared_later_stream.images.length →
      TRANSPARENT ∉ (loop_upto (fun _ => Alloc.allOk)
        (init_state keep_size declared_later_stream) k).screen) ∧
    (∀ j, j < declared_later_stream.images.length →
      TRANSPARENT ∉ put_image_in_screen
        (loop_upto (fun _ => Alloc.allOk) (init_state keep_size declared_later_stream) j).gfs
        ((loop_upto (fun _ => Alloc.allOk)
          (init_state keep_size declared_later_stream) j).gfs.image j)
        (loop_upto (fun _ => Alloc.allOk)
          (init_state keep_size declared_later_stream) j).screen ∧
      rewrite_ok (fun _ => Alloc.allOk) (init_state keep_size declared_later_stream) j = true) ∧
    (Gif_Unoptimize keep_size (fun _ => Alloc.allOk) declared_later_stream).1 = true ∧
    (∀ j, j < declared_later_stream.images.length →
      ((Gif_Unoptimize keep_size (fun _ => Alloc.allOk) declared_later_stream).2.image
        j).transparent = -1) ∧
    (Gif_Unoptimize keep_size (fun _ => Alloc.allOk) declared_later_stream).2.global
      = declared_later_stream.global) :=
  ⟨by decide,
   Gif_Unoptimize_no_sentinel keep_size (fun _ => Alloc.allOk) declared_later_stream
     (by decide) (by decide) (by decide) (by decide) (fun _ => ⟨rfl, rfl⟩)⟩

/-! ## Output indexes against the palette size (C19) -/

theorem palette_size_some (gfs : Gif_Stream) (g : Gif_Colormap) (hg : gfs.global = some g) :
    palette_size gfs = g.ncol := by
  unfold palette_size
  rw [hg]

theorem unoptimize_image_palette_size (gfs : Gif_Stream) (i : Nat) (screen : List Nat)
    (a : Alloc) (hi : i < gfs.images.length) :
    palette_size gfs ≤ palette_size (unoptimize_image gfs i screen a).gfs := by
  cases hg : gfs.global with
  | none =>
    have : palette_size gfs = 0 := by
      unfold palette_size
      rw [hg]
    omega
  | some g =>
    obtain ⟨g1, h1, h2, _⟩ := unoptimize_image_palette gfs i screen a g hi hg
    rw [palette_size_some gfs g hg, palette_size_some _ g1 h1]
    exact h2

/-- The palette size does not shrink from one state of the frame loop to a later
one. -/
theorem loop_palette_mono (alloc : Nat → Alloc) (st : RunState) (k d : Nat)
    (h : k + d ≤ st.gfs.images.length) :
    palette_size (loop_upto alloc st k).gfs ≤ palette_size (loop_upto alloc st (k + d)).gfs := by
  induction d with
  | zero => exact le_refl _
  | succ d ih =>
    have h1 := ih (by omega)
    have hinv := loop_inv alloc st (k + d)
    have h2 := unoptimize_image_palette_size (loop_upto alloc st (k + d)).gfs (k + d)
      (loop_upto alloc st (k + d)).screen (alloc (k + d)) (by rw [hinv.length]; omega)
    rw [← loop_step_gfs, ← loop_upto_succ] at h2
    rw [← Nat.add_assoc]
    omega

/-- A successful rewrite on a composited canvas whose cells are the sentinel or
below `N`, with `N` at most 256 and at most the palette size: every pixel of the
rewritten frame and its transparent index, if it has one, are below the palette
size after the rewrite. -/
theorem unoptimize_image_indices (gfs : Gif_Stream) (i : Nat) (screen : List Nat) (a : Alloc)
    (N : Nat) (hi : i < gfs.images.length)
    (hlen : screen.length = gfs.screen_width * gfs.screen_height)
    (hN : N ≤ palette_size gfs) (hN256 : N ≤ 256)
    (hC : ∀ v ∈ put_image_in_screen gfs (gfs.image i) screen, v < N ∨ v = TRANSPARENT)
    (hgl : gfs.global.isSome = true)
    (hok : (unoptimize_image gfs i screen a).ok = true) :
    (∀ v ∈ ((unoptimize_image gfs i screen a).gfs.image i).image_data,
      v < palette_size (unoptimize_image gfs i screen a).gfs) ∧
    (0 ≤ ((unoptimize_image gfs i screen a).gfs.image i).transparent →
      ((unoptimize_image gfs i screen a).gfs.image i).transparent <
        palette_size (unoptimize_image gfs i screen a).gfs) := by
  by_cases hbuf : buffers_ok gfs i a
  swap
  · rw [unoptimize_image_no_buffers gfs i screen a hbuf] at hok
    simp at hok
  obtain ⟨g, hg⟩ := Option.isSome_iff_exists.mp hgl
  rw [palette_size_some gfs g hg] at hN
  have hlen1 : (put_image_in_screen gfs (gfs.image i) screen).length
      = gfs.screen_width * gfs.screen_height := by
    rw [put_image_in_screen_length, hlen]
  have he := create_image_data_effect gfs i
    (put_image_in_screen gfs (gfs.image i) screen) a.rearray
  have hcases := create_image_data_ok_cases gfs i
    (put_image_in_screen gfs (gfs.image i) screen) a.rearray hi hlen1
  obtain ⟨g1, hg1, _, _, hlt, hmono, _⟩ := create_image_data_palette gfs i
    (put_image_in_screen gfs (gfs.image i) screen) a.rearray g hi hg
  rcases hc : create_image_data gfs i (put_image_in_screen gfs (gfs.image i) screen)
    a.rearray with ⟨ok, gfs1, nd⟩
  rw [hc] at he hcases hg1 hlt
  simp only at hcases hg1 hlt
  cases ok with
  | false =>
    rw [unoptimize_image_remap_fail gfs gfs1 i screen nd a hbuf hc] at hok
    simp at hok
  | true =>
    obtain ⟨hnd, hcase⟩ := hcases rfl
    have hlt1 := hlt rfl
    have hi1 : i < gfs1.images.length := by rw [he.length]; exact hi
    have hcells : ∀ v ∈ put_image_in_screen gfs (gfs.image i) screen, v ≤ 256 := by
      intro v hv
      rcases hC v hv with h | h
      · omega
      · rw [h]
        exact le_refl _
    have hcell := remap_cell_spec _ _ hcells hcase
    rw [unoptimize_image_remap_ok gfs gfs1 i screen nd a hbuf hc]
    simp only
    rw [image_setImage_self _ _ _ hi1]
    have hps : palette_size (gfs1.setImage i (flat_frame gfs1 i nd)) = g1.ncol :=
      palette_size_some _ g1 hg1
    rw [hps]
    constructor
    · intro v hv
      have hv1 : v ∈ nd := hv
      rw [hnd] at hv1
      obtain ⟨u, hu, rfl⟩ := List.mem_map.mp hv1
      by_cases hs : u = TRANSPARENT
      · have := ((hcell u hu).2.1).mpr hs
        omega
      · rw [(hcell u hu).2.2.1 hs]
        rcases hC u hu with h | h
        · omega
        · exact absurd h hs
    · intro _
      exact hlt1

/-- C19: on a stream that passes the precondition checks, whose palette has at most
256 entries and whose background index and input pixels are all below the initial
palette size: after `Gif_Unoptimize`, for every frame whose rewrite succeeded,
every pixel of the frame and its transparent index, when it has one, are below
the final palette size. -/
theorem Gif_Unoptimize_indices_in_palette (calcsize : Gif_Stream → Nat × Nat)
    (alloc : Nat → Alloc) (gfs : Gif_Stream) (hc : passes_checks gfs)
    (hn : palette_size gfs ≤ 256) (hb : gfs.background < palette_size gfs)
    (hpix : ∀ gfi ∈ gfs.images, ∀ v ∈ gfi.image_data, v < palette_size gfs) :
    ∀ j, j < gfs.images.length → rewrite_ok alloc (init_state calcsize gfs) j = true →
      (∀ v ∈ ((Gif_Unoptimize calcsize alloc gfs).2.image j).image_data,
        v < palette_size (Gif_Unoptimize calcsize alloc gfs).2) ∧
      (0 ≤ ((Gif_Unoptimize calcsize alloc gfs).2.image j).transparent →
        ((Gif_Unoptimize calcsize alloc gfs).2.image j).transparent <
          palette_size (Gif_Unoptimize calcsize alloc gfs).2) := by
  intro j hj hokj
  have hrun := Gif_Unoptimize_run_of_checks calcsize alloc gfs hc
  unfold Gif_Unoptimize
  simp only
  rw [hrun]
  have hps0 : palette_size (init_state calcsize gfs).gfs = palette_size gfs := rfl
  have himg : ∀ m y x, ((init_state calcsize gfs).gfs.image m).img y x < palette_size gfs := by
    intro m y x
    show (gfs.image m).img y x < palette_size gfs
    unfold Gif_Image.img
    by_cases h : y * (gfs.image m).width + x < (gfs.image m).image_data.length
    · rw [List.getD_eq_getElem _ _ h]
      by_cases hm : m < gfs.images.length
      · exact hpix _ (image_mem gfs m hm) _ (List.getElem_mem _)
      · have e : gfs.image m = default := by
          unfold Gif_Stream.image
          exact List.getD_eq_default _ _ (not_lt.mp hm)
        rw [e] at h
        have hd : (default : Gif_Image).image_data = [] := rfl
        rw [hd] at h
        simp at h
    · rw [List.getD_eq_default _ _ (not_lt.mp h)]
      omega
  have hcells := (loop_cells (fun v => v < palette_size gfs ∨ v = TRANSPARENT) alloc
    (init_state calcsize gfs) (Or.inr rfl) (Or.inl hb)
    (fun m _ y x => Or.inl (himg m y x))
    (by
      intro v hv
      rw [init_state_screen_eq] at hv
      rw [List.eq_of_mem_replicate hv]
      split
      · exact Or.inr rfl
      · exact Or.inl hb)
    j (le_of_lt hj)).2 hj
  have hinv := loop_inv alloc (init_state calcsize gfs) j
  have hm0 := loop_palette_mono alloc (init_state calcsize gfs) 0 j (by simpa using le_of_lt hj)
  rw [Nat.zero_add] at hm0
  have hstep := unoptimize_image_indices (loop_upto alloc (init_state calcsize gfs) j).gfs j
    (loop_upto alloc (init_state calcsize gfs) j).screen (alloc j) (palette_size gfs)
    (by rw [hinv.length]; exact hj)
    (by rw [hinv.screen, hinv.width, hinv.height]; exact init_state_screen_length calcsize gfs)
    (by rw [← hps0]; exact hm0) hn hcells (hinv.global hc.2.2) hokj
  rw [← loop_step_gfs, ← loop_upto_succ] at hstep
  have hm1 := loop_palette_mono alloc (init_state calcsize gfs) (j + 1)
    (gfs.images.length - (j + 1)) (by
      show j + 1 + (gfs.images.length - (j + 1)) ≤ gfs.images.length
      omega)
  rw [show j + 1 + (gfs.images.length - (j + 1)) = gfs.images.length by omega] at hm1
  rw [loop_earlier alloc (init_state calcsize gfs) gfs.images.length j hj]
  constructor
  · intro v hv
    have := hstep.1 v hv
    omega
  · intro ht
    have := hstep.2 ht
    omega

/-- Witness for C19: `growing_stream`, whose palette grows from 1 to 2 entries when
frame 0 is given transparent index 1. -/
theorem Gif_Unoptimize_indices_in_palette_witness :
    ((Gif_Unoptimize keep_size (fun _ => Alloc.allOk) growing_stream).2.image 0).image_data
      = [0, 1, 1, 1] ∧
    palette_size (Gif_Unoptimize keep_size (fun _ => Alloc.allOk) growing_stream).2 = 2 ∧
    ∀ j, j < growing_stream.images.length →
      rewrite_ok (fun _ => Alloc.allOk) (init_state keep_size growing_stream) j = true →
      (∀ v ∈ ((Gif_Unoptimize keep_size (fun _ => Alloc.allOk) growing_stream).2.image
          j).image_data,
        v < palette_size (Gif_Unoptimize keep_size (fun _ => Alloc.allOk) growing_stream).2) ∧
      (0 ≤ ((Gif_Unoptimize keep_size (fun _ => Alloc.allOk) growing_stream).2.image
          j).transparent →
        ((Gif_Unoptimize keep_size (fun _ => Alloc.allOk) growing_stream).2.image j).transparent <
          palette_size (Gif_Unoptimize keep_size (fun _ => Alloc.allOk) growing_stream).2) :=
  ⟨by decide, by decide,
   Gif_Unoptimize_indices_in_palette keep_size (fun _ => Alloc.allOk) growing_stream
     (by decide) (by decide) (by decide) (by decide)⟩

/-! ## Running `Gif_Unoptimize` on its own output (C17) -/

/-- Two canvas buffers of the same canvas size that agree at every cell are
equal. -/
theorem canvas_ext (sw sh : Nat) (l1 l2 : List Nat) (h1 : l1.length = sw * sh)
    (h2 : l2.length = sw * sh)
    (h : ∀ cx cy, cx < sw → cy < sh → l1.getD (sw * cy + cx) 0 = l2.getD (sw * cy + cx) 0) :
    l1 = l2 := by
  apply List.ext_getElem (by rw [h1, h2])
  intro p hp1 hp2
  have hp : p < sw * sh := by rw [← h1]; exact hp1
  have hsw : 0 < sw := by
    rcases Nat.eq_zero_or_pos sw with h0 | h0
    · rw [h0, Nat.zero_mul] at hp
      omega
    · exact h0
  have hcx : p % sw < sw := Nat.mod_lt _ hsw
  have hcy : p / sw < sh := Nat.div_lt_of_lt_mul hp
  have e := h (p % sw) (p / sw) hcx hcy
  rw [Nat.div_add_mod, List.getD_eq_getElem _ _ hp1, List.getD_eq_getElem _ _ hp2] at e
  exact e

theorem getD_map_remap (V : List Nat) (t : Int) (p : Nat) (hp : p < V.length) :
    (V.map (remap_cell t)).getD p 0 = remap_cell t (V.getD p 0) := by
  simp [List.getD_eq_getElem?_getD, hp]

theorem getD_replicate (n c p : Nat) (hp : p < n) : (List.replicate n c).getD p 0 = c := by
  rw [List.getD_eq_getElem _ _ (by simpa using hp)]
  simp

theorem in_rect_flat (s : Gif_Stream) (j : Nat) (hf : flat_placement s j) (cx cy : Nat)
    (hcx : cx < s.screen_width) (hcy : cy < s.screen_height) : in_rect (s.image j) cx cy := by
  obtain ⟨h1, h2, h3, h4, _⟩ := hf
  unfold in_rect
  rw [h1, h2, h3, h4]
  omega

/-- Restoring a flat frame to background fills the whole canvas. -/
theorem put_background_flat (s : Gif_Stream) (j : Nat) (hf : flat_placement s j)
    (screen : List Nat) (hlen : screen.length = s.screen_width * s.screen_height) :
    put_background_in_screen s (s.image j) screen =
      List.replicate (s.screen_width * s.screen_height) (solid s (s.image j)) := by
  apply canvas_ext s.screen_width s.screen_height
  · rw [put_background_in_screen_length, hlen]
  · simp
  · intro cx cy hcx hcy
    rw [put_background_in_screen_getD s (s.image j) screen cx cy hcx hcy hlen,
      if_pos (in_rect_flat s j hf cx cy hcx hcy),
      getD_replicate _ _ _ (cell_index_lt _ _ _ _ hcx hcy)]

/-- The cases of `remap_of_canvas` in the form `remap_cell_spec` takes. -/
theorem remap_case (V : List Nat) (size : Nat) (t : Int) (N : Nat) (hlen : V.length = size)
    (h : (have_ V size TRANSPARENT = false ∧ t = -1) ∨
      (have_ V size TRANSPARENT = true ∧
        ∃ n : Nat, first_unused V size = some n ∧ t = n ∧ n < N)) :
    (TRANSPARENT ∉ V ∧ t = -1) ∨
      (TRANSPARENT ∈ V ∧ ∃ n : Nat, n < 256 ∧ n ∉ V ∧ t = n) := by
  rcases h with ⟨h1, h2⟩ | ⟨h1, n, h2, h3, _⟩
  · left
    refine ⟨fun hm => ?_, h2⟩
    rw [(have_iff_of_length V size _ hlen).mpr hm] at h1
    simp at h1
  · right
    have hs := first_unused_spec V size n hlen h2
    exact ⟨(have_iff_of_length V size _ hlen).mp h1, n, hs.1, hs.2.1, h3⟩

/-- Drawing a flat frame that is the remap of the canvas `V` onto a canvas filled
with `c` gives `V` back, provided `c` is the sentinel when the frame has a
transparent index. -/
theorem put_image_flat (s : Gif_Stream) (j : Nat) (hf : flat_placement s j) (V : List Nat)
    (c : Nat) (hlen : V.length = s.screen_width * s.screen_height)
    (hcells : ∀ v ∈ V, v ≤ 256)
    (hdata : (s.image j).image_data = V.map (remap_cell (s.image j).transparent))
    (hcase : (TRANSPARENT ∉ V ∧ (s.image j).transparent = -1) ∨
      (TRANSPARENT ∈ V ∧ ∃ n : Nat, n < 256 ∧ n ∉ V ∧ (s.image j).transparent = n))
    (hc : 0 ≤ (s.image j).transparent → c = TRANSPARENT) :
    put_image_in_screen s (s.image j)
      (List.replicate (s.screen_width * s.screen_height) c) = V := by
  have hcell := remap_cell_spec V _ hcells hcase
  apply canvas_ext s.screen_width s.screen_height
  · rw [put_image_in_screen_length]
    simp
  · exact hlen
  · intro cx cy hcx hcy
    have hidx := cell_index_lt _ _ _ _ hcx hcy
    rw [put_image_in_screen_getD s (s.image j) _ cx cy hcx hcy (by simp),
      getD_replicate _ _ _ hidx]
    have hpix : (s.image j).img (cy - (s.image j).top) (cx - (s.image j).left) =
        remap_cell (s.image j).transparent (V.getD (s.screen_width * cy + cx) 0) := by
      obtain ⟨h1, h2, h3, _, _⟩ := hf
      unfold Gif_Image.img
      rw [h1, h2, h3, Nat.sub_zero, Nat.sub_zero, Nat.mul_comm cy, hdata]
      exact getD_map_remap V _ _ (by rw [hlen]; exact hidx)
    rw [hpix]
    have hmem : V.getD (s.screen_width * cy + cx) 0 ∈ V := by
      rw [List.getD_eq_getElem _ _ (by rw [hlen]; exact hidx)]
      exact List.getElem_mem _
    obtain ⟨_, hiff, hkeep, _⟩ := hcell _ hmem
    by_cases hs : V.getD (s.screen_width * cy + cx) 0 = TRANSPARENT
    · have hn : ¬ (in_rect (s.image j) cx cy ∧
          ((remap_cell (s.image j).transparent (V.getD (s.screen_width * cy + cx) 0) : Nat)
            : Int) ≠ (s.image j).transparent) := fun hh => hh.2 (hiff.mpr hs)
      rw [if_neg hn, hs]
      apply hc
      rcases hcase with ⟨hno, _⟩ | ⟨_, n, _, _, ht⟩
      · exact absurd (hs ▸ hmem) hno
      · rw [ht]
        omega
    · have hy : in_rect (s.image j) cx cy ∧
          ((remap_cell (s.image j).transparent (V.getD (s.screen_width * cy + cx) 0) : Nat)
            : Int) ≠ (s.image j).transparent :=
        ⟨in_rect_flat s j hf cx cy hcx hcy, fun hh => hs (hiff.mp hh)⟩
      rw [if_pos hy, hkeep hs]

/-- On the canvas it is the remap of, `create_image_data` reproduces the frame and
leaves the stream as it is. -/
theorem create_image_data_fixed (s : Gif_Stream) (j : Nat) (V : List Nat)
    (r : Option (Nat → Gif_Color)) (hgl : s.global.isSome = true)
    (hlen : V.length = s.screen_width * s.screen_height)
    (hdata : (s.image j).image_data = V.map (remap_cell (s.image j).transparent))
    (hcase : (have_ V (s.screen_width * s.screen_height) TRANSPARENT = false ∧
        (s.image j).transparent = -1) ∨
      (have_ V (s.screen_width * s.screen_height) TRANSPARENT = true ∧
        ∃ n : Nat, first_unused V (s.screen_width * s.screen_height) = some n ∧
          (s.image j).transparent = n ∧ n < palette_size s)) :
    create_image_data s j V r = (true, s, (s.image j).image_data) := by
  have hkeep : remapped_stream s j (s.image j).transparent s.global = s :=
    remapped_stream_keep s j s.global
  have hfin : create_image_data_finish s j V (s.image j).transparent =
      (true, s, (s.image j).image_data) := by
    rw [create_image_data_finish_eq, hkeep, List.take_of_length_le (by omega), ← hdata]
  rcases hcase with ⟨h1, h2⟩ | ⟨h1, n, h2, h3, h4⟩
  · rw [create_image_data_no_sentinel s j V r h1, ← h2]
    exact hfin
  · obtain ⟨g, hg⟩ := Option.isSome_iff_exists.mp hgl
    rw [palette_size_some s g hg] at h4
    rw [create_image_data_fits s j V r n g h1 h2 hg h4, ← h3]
    exact hfin

theorem flat_frame_self (s : Gif_Stream) (j : Nat) (hf : flat_placement s j) :
    flat_frame s j (s.image j).image_data = s.image j := by
  obtain ⟨h1, h2, h3, h4, h5⟩ := hf
  unfold flat_frame
  cases hh : s.image j with
  | mk lm t d l tp w h data =>
    rw [hh] at h1 h2 h3 h4 h5
    simp only at h1 h2 h3 h4 h5
    rw [h1, h2, h3, h4, h5]

theorem setImage_self (s : Gif_Stream) (j : Nat) : s.setImage j (s.image j) = s := by
  unfold Gif_Stream.setImage Gif_Stream.image
  rw [set_getD_self]

/-- Rewriting a flat frame of a flat stream again, on a canvas filled with `c`,
succeeds, leaves the stream as it is and leaves the canvas filled with the
frame's fill value. -/
theorem unoptimize_image_fixed (s : Gif_Stream) (j : Nat) (c : Nat) (a : Alloc)
    (ha : a.new_data = true) (hgl : s.global.isSome = true)
    (hf : flat_placement s j) (hr : remap_of_canvas s j)
    (hc : 0 ≤ (s.image j).transparent → c = TRANSPARENT) :
    unoptimize_image s j (List.replicate (s.screen_width * s.screen_height) c) a =
      ⟨true, s, List.replicate (s.screen_width * s.screen_height) (solid s (s.image j))⟩ := by
  obtain ⟨V, hlen, hcells, hdata, hcase⟩ := hr
  have hdisp : (s.image j).disposal = Gif_Disposal.background := hf.2.2.2.2
  have hbuf : buffers_ok s j a := ⟨ha, fun h => by rw [hdisp] at h; simp at h⟩
  have hdraw := put_image_flat s j hf V c hlen hcells hdata
    (remap_case V _ _ _ hlen hcase) hc
  have hcid := create_image_data_fixed s j V a.rearray hgl hlen hdata hcase
  rw [← hdraw] at hcid
  rw [unoptimize_image_remap_ok s s j _ _ a hbuf hcid]
  have hsh : shared_after_draw s j (List.replicate (s.screen_width * s.screen_height) c) = V := by
    unfold shared_after_draw
    rw [hdisp]
    simp only [reduceCtorEq, if_false]
    exact hdraw
  rw [flat_frame_self s j hf, setImage_self, hsh, hdisp]
  simp only [reduceCtorEq, if_false, if_true]
  rw [put_background_flat s j hf V hlen]

/-- A flat stream whose frames are remaps of canvases and whose frame 0 records a
transparent index if any frame does is left as it is by the frame loop. -/
theorem loop_fixed (alloc : Nat → Alloc) (s : Gif_Stream)
    (halloc : ∀ j, (alloc j).new_data = true) (hgl : s.global.isSome = true)
    (hf : ∀ j, j < s.images.length → flat_placement s j)
    (hr : ∀ j, j < s.images.length → remap_of_canvas s j)
    (hlead : first_frame_leads s) (k : Nat) (hk : k ≤ s.images.length) :
    loop_upto alloc
        ⟨true, s, List.replicate (s.screen_width * s.screen_height) (refill s 0)⟩ k =
      ⟨true, s, List.replicate (s.screen_width * s.screen_height) (refill s k)⟩ := by
  induction k with
  | zero => rfl
  | succ k ih =>
    rw [loop_upto_succ, ih (by omega)]
    have hc : 0 ≤ (s.image k).transparent → refill s k = TRANSPARENT := by
      intro ht
      have h0 : 0 ≤ (s.image 0).transparent := by
        rcases hlead with h | h
        · exact h
        · have := h k (by omega)
          omega
      cases k with
      | zero =>
        show (if (s.image 0).transparent ≥ 0 then TRANSPARENT else s.background) = TRANSPARENT
        rw [if_pos h0]
      | succ m =>
        show solid s (s.image m) = TRANSPARENT
        unfold solid
        split
        · rfl
        · rfl
    unfold loop_step
    simp only
    rw [unoptimize_image_fixed s k (refill s k) (alloc k) (halloc k) hgl (hf k (by omega))
      (hr k (by omega)) hc]
    rfl

/-- A successful rewrite leaves frame `i` as the remap of the composited canvas. -/
theorem unoptimize_image_remap_of_canvas (gfs : Gif_Stream) (i : Nat) (screen : List Nat)
    (a : Alloc) (hi : i < gfs.images.length)
    (hlen : screen.length = gfs.screen_width * gfs.screen_height)
    (hcells : ∀ v ∈ screen, v ≤ 256) (hp : byte_pixels (gfs.image i))
    (hgl : gfs.global.isSome = true)
    (hok : (unoptimize_image gfs i screen a).ok = true) :
    remap_of_canvas (unoptimize_image gfs i screen a).gfs i ∧
    ((unoptimize_image gfs i screen a).gfs.image i).localmap = (gfs.image i).localmap := by
  by_cases hbuf : buffers_ok gfs i a
  swap
  · rw [unoptimize_image_no_buffers gfs i screen a hbuf] at hok
    simp at hok
  obtain ⟨g, hg⟩ := Option.isSome_iff_exists.mp hgl
  have hlen1 : (put_image_in_screen gfs (gfs.image i) screen).length
      = gfs.screen_width * gfs.screen_height := by
    rw [put_image_in_screen_length, hlen]
  have hcells1 := put_image_in_screen_le gfs (gfs.image i) screen hp hcells
  have he := create_image_data_effect gfs i
    (put_image_in_screen gfs (gfs.image i) screen) a.rearray
  have himg := create_image_data_image gfs i
    (put_image_in_screen gfs (gfs.image i) screen) a.rearray hi
  obtain ⟨t, g0, hsh, _, hshape⟩ := create_image_data_shape gfs i
    (put_image_in_screen gfs (gfs.image i) screen) a.rearray
  obtain ⟨g1, hg1, _, _, hlt, _, _⟩ := create_image_data_palette gfs i
    (put_image_in_screen gfs (gfs.image i) screen) a.rearray g hi hg
  have ht : ((create_image_data gfs i (put_image_in_screen gfs (gfs.image i) screen)
      a.rearray).2.1.image i).transparent = t := by
    rw [hsh, remapped_stream_image gfs i t g0 hi]
  rcases hc : create_image_data gfs i (put_image_in_screen gfs (gfs.image i) screen)
    a.rearray with ⟨ok, gfs1, nd⟩
  rw [hc] at he himg hshape hg1 hlt ht
  simp only at himg hshape hg1 hlt ht
  cases ok with
  | false =>
    rw [unoptimize_image_remap_fail gfs gfs1 i screen nd a hbuf hc] at hok
    simp at hok
  | true =>
    obtain ⟨hnd, hcase⟩ := hshape rfl
    have hlt1 := hlt rfl
    have hi1 : i < gfs1.images.length := by rw [he.length]; exact hi
    rw [unoptimize_image_remap_ok gfs gfs1 i screen nd a hbuf hc]
    simp only
    have hw : (gfs1.setImage i (flat_frame gfs1 i nd)).screen_width = gfs.screen_width :=
      he.width
    have hh : (gfs1.setImage i (flat_frame gfs1 i nd)).screen_height = gfs.screen_height :=
      he.height
    have hps : palette_size (gfs1.setImage i (flat_frame gfs1 i nd)) = g1.ncol :=
      palette_size_some _ g1 hg1
    constructor
    · refine ⟨put_image_in_screen gfs (gfs.image i) screen, ?_, hcells1, ?_, ?_⟩
      · rw [hw, hh]
        exact hlen1
      · rw [image_setImage_self _ _ _ hi1]
        show nd = _
        rw [hnd, List.take_of_length_le (by omega)]
        show _ = List.map (remap_cell (gfs1.image i).transparent) _
        rw [ht]
      · rw [image_setImage_self _ _ _ hi1, hw, hh, hps]
        show (_ ∧ (gfs1.image i).transparent = -1) ∨
          (_ ∧ ∃ n : Nat, _ ∧ (gfs1.image i).transparent = n ∧ n < g1.ncol)
        rw [ht]
        rcases hcase with ⟨h1, h2⟩ | ⟨h1, n, h2, h3⟩
        · exact Or.inl ⟨h1, h2⟩
        · refine Or.inr ⟨h1, n, h2, h3, ?_⟩
          rw [ht, h3] at hlt1
          exact_mod_cast hlt1
    · rw [image_setImage_self _ _ _ hi1]
      show (gfs1.image i).localmap = _
      rw [himg]

theorem remap_of_canvas_congr (s s1 : Gif_Stream) (j : Nat)
    (hw : s1.screen_width = s.screen_width) (hh : s1.screen_height = s.screen_height)
    (hi : s1.image j = s.image j) (hp : palette_size s ≤ palette_size s1)
    (h : remap_of_canvas s j) : remap_of_canvas s1 j := by
  obtain ⟨V, h1, h2, h3, h4⟩ := h
  refine ⟨V, ?_, h2, ?_, ?_⟩
  · rw [hw, hh]
    exact h1
  · rw [hi]
    exact h3
  · rw [hw, hh, hi]
    rcases h4 with h4 | ⟨a, n, b, c, d⟩
    · exact Or.inl h4
    · exact Or.inr ⟨a, n, b, c, by omega⟩

/-- After a successful run every frame of the output is flat, has no frame-local
palette and is the remap of a canvas; the output passes the precondition checks. -/
theorem Gif_Unoptimize_output_flat (calcsize : Gif_Stream → Nat × Nat) (alloc : Nat → Alloc)
    (gfs : Gif_Stream) (hc : passes_checks gfs) (hb : gfs.background ≤ 255)
    (hpix : ∀ gfi ∈ gfs.images, byte_pixels gfi)
    (hok : (Gif_Unoptimize calcsize alloc gfs).1 = true) :
    passes_checks (Gif_Unoptimize calcsize alloc gfs).2 ∧
    ∀ j, j < (Gif_Unoptimize calcsize alloc gfs).2.images.length →
      flat_placement (Gif_Unoptimize calcsize alloc gfs).2 j ∧
      remap_of_canvas (Gif_Unoptimize calcsize alloc gfs).2 j := by
  have hrun := Gif_Unoptimize_run_of_checks calcsize alloc gfs hc
  unfold Gif_Unoptimize at hok ⊢
  simp only at hok ⊢
  rw [hrun] at hok ⊢
  have hfin := loop_inv alloc (init_state calcsize gfs) gfs.images.length
  have hall := ((loop_ok alloc (init_state calcsize gfs) gfs.images.length).mp hok).2
  have hlenn : (loop_upto alloc (init_state calcsize gfs) gfs.images.length).gfs.images.length
      = gfs.images.length := hfin.length
  have hcells := fun k hk => (loop_cells (fun v => v ≤ 256) alloc (init_state calcsize gfs)
    (le_refl _) (show gfs.background ≤ 256 by omega)
    (fun j _ y x => le_of_lt (img_byte gfs hpix j y x))
    (init_state_cells calcsize gfs (by omega)) k hk).1
  have frame : ∀ j, j < gfs.images.length →
      flat_placement (loop_upto alloc (init_state calcsize gfs) gfs.images.length).gfs j ∧
      remap_of_canvas (loop_upto alloc (init_state calcsize gfs) gfs.images.length).gfs j ∧
      ((loop_upto alloc (init_state calcsize gfs) gfs.images.length).gfs.image j).localmap
        = none := by
    intro j hj
    have hinv := loop_inv alloc (init_state calcsize gfs) j
    have hinv1 := loop_inv alloc (init_state calcsize gfs) (j + 1)
    have hfl := loop_flattened alloc (init_state calcsize gfs) gfs.images.length j hj hj
      (init_state_screen_length calcsize gfs) (hall j hj)
    have hstep := unoptimize_image_remap_of_canvas
      (loop_upto alloc (init_state calcsize gfs) j).gfs j
      (loop_upto alloc (init_state calcsize gfs) j).screen (alloc j)
      (by rw [hinv.length]; exact hj)
      (by rw [hinv.screen, hinv.width, hinv.height]; exact init_state_screen_length calcsize gfs)
      (hcells j (le_of_lt hj))
      (by rw [loop_later alloc _ j j (le_refl j)]; exact hpix _ (image_mem gfs j hj))
      (hinv.global hc.2.2) (hall j hj)
    rw [← loop_step_gfs, ← loop_upto_succ, loop_later alloc _ j j (le_refl j)] at hstep
    have hmono := loop_palette_mono alloc (init_state calcsize gfs) (j + 1)
      (gfs.images.length - (j + 1)) (by
        show j + 1 + (gfs.images.length - (j + 1)) ≤ gfs.images.length
        omega)
    rw [show j + 1 + (gfs.images.length - (j + 1)) = gfs.images.length by omega] at hmono
    have hearly := loop_earlier alloc (init_state calcsize gfs) gfs.images.length j hj
    refine ⟨?_, ?_, ?_⟩
    · obtain ⟨a1, a2, a3, a4, a5, _⟩ := hfl
      exact ⟨a1, a2, a3, a4, a5⟩
    · exact remap_of_canvas_congr _ _ j (hfin.width.trans hinv1.width.symm)
        (hfin.height.trans hinv1.height.symm) hearly hmono hstep.1
    · rw [hearly, hstep.2]
      exact hc.2.1 _ (image_mem gfs j hj)
  refine ⟨⟨?_, ?_, hfin.global hc.2.2⟩, fun j hj => ?_⟩
  · rw [hlenn]
    exact hc.1
  · intro gfi hm
    obtain ⟨j, hj, rfl⟩ := List.getElem_of_mem hm
    have := (frame j (by rw [← hlenn]; exact hj)).2.2
    unfold Gif_Stream.image at this
    rw [List.getD_eq_getElem _ _ hj] at this
    exact this
  · have := frame j (by rw [← hlenn]; exact hj)
    exact ⟨this.1, this.2.1⟩

theorem init_state_keep (calcsize : Gif_Stream → Nat × Nat) (s : Gif_Stream)
    (hsize : calcsize s = (s.screen_width, s.screen_height)) :
    init_state calcsize s =
      ⟨true, s, List.replicate (s.screen_width * s.screen_height) (refill s 0)⟩ := by
  unfold init_state
  simp only [hsize]
  rfl

/-- A run on a stream that passes the checks, is flat, consists of remaps of
canvases and whose frame 0 records a transparent index if any frame does, with
the canvas size kept and the pixel buffers allocated, returns success and the
stream itself. -/
theorem Gif_Unoptimize_fixed (calcsize : Gif_Stream → Nat × Nat) (alloc : Nat → Alloc)
    (s : Gif_Stream) (hc : passes_checks s)
    (hsize : calcsize s = (s.screen_width, s.screen_height))
    (halloc : ∀ j, (alloc j).new_data = true)
    (hf : ∀ j, j < s.images.length → flat_placement s j ∧ remap_of_canvas s j)
    (hlead : first_frame_leads s) :
    Gif_Unoptimize calcsize alloc s = (true, s) := by
  have hrun := Gif_Unoptimize_run_of_checks calcsize alloc s hc
  unfold Gif_Unoptimize
  rw [hrun, init_state_keep calcsize s hsize,
    loop_fixed alloc s halloc hc.2.2 (fun j hj => (hf j hj).1) (fun j hj => (hf j hj).2)
      hlead s.images.length (le_refl _)]

/-- C17 (amended): for every stream with byte pixels and background index at most
255 on which `Gif_Unoptimize` returns success, and in whose result frame 0 records
a transparent index whenever some frame records one: running `Gif_Unoptimize` a
second time on the result, with a canvas-size calculation that leaves the canvas
unchanged and the pixel buffers allocated, returns success and leaves the result
unchanged (pixels, transparent index, offset, size and disposal of every frame,
and the palette). -/
theorem Gif_Unoptimize_idempotent (calcsize calcsize2 : Gif_Stream → Nat × Nat)
    (alloc alloc2 : Nat → Alloc) (gfs : Gif_Stream) (hb : gfs.background ≤ 255)
    (hpix : ∀ gfi ∈ gfs.images, byte_pixels gfi)
    (hok : (Gif_Unoptimize calcsize alloc gfs).1 = true)
    (hlead : first_frame_leads (Gif_Unoptimize calcsize alloc gfs).2)
    (hsize : calcsize2 (Gif_Unoptimize calcsize alloc gfs).2 =
      ((Gif_Unoptimize calcsize alloc gfs).2.screen_width,
       (Gif_Unoptimize calcsize alloc gfs).2.screen_height))
    (halloc : ∀ j, (alloc2 j).new_data = true) :
    Gif_Unoptimize calcsize2 alloc2 (Gif_Unoptimize calcsize alloc gfs).2 =
      (true, (Gif_Unoptimize calcsize alloc gfs).2) := by
  by_cases h1 : gfs.images.length ≤ 1
  · have e : Gif_Unoptimize calcsize alloc gfs = (true, gfs) := by
      simp [Gif_Unoptimize, Gif_Unoptimize_run, h1]
    rw [e]
    simp [Gif_Unoptimize, Gif_Unoptimize_run, h1]
  · have hc := passes_checks_of_ok calcsize alloc gfs (by omega) hok
    obtain ⟨hc2, hflat⟩ := Gif_Unoptimize_output_flat calcsize alloc gfs hc hb hpix hok
    exact Gif_Unoptimize_fixed calcsize2 alloc2 _ hc2 hsize halloc hflat hlead

/-- Witness for C17 (amended): `growing_stream`, both of whose rewritten frames record
transparent index 1. -/
theorem Gif_Unoptimize_idempotent_witness :
    ((Gif_Unoptimize keep_size (fun _ => Alloc.allOk) growing_stream).2.image 0).transparent
      = 1 ∧
    Gif_Unoptimize keep_size (fun _ => Alloc.allOk)
        (Gif_Unoptimize keep_size (fun _ => Alloc.allOk) growing_stream).2 =
      (true, (Gif_Unoptimize keep_size (fun _ => Alloc.allOk) growing_stream).2) :=
  ⟨by decide,
   Gif_Unoptimize_idempotent keep_size keep_size (fun _ => Alloc.allOk)
     (fun _ => Alloc.allOk) growing_stream (by decide) (by decide) (by decide) (by decide)
     rfl (fun _ => rfl)⟩

/-- C17 as stated fails on `previous_first_stream` (background index 7, canvas size
kept by the calculation): the first run returns success and rewrites frame 1 to
`[3, 0]` with transparent index 0, frame 0 to `[1, 2]` without transparent index;
the second run returns success and rewrites frame 1 to `[3, 7]` without
transparent index. -/
theorem Gif_Unoptimize_not_idempotent :
    (Gif_Unoptimize keep_size (fun _ => Alloc.allOk) previous_first_stream).1 = true ∧
    previous_first_stream.background ≤ 255 ∧
    keep_size (Gif_Unoptimize keep_size (fun _ => Alloc.allOk) previous_first_stream).2 =
      ((Gif_Unoptimize keep_size (fun _ => Alloc.allOk) previous_first_stream).2.screen_width,
       (Gif_Unoptimize keep_size (fun _ => Alloc.allOk) previous_first_stream).2.screen_height) ∧
    ((Gif_Unoptimize keep_size (fun _ => Alloc.allOk) previous_first_stream).2.image 1).image_data
      = [3, 0] ∧
    ((Gif_Unoptimize keep_size (fun _ => Alloc.allOk) previous_first_stream).2.image 1).transparent
      = 0 ∧
    (Gif_Unoptimize keep_size (fun _ => Alloc.allOk)
      (Gif_Unoptimize keep_size (fun _ => Alloc.allOk) previous_first_stream).2).1 = true ∧
    ((Gif_Unoptimize keep_size (fun _ => Alloc.allOk)
      (Gif_Unoptimize keep_size (fun _ => Alloc.allOk) previous_first_stream).2).2.image
        1).image_data = [3, 7] ∧
    ((Gif_Unoptimize keep_size (fun _ => Alloc.allOk)
      (Gif_Unoptimize keep_size (fun _ => Alloc.allOk) previous_first_stream).2).2.image
        1).transparent = -1 ∧
    Gif_Unoptimize keep_size (fun _ => Alloc.allOk)
        (Gif_Unoptimize keep_size (fun _ => Alloc.allOk) previous_first_stream).2 ≠
      (true, (Gif_Unoptimize keep_size (fun _ => Alloc.allOk) previous_first_stream).2) := by
  decide

theorem remap_of_canvas_bytes (s : Gif_Stream) (j : Nat) (h : remap_of_canvas s j) :
    byte_pixels (s.image j) := by
  obtain ⟨V, hlen, hcells, hdata, hcase⟩ := h
  have hcell := remap_cell_spec V _ hcells (remap_case V _ _ _ hlen hcase)
  intro v hv
  rw [hdata] at hv
  obtain ⟨u, hu, rfl⟩ := List.mem_map.mp hv
  exact (hcell u hu).1

/-- The condition of the amended C17 cannot be dropped: on a flat stream of remaps
in which some frame records a transparent index and frame 0 does not, a further
run records no transparent index on any frame, so it changes the stream. -/
theorem Gif_Unoptimize_not_fixed (calcsize : Gif_Stream → Nat × Nat) (alloc : Nat → Alloc)
    (s : Gif_Stream) (hc : passes_checks s) (hb : s.background ≤ 255)
    (hsize : calcsize s = (s.screen_width, s.screen_height))
    (halloc : ∀ j, (alloc j).new_data = true)
    (hf : ∀ j, j < s.images.length → flat_placement s j ∧ remap_of_canvas s j)
    (hlead : ¬ first_frame_leads s) :
    (∀ j, j < s.images.length → ((Gif_Unoptimize calcsize alloc s).2.image j).transparent = -1) ∧
    Gif_Unoptimize calcsize alloc s ≠ (true, s) := by
  have h0 : (s.image 0).transparent < 0 := by
    by_contra h
    exact hlead (Or.inl (by omega))
  have hsome : ∃ j, j < s.images.length ∧ 0 ≤ (s.image j).transparent := by
    by_contra h
    apply hlead
    right
    intro j hj
    by_contra hj2
    exact h ⟨j, hj, by omega⟩
  have hrun := Gif_Unoptimize_run_of_checks calcsize alloc s hc
  have hst := init_state_keep calcsize s hsize
  have hs0 : TRANSPARENT ∉ (List.replicate (s.screen_width * s.screen_height) (refill s 0)) := by
    intro hm
    have := List.eq_of_mem_replicate hm
    have e : refill s 0 = s.background := by
      show (if (s.image 0).transparent ≥ 0 then TRANSPARENT else s.background) = s.background
      rw [if_neg (by omega)]
    rw [e] at this
    unfold TRANSPARENT at this
    omega
  have key := loop_no_sentinel alloc
    ⟨true, s, List.replicate (s.screen_width * s.screen_height) (refill s 0)⟩
    (by simp) (show s.background ≠ TRANSPARENT by unfold TRANSPARENT; omega)
    (fun j hj => remap_of_canvas_bytes s j (hf j hj).2) hs0 h0
    (fun j hj => ⟨halloc j, fun h => by
      have hd : (s.image j).disposal = Gif_Disposal.background := (hf j hj).1.2.2.2.2
      rw [hd] at h
      simp at h⟩)
    s.images.length (le_refl _)
  have hall : ∀ j, j < s.images.length →
      ((Gif_Unoptimize calcsize alloc s).2.image j).transparent = -1 := by
    intro j hj
    unfold Gif_Unoptimize
    simp only
    rw [hrun, hst]
    exact (key.2.2.2 j hj).2.1
  refine ⟨hall, fun heq => ?_⟩
  obtain ⟨j, hj, hjt⟩ := hsome
  have := hall j hj
  rw [heq] at this
  simp only at this
  omega

/-- For the result of a successful run: a second run leaves it unchanged exactly
when its frame 0 records a transparent index if any of its frames does. -/
theorem Gif_Unoptimize_idempotent_iff (calcsize calcsize2 : Gif_Stream → Nat × Nat)
    (alloc alloc2 : Nat → Alloc) (gfs : Gif_Stream) (hb : gfs.background ≤ 255)
    (hpix : ∀ gfi ∈ gfs.images, byte_pixels gfi)
    (hok : (Gif_Unoptimize calcsize alloc gfs).1 = true)
    (hsize : calcsize2 (Gif_Unoptimize calcsize alloc gfs).2 =
      ((Gif_Unoptimize calcsize alloc gfs).2.screen_width,
       (Gif_Unoptimize calcsize alloc gfs).2.screen_height))
    (halloc : ∀ j, (alloc2 j).new_data = true) :
    Gif_Unoptimize calcsize2 alloc2 (Gif_Unoptimize calcsize alloc gfs).2 =
        (true, (Gif_Unoptimize calcsize alloc gfs).2) ↔
      first_frame_leads (Gif_Unoptimize calcsize alloc gfs).2 := by
  by_cases h1 : gfs.images.length ≤ 1
  · have e : Gif_Unoptimize calcsize alloc gfs = (true, gfs) := by
      simp [Gif_Unoptimize, Gif_Unoptimize_run, h1]
    rw [e]
    constructor
    · intro _
      show first_frame_leads gfs
      by_cases h0 : 0 ≤ (gfs.image 0).transparent
      · exact Or.inl h0
      · right
        intro j hj
        have : j = 0 := by omega
        subst this
        omega
    · intro _
      simp [Gif_Unoptimize, Gif_Unoptimize_run, h1]
  · have hc := passes_checks_of_ok calcsize alloc gfs (by omega) hok
    obtain ⟨hc2, hflat⟩ := Gif_Unoptimize_output_flat calcsize alloc gfs hc hb hpix hok
    have hb2 : (Gif_Unoptimize calcsize alloc gfs).2.background ≤ 255 := by
      have hrun := Gif_Unoptimize_run_of_checks calcsize alloc gfs hc
      unfold Gif_Unoptimize
      simp only
      rw [hrun, (loop_inv alloc (init_state calcsize gfs) gfs.images.length).background]
      exact hb
    constructor
    · intro heq
      by_contra hl
      exact (Gif_Unoptimize_not_fixed calcsize2 alloc2 _ hc2 hb2 hsize halloc hflat hl).2 heq
    · intro hl
      exact Gif_Unoptimize_fixed calcsize2 alloc2 _ hc2 hsize halloc hflat hl

/-- Witness for `Gif_Unoptimize_idempotent_iff`: the result of the run on
`previous_first_stream`. -/
theorem Gif_Unoptimize_idempotent_iff_witness :
    Gif_Unoptimize keep_size (fun _ => Alloc.allOk)
        (Gif_Unoptimize keep_size (fun _ => Alloc.allOk) previous_first_stream).2 =
        (true, (Gif_Unoptimize keep_size (fun _ => Alloc.allOk) previous_first_stream).2) ↔
      first_frame_leads
        (Gif_Unoptimize keep_size (fun _ => Alloc.allOk) previous_first_stream).2 :=
  Gif_Unoptimize_idempotent_iff keep_size keep_size (fun _ => Alloc.allOk)
    (fun _ => Alloc.allOk) previous_first_stream (by decide) (by decide) (by decide) rfl
    (fun _ => rfl)

end Gifunopt
